import Mathlib

/-!
# Invoice lifecycle and payment reconciliation

A shallow embedding of the invoice routes (`server/src/routes/invoices.js`) and of the
Stripe webhook route (`server/src/routes/stripe.js`).

Modelling conventions:
* a JavaScript value that may be `undefined` or `null` is an `Option`;
* timestamps (`new Date()`) are natural numbers handed to the handlers by the caller;
  `POST /` is handed its two readings of the clock, one for `issuedAt` and one for
  `updatedAt`; the other handlers are handed one reading for the timestamps they write;
* the relational store is a record of row lists; `select ... where id = x limit 1` is
  `List.find?`, `update ... set u where id = x` maps `u` over the rows with that id;
* the store raises on an insert that repeats a key and on the value `Infinity` for the
  integer column `amountCents`; other exceptions of the store or of the payment provider
  are outside the model, and so is the width of the integer columns;
* `toLowerCase`, `toUpperCase` and `trim` act on ASCII letters and ASCII white space;
* a finite number of a request is the decimal numeral `mantissa / 10 ^ scale` it is
  written as; `Number` rounds it to binary64 and `amount * 100` is the binary64 product.
-/

set_option exponentiation.threshold 4096

namespace Portal

/-! ## JavaScript helpers -/

/-- Truthiness of a nullable string: `null`, `undefined` and the empty string are falsy. -/
def truthy : Option String → Bool
  | none => false
  | some s => s != ""

/-- The expression `a || b` on nullable strings. -/
def orElse (a b : Option String) : Option String :=
  if truthy a then a else b

/-- The expression `a || b` where `b` is a string literal. -/
def orDefault (a : Option String) (b : String) : String :=
  match a with
  | some s => if s != "" then s else b
  | none => b

/-- The call `Math.round (n / d)` for a positive denominator: the nearest integer,
halves rounded up. -/
def mathRound (n : Int) (d : Nat) : Int := (2 * n + d) / (2 * d)

/-- The nearest integer to `n / d`; a tie goes to the even neighbour. -/
def roundHalfEven (n d : Nat) : Nat :=
  if 2 * (n % d) < d then n / d
  else if d < 2 * (n % d) then n / d + 1
  else if n / d % 2 = 0 then n / d else n / d + 1

/-- For `b ≥ 2` and enough fuel, the pair `(n / b ^ e, e)` where `e` is the largest
exponent with `b ^ e ≤ n`, found by repeated squaring. -/
def logAux : Nat → Nat → Nat → Nat × Nat
  | 0, n, _ => (n, 0)
  | fuel + 1, n, b =>
    if n < b then (n, 0)
    else
      let r := logAux fuel n (b * b)
      if r.1 < b then (r.1, 2 * r.2) else (r.1 / b, 2 * r.2 + 1)

/-- The position of the leading bit of `n`: `2 ^ floorLog2 n ≤ n < 2 ^ (floorLog2 n + 1)`
for `n ≠ 0`, and `floorLog2 0 = 0`. -/
def floorLog2 (n : Nat) : Nat := (logAux n n 2).2

/-- The number of units `2 ^ (-1074)`, the smallest positive binary64 number, in 1. -/
def unitsPerOne : Nat := 2 ^ 1074

/-- A non-negative binary64 number: `units * 2 ^ (-1074)`, or `Infinity`. Every finite
binary64 number is a whole number of units. -/
inductive Binary64 where
  | finite (units : Nat)
  | infinity
deriving DecidableEq, Repr

/-- Rounding to binary64, to nearest with ties to even: the binary64 number nearest to
`p / q` units. Around a number of `t` units the binary64 numbers are
`2 ^ (floorLog2 t - 52)` units apart (53 significant bits, and one unit apart below
`2 ^ 52` units); a result of `2 ^ 1024` or more is `Infinity`. -/
def roundToBinary64 (p q : Nat) : Binary64 :=
  let spacing := 2 ^ (floorLog2 (p / q) - 52)
  let units := roundHalfEven p (q * spacing) * spacing
  if units < 2 ^ 1024 * unitsPerOne then .finite units else .infinity

def toLowerCase (s : String) : String := ⟨s.data.map Char.toLower⟩

def toUpperCase (s : String) : String := ⟨s.data.map Char.toUpper⟩

def trim (s : String) : String :=
  ⟨((s.data.dropWhile Char.isWhitespace).reverse.dropWhile Char.isWhitespace).reverse⟩

/-! ## Data model -/

/-- A row of the `invoices` table. -/
structure Invoice where
  id : String
  workspaceId : String
  clientId : String
  createdBy : String
  invoiceNumber : String
  title : String
  description : Option String
  currency : String
  amountCents : Int
  amountPaidCents : Int
  status : String
  dueDate : Option Nat
  issuedAt : Nat
  paidAt : Option Nat
  stripeCheckoutSessionId : Option String
  stripePaymentIntentId : Option String
  metadata : List (String × String)
  updatedAt : Nat
deriving DecidableEq, Repr

/-- A row of the `clients` table, restricted to the columns the invoice routes read. -/
structure Client where
  id : String
  workspaceId : String
  portalWorkspaceId : Option String
  portalUserId : Option String
  email : Option String
deriving DecidableEq, Repr

/-- A row of the `workspace_members` table. -/
structure WorkspaceMember where
  workspaceId : String
  userId : String
  role : String
deriving DecidableEq, Repr

/-- The authenticated user attached to a request (`req.user`). -/
structure User where
  id : String
  role : String
  email : Option String
deriving DecidableEq, Repr

/-- The relational store. -/
structure Db where
  invoices : List Invoice
  clients : List Client
  workspaceMembers : List WorkspaceMember
deriving DecidableEq, Repr

/-- The object handed to `db.update(invoices).set(...)`: the columns to overwrite. -/
structure InvoiceSet where
  title : Option String
  description : Option (Option String)
  currency : Option String
  dueDate : Option (Option Nat)
  status : Option String
  amountCents : Option Int
  amountPaidCents : Option Int
  paidAt : Option (Option Nat)
  stripeCheckoutSessionId : Option (Option String)
  stripePaymentIntentId : Option (Option String)
  updatedAt : Option Nat
deriving DecidableEq, Repr

/-- The empty update object. -/
def InvoiceSet.empty : InvoiceSet :=
  { title := none, description := none, currency := none, dueDate := none,
    status := none, amountCents := none, amountPaidCents := none, paidAt := none,
    stripeCheckoutSessionId := none, stripePaymentIntentId := none, updatedAt := none }

/-- Overwrite the columns named in `u`. -/
def applySet (u : InvoiceSet) (row : Invoice) : Invoice :=
  { row with
    title := u.title.getD row.title
    description := u.description.getD row.description
    currency := u.currency.getD row.currency
    dueDate := u.dueDate.getD row.dueDate
    status := u.status.getD row.status
    amountCents := u.amountCents.getD row.amountCents
    amountPaidCents := u.amountPaidCents.getD row.amountPaidCents
    paidAt := u.paidAt.getD row.paidAt
    stripeCheckoutSessionId := u.stripeCheckoutSessionId.getD row.stripeCheckoutSessionId
    stripePaymentIntentId := u.stripePaymentIntentId.getD row.stripePaymentIntentId
    updatedAt := u.updatedAt.getD row.updatedAt }

/-- The query `select from invoices where id = x limit 1`. -/
def getInvoice (db : Db) (id : String) : Option Invoice :=
  db.invoices.find? (fun r => r.id == id)

/-- The statement `update invoices set u where id = x`. -/
def updateInvoices (db : Db) (id : String) (u : InvoiceSet) : Db :=
  { db with invoices := db.invoices.map (fun r => if r.id == id then applySet u r else r) }

/-- The five invoice statuses. -/
def INVOICE_STATUSES : List String :=
  ["DRAFT", "SENT", "PARTIALLY_PAID", "PAID", "VOID"]

/-- The value of a request's `dueDate`: falsy, a string `Date` cannot parse, or a date. -/
inductive RawDate where
  | falsy
  | invalid
  | valid (t : Nat)
deriving DecidableEq, Repr

def toIsoOrNull : RawDate → Option Nat
  | .falsy => none
  | .invalid => none
  | .valid t => some t

/-- Truthiness of a request's `dueDate`. -/
def RawDate.truthy : RawDate → Bool
  | .falsy => false
  | _ => true

def normalizeCurrency (value : Option String) : String :=
  match value with
  | none => "USD"
  | some v => if v == "" then "USD" else toUpperCase (trim v)

/-- The value of a request's `amount` other than `undefined`: `null`, the empty string,
something `Number` turns into NaN or an infinity, or the decimal numeral
`mantissa / 10 ^ scale`. -/
inductive RawAmount where
  | null
  | emptyString
  | nonFinite
  | finite (mantissa : Int) (scale : Nat)
deriving DecidableEq, Repr

/-- The value of `Math.round(amount * 100)` for a positive `amount`: an integer, or
`Infinity` when the product overflows. -/
inductive Cents where
  | integer (n : Int)
  | infinity
deriving DecidableEq, Repr

/-- The function `parseAmountCents`. A numeral that is not positive gives a number that
is not positive; for a positive one `amount` is its rounding to binary64, which may be
`Infinity` or 0, and `amount * 100` the rounding of the product. -/
def parseAmountCents : RawAmount → Option Cents
  | .null => none
  | .emptyString => none
  | .nonFinite => none
  | .finite mantissa scale =>
    if mantissa ≤ 0 then none
    else
      match roundToBinary64 (mantissa.toNat * unitsPerOne) (10 ^ scale) with
      | .infinity => none
      | .finite amount =>
        if amount = 0 then none
        else
          match roundToBinary64 (amount * 100) 1 with
          | .infinity => some .infinity
          | .finite product => some (.integer (mathRound product unitsPerOne))

/-- Modelled from the spec: the column `amountCents` of `db/schema.js`, which is not
among the sources, holds integers: the store takes an integer as it is and raises on
`Infinity`. -/
def storedAmountCents : Cents → Option Int
  | .integer n => some n
  | .infinity => none

/-! ## Authorization -/

def getWorkspaceMembership (db : Db) (workspaceId userId : String) : Option WorkspaceMember :=
  db.workspaceMembers.find? (fun m => m.workspaceId == workspaceId && m.userId == userId)

def getClientRecord (db : Db) (clientId : String) : Option Client :=
  db.clients.find? (fun c => c.id == clientId)

/-- Modelled from the spec: `isWorkspaceAdmin` of `lib/permissions.js`, which is not
among the sources: the user is an admin member of the workspace. -/
def isWorkspaceAdmin (db : Db) (userId workspaceId : String) : Bool :=
  db.workspaceMembers.any
    (fun m => m.workspaceId == workspaceId && m.userId == userId && m.role == "ADMIN")

def canManageClientInvoices (db : Db) (user : User) (client : Option Client) : Bool :=
  if user.role == "ADMIN" then true
  else
    match client with
    | none => false
    | some c =>
      if isWorkspaceAdmin db user.id c.workspaceId then true
      else
        match c.portalWorkspaceId with
        | some w => if w != "" then isWorkspaceAdmin db user.id w else false
        | none => false

def canAccessInvoice (db : Db) (user : User) (invoice : Invoice) (client : Option Client) :
    Bool :=
  if user.role == "ADMIN" then true
  else
    match getWorkspaceMembership db invoice.workspaceId user.id with
    | none => false
    | some membership =>
      if membership.role == "ADMIN" then true
      else if membership.role == "CLIENT" then
        let portalUserId := client.bind (fun c => c.portalUserId)
        let email := client.bind (fun c => c.email)
        if truthy portalUserId && portalUserId == some user.id then true
        else if truthy email && truthy user.email then
          email.map toLowerCase == user.email.map toLowerCase
        else false
      else true

/-! ## Responses -/

/-- The JSON body of a response; `unhandled` stands for an error handed to `next`, which
the application's error handler answers (with status 500). -/
inductive Body where
  | message (text : String)
  | invoice (row : Option Invoice)
  | rows (rows : List Invoice)
  | checkout (sessionId : String) (url : String)
  | received
  | unhandled
deriving DecidableEq, Repr

/-- An HTTP response: status code and JSON body. -/
structure Response where
  status : Nat
  body : Body
deriving DecidableEq, Repr

/-! ## Create -/

/-- The body of `POST /`; `none` is `undefined`. -/
structure CreateBody where
  clientId : Option String
  title : Option String
  description : Option String
  currency : Option String
  amount : Option RawAmount
  dueDate : Option RawDate
  invoiceNumber : Option String
  status : Option String
  metadata : Option (List (String × String))
deriving DecidableEq, Repr

/-- The call `String(count).padStart(4, '0')`. -/
def padStart4 (s : String) : String :=
  ⟨List.replicate (4 - s.length) '0' ++ s.data⟩

def getNextInvoiceNumber (db : Db) (workspaceId : String) (year : Nat) : String :=
  let count := (db.invoices.filter (fun r => r.workspaceId == workspaceId)).length + 1
  "INV-" ++ toString year ++ "-" ++ padStart4 (toString count)

/-- Modelled from the spec: the default of the column `paidAt` in `db/schema.js`, which
is not among the sources: `paidAt` is "set when status becomes PAID", null before. -/
def defaultPaidAt : Option Nat := none

/-- Modelled from the spec: the default of the columns `stripeCheckoutSessionId` and
`stripePaymentIntentId` in `db/schema.js`, which is not among the sources: the
references are "set by Checkout Session Initiator and Webhook Reconciler", null before. -/
def defaultStripeReference : Option String := none

/-- The row `POST /` inserts, or the error it answers. `newId` is the result of
`generateId`, `year` the UTC year read by `getNextInvoiceNumber`, `issuedNow` and
`updatedNow` the two readings of the clock in the inserted values. The columns the
insert leaves out (`paidAt`, the two Stripe references) take their defaults. An
`amountCents` of `Infinity` makes the insert raise. -/
def createInvoice (db : Db) (user : User) (body : CreateBody) (newId : String)
    (year issuedNow updatedNow : Nat) : Except Response Invoice :=
  if !truthy body.clientId || !truthy body.title || body.amount.isNone then
    .error ⟨400, .message "clientId, title, and amount are required"⟩
  else
    match getClientRecord db (body.clientId.getD "") with
    | none => .error ⟨404, .message "Client not found"⟩
    | some client =>
      if !canManageClientInvoices db user (some client) then
        .error ⟨403, .message "Forbidden"⟩
      else
        match body.amount.bind parseAmountCents with
        | none => .error ⟨400, .message "amount must be greater than 0"⟩
        | some amountCents =>
          if amountCents == .integer 0 then
            .error ⟨400, .message "amount must be greater than 0"⟩
          else
            let invoiceWorkspaceId := orDefault client.portalWorkspaceId client.workspaceId
            let safeStatus :=
              match body.status with
              | some s => if INVOICE_STATUSES.contains s then s else "SENT"
              | none => "SENT"
            let dueDateParsed := body.dueDate.bind toIsoOrNull
            if (body.dueDate.getD .falsy).truthy && dueDateParsed.isNone then
              .error ⟨400, .message "dueDate is invalid"⟩
            else
              let nextInvoiceNumber :=
                if truthy body.invoiceNumber && trim (body.invoiceNumber.getD "") != "" then
                  trim (body.invoiceNumber.getD "")
                else getNextInvoiceNumber db invoiceWorkspaceId year
              match storedAmountCents amountCents with
              | none => .error ⟨500, .unhandled⟩
              | some storedCents =>
                .ok
                  { id := newId
                    workspaceId := invoiceWorkspaceId
                    clientId := body.clientId.getD ""
                    createdBy := user.id
                    invoiceNumber := nextInvoiceNumber
                    title := trim (body.title.getD "")
                    description :=
                      if truthy body.description then some (trim (body.description.getD ""))
                      else none
                    currency := normalizeCurrency body.currency
                    amountCents := storedCents
                    amountPaidCents := 0
                    status := safeStatus
                    dueDate := dueDateParsed
                    issuedAt := issuedNow
                    paidAt := defaultPaidAt
                    stripeCheckoutSessionId := defaultStripeReference
                    stripePaymentIntentId := defaultStripeReference
                    metadata := body.metadata.getD []
                    updatedAt := updatedNow }

/-- Modelled from the spec: the uniqueness constraints of the table `invoices` in
`db/schema.js`, which is not among the sources: "exactly one Invoice row exists per id"
and "invoiceNumber is unique within its workspace". The insert of `row` raises a
`duplicate key value` error when a stored row has its id, or its workspace and invoice
number. -/
def duplicateKey (db : Db) (row : Invoice) : Bool :=
  db.invoices.any (fun r =>
    r.id == row.id || (r.workspaceId == row.workspaceId && r.invoiceNumber == row.invoiceNumber))

/-- The route `POST /`. -/
def createRoute (db : Db) (user : User) (body : CreateBody) (newId : String)
    (year issuedNow updatedNow : Nat) : Response × Db :=
  match createInvoice db user body newId year issuedNow updatedNow with
  | .error r => (r, db)
  | .ok row =>
    if duplicateKey db row then (⟨409, .message "invoiceNumber already exists"⟩, db)
    else
      let db1 := { db with invoices := db.invoices ++ [row] }
      (⟨201, .invoice (getInvoice db1 newId)⟩, db1)

/-! ## Update -/

/-- The body of `PATCH /:id`; `none` is `undefined`. A `null` title, description or
currency behaves as the empty string does. -/
structure PatchBody where
  title : Option String
  description : Option String
  currency : Option String
  dueDate : Option RawDate
  status : Option String
  amount : Option RawAmount
deriving DecidableEq, Repr

/-- The `title` block of `PATCH /:id`. -/
def patchTitle (body : PatchBody) (updates : InvoiceSet) : Except String InvoiceSet :=
  match body.title with
  | none => .ok updates
  | some t =>
    if trim t == "" then .error "title cannot be empty"
    else .ok { updates with title := some (trim t) }

/-- The `description` block of `PATCH /:id`. -/
def patchDescription (body : PatchBody) (updates : InvoiceSet) : InvoiceSet :=
  match body.description with
  | none => updates
  | some d => { updates with description := some (if d != "" then some (trim d) else none) }

/-- The `currency` block of `PATCH /:id`. -/
def patchCurrency (body : PatchBody) (updates : InvoiceSet) : InvoiceSet :=
  match body.currency with
  | none => updates
  | some c => { updates with currency := some (normalizeCurrency (some c)) }

/-- The `dueDate` block of `PATCH /:id`. -/
def patchDueDate (body : PatchBody) (updates : InvoiceSet) : Except String InvoiceSet :=
  match body.dueDate with
  | none => .ok updates
  | some d =>
    if d.truthy && (toIsoOrNull d).isNone then .error "dueDate is invalid"
    else .ok { updates with dueDate := some (toIsoOrNull d) }

/-- The `status` block of `PATCH /:id`. -/
def patchStatus (invoice : Invoice) (body : PatchBody) (now : Nat) (updates : InvoiceSet) :
    Except String InvoiceSet :=
  match body.status with
  | none => .ok updates
  | some s =>
    if !INVOICE_STATUSES.contains s then .error "Invalid status"
    else
      let u1 := { updates with status := some s }
      let u2 :=
        if s == "PAID" then
          { u1 with amountPaidCents := some invoice.amountCents, paidAt := some (some now) }
        else u1
      .ok (if s == "VOID" then { u2 with paidAt := some none } else u2)

/-- The `amount` block of `PATCH /:id`, the last before `db.update`. An `amountCents` of
`Infinity` passes the test `!amountCents` and makes the update raise. -/
def patchAmount (invoice : Invoice) (body : PatchBody) (updates : InvoiceSet) :
    Except Response InvoiceSet :=
  match body.amount with
  | none => .ok updates
  | some raw =>
    if invoice.status == "PAID" then
      .error ⟨400, .message "Cannot change amount on a paid invoice"⟩
    else
      match parseAmountCents raw with
      | none => .error ⟨400, .message "amount must be greater than 0"⟩
      | some amountCents =>
        if amountCents == .integer 0 then
          .error ⟨400, .message "amount must be greater than 0"⟩
        else
          match storedAmountCents amountCents with
          | none => .error ⟨500, .unhandled⟩
          | some storedCents => .ok { updates with amountCents := some storedCents }

/-- The `updates` object `PATCH /:id` hands to `db.update` for the stored `invoice`, or
the response it answers instead. The blocks run in the order of the source. -/
def patchUpdates (invoice : Invoice) (body : PatchBody) (now : Nat) :
    Except Response InvoiceSet :=
  match patchTitle body { InvoiceSet.empty with updatedAt := some now } with
  | .error m => .error ⟨400, .message m⟩
  | .ok u1 =>
    match patchDueDate body (patchCurrency body (patchDescription body u1)) with
    | .error m => .error ⟨400, .message m⟩
    | .ok u2 =>
      match patchStatus invoice body now u2 with
      | .error m => .error ⟨400, .message m⟩
      | .ok u3 => patchAmount invoice body u3

/-- The route `PATCH /:id`. -/
def patchRoute (db : Db) (user : User) (id : String) (body : PatchBody) (now : Nat) :
    Response × Db :=
  match getInvoice db id with
  | none => (⟨404, .message "Invoice not found"⟩, db)
  | some invoice =>
    if !canManageClientInvoices db user (getClientRecord db invoice.clientId) then
      (⟨403, .message "Forbidden"⟩, db)
    else
      match patchUpdates invoice body now with
      | .error r => (r, db)
      | .ok updates =>
        let db1 := updateInvoices db invoice.id updates
        (⟨200, .invoice (getInvoice db1 invoice.id)⟩, db1)

/-! ## Checkout-session initiation -/

/-- The environment variables the routes read. -/
structure Env where
  STRIPE_SECRET_KEY : Option String
  STRIPE_WEBHOOK_SECRET : Option String
  APP_BASE_URL : Option String
deriving DecidableEq, Repr

def isStripeConfigured (env : Env) : Bool := truthy env.STRIPE_SECRET_KEY

/-- The argument of `stripe.checkout.sessions.create`, with its single line item. -/
structure CheckoutParams where
  mode : String
  client_reference_id : String
  customer_email : Option String
  metadataInvoiceId : String
  metadataWorkspaceId : String
  metadataClientId : String
  success_url : String
  cancel_url : String
  currency : String
  productName : String
  productDescription : Option String
  unit_amount : Int
  quantity : Nat
deriving DecidableEq, Repr

/-- The session object the provider answers with. -/
structure ProviderSession where
  id : String
  url : String
deriving DecidableEq, Repr

/-- The test `/^[a-z]{3}$/`. -/
def isThreeLowercaseLetters (s : String) : Bool :=
  s.data.length == 3 && s.data.all (fun c => decide (97 ≤ c.toNat) && decide (c.toNat ≤ 122))

/-- The value `remainingAmountCents` of both routes. -/
def remainingAmountCents (invoice : Invoice) : Int :=
  max 0 (invoice.amountCents - invoice.amountPaidCents)

/-- The request `POST /:id/checkout-session` sends to the provider for `invoice`, or the
error it answers before any provider call. -/
def checkoutParams (env : Env) (db : Db) (user : User) (invoice : Invoice) :
    Except Response CheckoutParams :=
  let client := getClientRecord db invoice.clientId
  if !canAccessInvoice db user invoice client then .error ⟨403, .message "Forbidden"⟩
  else if invoice.status == "PAID" || invoice.status == "VOID" then
    .error ⟨400, .message ("Invoice is " ++ toLowerCase invoice.status)⟩
  else if remainingAmountCents invoice == 0 then
    .error ⟨400, .message "Invoice has no remaining balance"⟩
  else
    let appBaseUrl := orDefault env.APP_BASE_URL "http://localhost:5173"
    let currency := toLowerCase (trim (orDefault (some invoice.currency) "USD"))
    if !isThreeLowercaseLetters currency then
      .error ⟨400, .message "Invoice currency is invalid"⟩
    else
      .ok
        { mode := "payment"
          client_reference_id := invoice.id
          customer_email := orElse (client.bind (fun c => c.email)) user.email
          metadataInvoiceId := invoice.id
          metadataWorkspaceId := invoice.workspaceId
          metadataClientId := invoice.clientId
          success_url := appBaseUrl ++ "/client-invoices?checkout=success"
          cancel_url := appBaseUrl ++ "/client-invoices?checkout=cancel"
          currency := currency
          productName := invoice.title
          productDescription := orElse invoice.description none
          unit_amount := remainingAmountCents invoice
          quantity := 1 }

/-- The object the checkout route hands to `set` once the provider has answered. -/
def checkoutSet (invoice : Invoice) (session : ProviderSession) (now : Nat) : InvoiceSet :=
  { InvoiceSet.empty with
    stripeCheckoutSessionId := some (some session.id)
    status := some (if invoice.status == "DRAFT" then "SENT" else invoice.status)
    updatedAt := some now }

/-- What `POST /:id/checkout-session` does: its response, the store it leaves and the
requests it sent to the provider. -/
structure CheckoutOutcome where
  response : Response
  db : Db
  providerCalls : List CheckoutParams
deriving DecidableEq, Repr

/-- The route `POST /:id/checkout-session`; `stripe` is the provider's
`checkout.sessions.create`. -/
def checkoutRoute (env : Env) (stripe : CheckoutParams → ProviderSession) (db : Db)
    (user : User) (id : String) (now : Nat) : CheckoutOutcome :=
  if !isStripeConfigured env then
    ⟨⟨503, .message "Stripe is not configured on this server"⟩, db, []⟩
  else
    match getInvoice db id with
    | none => ⟨⟨404, .message "Invoice not found"⟩, db, []⟩
    | some invoice =>
      match checkoutParams env db user invoice with
      | .error r => ⟨r, db, []⟩
      | .ok params =>
        let session := stripe params
        ⟨⟨200, .checkout session.id session.url⟩,
          updateInvoices db invoice.id (checkoutSet invoice session now), [params]⟩

/-! ## Webhook -/

/-- The checkout session carried by an event (`event.data.object`), restricted to the
fields the webhook reads; `metadataInvoiceId` is `session.metadata?.invoiceId`. -/
structure CheckoutSession where
  id : String
  metadataInvoiceId : Option String
  client_reference_id : Option String
  amount_total : Option Int
  currency : Option String
  payment_status : String
  payment_intent : Option String
deriving DecidableEq, Repr

/-- A verified event, as `stripe.webhooks.constructEvent` returns it. -/
structure StripeEvent where
  type : String
  session : CheckoutSession
deriving DecidableEq, Repr

/-- The invoice id an event names: `metadata.invoiceId || client_reference_id`, when
truthy. -/
def resolveInvoiceId (session : CheckoutSession) : Option String :=
  let invoiceId := orElse session.metadataInvoiceId session.client_reference_id
  if truthy invoiceId then invoiceId else none

/-- The condition under which the webhook settles `invoice` with `session`. -/
def shouldSettle (invoice : Invoice) (session : CheckoutSession) : Bool :=
  let expectedCurrency := toLowerCase (orDefault (some invoice.currency) "USD")
  let sessionAmount := session.amount_total.getD 0
  let sessionCurrency := toLowerCase (orDefault session.currency "")
  let isPaid := session.payment_status == "paid"
  let matchesCurrency := sessionCurrency == expectedCurrency
  let matchesAmount := sessionAmount == remainingAmountCents invoice
  let matchesSessionId :=
    !truthy invoice.stripeCheckoutSessionId ||
      invoice.stripeCheckoutSessionId == some session.id
  invoice.status != "PAID" && invoice.status != "VOID" &&
    decide (remainingAmountCents invoice > 0) && isPaid && matchesCurrency &&
    matchesAmount && matchesSessionId

/-- The object the webhook hands to `set` when it settles. -/
def settleSet (invoice : Invoice) (session : CheckoutSession) (now : Nat) : InvoiceSet :=
  { InvoiceSet.empty with
    status := some "PAID"
    amountPaidCents := some invoice.amountCents
    paidAt := some (some now)
    stripeCheckoutSessionId := some (orElse (some session.id) invoice.stripeCheckoutSessionId)
    stripePaymentIntentId := some (orElse session.payment_intent invoice.stripePaymentIntentId)
    updatedAt := some now }

/-- The processing of a verified event (the second `try` block of the webhook route). -/
def handleEvent (db : Db) (event : StripeEvent) (now : Nat) : Db :=
  if event.type == "checkout.session.completed" then
    match resolveInvoiceId event.session with
    | none => db
    | some invoiceId =>
      match getInvoice db invoiceId with
      | none => db
      | some invoice =>
        if shouldSettle invoice event.session then
          updateInvoices db invoice.id (settleSet invoice event.session now)
        else db
  else db

/-- The route `POST /webhook`; `constructEvent` is the outcome of the signature check,
the verified event or the error message. -/
def webhookRoute (env : Env) (signature : Option String)
    (constructEvent : Except String StripeEvent) (db : Db) (now : Nat) : Response × Db :=
  if !isStripeConfigured env || !truthy env.STRIPE_WEBHOOK_SECRET then
    (⟨503, .message "Stripe webhook is not configured"⟩, db)
  else if !truthy signature then
    (⟨400, .message "Missing stripe-signature header"⟩, db)
  else
    match constructEvent with
    | .error m => (⟨400, .message ("Webhook Error: " ++ m)⟩, db)
    | .ok event => (⟨200, .received⟩, handleEvent db event now)

/-! ## The life of one stored invoice

`getInvoice db id` is the stored invoice a route works on. The functions below give
what each route does to that row; `getInvoice_patchRoute`, `getInvoice_checkoutRoute`
and `getInvoice_handleEvent` relate them to the routes. -/

/-- A request that reaches the subsystem after an invoice was created. Each carries the
store it is served against (read for authorization only). -/
inductive Op where
  | patch (db : Db) (user : User) (body : PatchBody) (now : Nat)
  | checkout (env : Env) (stripe : CheckoutParams → ProviderSession) (db : Db) (user : User)
      (now : Nat)
  | webhook (event : StripeEvent) (now : Nat)

/-- The stored invoice after `PATCH /:id`. -/
def patchRow (db : Db) (user : User) (invoice : Invoice) (body : PatchBody) (now : Nat) :
    Invoice :=
  if !canManageClientInvoices db user (getClientRecord db invoice.clientId) then invoice
  else
    match patchUpdates invoice body now with
    | .error _ => invoice
    | .ok updates => applySet updates invoice

/-- The stored invoice after `POST /:id/checkout-session`. -/
def checkoutRow (env : Env) (stripe : CheckoutParams → ProviderSession) (db : Db)
    (user : User) (invoice : Invoice) (now : Nat) : Invoice :=
  if !isStripeConfigured env then invoice
  else
    match checkoutParams env db user invoice with
    | .error _ => invoice
    | .ok params => applySet (checkoutSet invoice (stripe params) now) invoice

/-- Whether a verified event makes the webhook write to the stored `invoice`. -/
def settles (invoice : Invoice) (event : StripeEvent) : Bool :=
  event.type == "checkout.session.completed" &&
    resolveInvoiceId event.session == some invoice.id &&
    shouldSettle invoice event.session

/-- The stored invoice after the webhook processed a verified event. -/
def webhookRow (invoice : Invoice) (event : StripeEvent) (now : Nat) : Invoice :=
  if settles invoice event then applySet (settleSet invoice event.session now) invoice
  else invoice

/-- The stored invoice after an operation. -/
def applyOp (invoice : Invoice) : Op → Invoice
  | .patch db user body now => patchRow db user invoice body now
  | .checkout env stripe db user now => checkoutRow env stripe db user invoice now
  | .webhook event now => webhookRow invoice event now

/-- The stored invoice after a sequence of operations. -/
def run (invoice : Invoice) : List Op → Invoice
  | [] => invoice
  | op :: ops => run (applyOp invoice op) ops

/-- Whether an operation is a webhook delivery that performs the settlement write. -/
def isSettlement (invoice : Invoice) : Op → Bool
  | .webhook event _ => settles invoice event
  | _ => false

/-- The number of settlement writes the webhook performs along a sequence of
operations. -/
def settlementWrites (invoice : Invoice) : List Op → Nat
  | [] => 0
  | op :: ops =>
    (if isSettlement invoice op then 1 else 0) + settlementWrites (applyOp invoice op) ops

/-- A condition on each operation of a sequence, read against the invoice the operation
meets. -/
def allAlong (p : Invoice → Op → Bool) (invoice : Invoice) : List Op → Bool
  | [] => true
  | op :: ops => p invoice op && allAlong p (applyOp invoice op) ops

/-- The operation is not a PATCH that carries `status = PAID` together with an amount,
nor a PATCH whose amount is below what the invoice records as paid. -/
def keepsAmountAbovePaid (invoice : Invoice) : Op → Bool
  | .patch _ _ body _ =>
    match body.amount with
    | none => true
    | some raw =>
      body.status != some "PAID" &&
        (match parseAmountCents raw with
          | some (.integer amountCents) => decide (invoice.amountPaidCents ≤ amountCents)
          | _ => true)
  | _ => true

/-- The operation is not a PATCH that moves a PAID invoice to another status. -/
def keepsPaid (invoice : Invoice) : Op → Bool
  | .patch db user body now =>
    !(invoice.status == "PAID") || (patchRow db user invoice body now).status == "PAID"
  | _ => true

/-- The operation is not a PATCH that carries `status = PAID` together with an amount. -/
def notPaidWithAmount (_invoice : Invoice) : Op → Bool
  | .patch _ _ body _ => !(body.status == some "PAID" && body.amount.isSome)
  | _ => true

/-! ## Sample data -/

/-- A platform administrator. -/
def sampleAdmin : User := { id := "u_admin", role := "ADMIN", email := some "admin@example.com" }

/-- A store with one client and no invoice. -/
def sampleDb : Db :=
  { invoices := []
    clients :=
      [{ id := "cl_1", workspaceId := "ws_1", portalWorkspaceId := none, portalUserId := none,
         email := some "client@example.com" }]
    workspaceMembers := [] }

/-- A create request for 100.00 in the default currency and status. -/
def sampleCreate : CreateBody :=
  { clientId := some "cl_1", title := some "Website", description := none, currency := none,
    amount := some (.finite 100 0), dueDate := none, invoiceNumber := none, status := none,
    metadata := none }

/-- The empty PATCH body. -/
def emptyPatch : PatchBody :=
  { title := none, description := none, currency := none, dueDate := none, status := none,
    amount := none }

/-- The invoice `sampleCreate` stores: SENT, 10000 cents, nothing paid. -/
def sampleInvoice : Invoice :=
  { id := "inv_1", workspaceId := "ws_1", clientId := "cl_1", createdBy := "u_admin",
    invoiceNumber := "INV-2024-0001", title := "Website", description := none,
    currency := "USD", amountCents := 10000, amountPaidCents := 0, status := "SENT",
    dueDate := none, issuedAt := 1, paidAt := none, stripeCheckoutSessionId := none,
    stripePaymentIntentId := none, metadata := [], updatedAt := 1 }

/-- A completed-checkout event paying 10000 cents in USD for `inv_1`. -/
def sampleEvent : StripeEvent :=
  { type := "checkout.session.completed"
    session :=
      { id := "cs_1", metadataInvoiceId := some "inv_1", client_reference_id := some "inv_1",
        amount_total := some 10000, currency := some "usd", payment_status := "paid",
        payment_intent := some "pi_1" } }

/-- The store after `sampleCreate` was served. -/
def sampleStore : Db := (createRoute sampleDb sampleAdmin sampleCreate "inv_1" 2024 1 1).2

/-- An administrator marks the invoice paid, reopens it as SENT, then lowers the amount
to 50.00. -/
def reopenAndLower : List Op :=
  [.patch sampleDb sampleAdmin { emptyPatch with status := some "PAID" } 2,
   .patch sampleDb sampleAdmin { emptyPatch with status := some "SENT" } 3,
   .patch sampleDb sampleAdmin { emptyPatch with amount := some (.finite 50 0) } 4]

/-- An administrator raises the amount to 200.00 and then marks the invoice paid. -/
def raiseThenPay : List Op :=
  [.patch sampleDb sampleAdmin { emptyPatch with amount := some (.finite 200 0) } 2,
   .patch sampleDb sampleAdmin { emptyPatch with status := some "PAID" } 3]

/-- An administrator marks the invoice paid and then voids it. -/
def payThenVoid : List Op :=
  [.patch sampleDb sampleAdmin { emptyPatch with status := some "PAID" } 2,
   .patch sampleDb sampleAdmin { emptyPatch with status := some "VOID" } 3]

/-- The invoice a create request with `status = PAID` stores. -/
def paidUnsettled : Invoice := { sampleInvoice with status := "PAID" }

/-- The six conditions under which the webhook may settle, as the specification words
them. -/
def SettleConditionsAsStated (invoice : Invoice) (session : CheckoutSession) : Prop :=
  invoice.status ≠ "PAID" ∧ invoice.status ≠ "VOID" ∧
    0 < invoice.amountCents - invoice.amountPaidCents ∧
    session.payment_status = "paid" ∧
    toLowerCase (session.currency.getD "") = toLowerCase invoice.currency ∧
    session.amount_total = some (invoice.amountCents - invoice.amountPaidCents) ∧
    (invoice.stripeCheckoutSessionId = none ∨
      invoice.stripeCheckoutSessionId = some session.id)

/-- The six conditions with two precisions: an empty invoice currency counts as USD, and
an empty recorded session id counts as none recorded. -/
def SettleConditions (invoice : Invoice) (session : CheckoutSession) : Prop :=
  invoice.status ≠ "PAID" ∧ invoice.status ≠ "VOID" ∧
    0 < invoice.amountCents - invoice.amountPaidCents ∧
    session.payment_status = "paid" ∧
    toLowerCase (session.currency.getD "") =
      toLowerCase (if invoice.currency = "" then "USD" else invoice.currency) ∧
    session.amount_total = some (invoice.amountCents - invoice.amountPaidCents) ∧
    (truthy invoice.stripeCheckoutSessionId = false ∨
      invoice.stripeCheckoutSessionId = some session.id)

/-- The store after a create request whose currency is blank. -/
def blankCurrencyStore : Db :=
  (createRoute sampleDb sampleAdmin { sampleCreate with currency := some "  " } "inv_1" 2024 1 1).2

/-- The invoice that request stores: its currency is the empty string. -/
def blankCurrencyInvoice : Invoice := { sampleInvoice with currency := "" }

/-- The sample event with a total that is one cent short. -/
def shortEvent : StripeEvent :=
  { sampleEvent with session := { sampleEvent.session with amount_total := some 9999 } }

/-- The webhook settles the invoice, an administrator reopens it as SENT and raises the
amount to 200.00, and the provider delivers the same event again. -/
def settleReopenRaise : List Op :=
  [.webhook sampleEvent 2,
   .patch sampleDb sampleAdmin { emptyPatch with status := some "SENT" } 3,
   .patch sampleDb sampleAdmin { emptyPatch with amount := some (.finite 200 0) } 4,
   .webhook sampleEvent 5]

/-- The store after the first three operations of `settleReopenRaise` went through the
routes. -/
def reopenedStore : Db :=
  (patchRoute
    (patchRoute (handleEvent sampleStore sampleEvent 2) sampleAdmin "inv_1"
      { emptyPatch with status := some "SENT" } 3).2
    sampleAdmin "inv_1" { emptyPatch with amount := some (.finite 200 0) } 4).2

/-- Two deliveries of the sample event with a checkout-session initiation in between. -/
def deliverTwice : List Op :=
  [.webhook sampleEvent 2,
   .checkout { STRIPE_SECRET_KEY := some "sk", STRIPE_WEBHOOK_SECRET := some "wh",
               APP_BASE_URL := none }
     (fun _ => { id := "cs_2", url := "https://checkout.example/cs_2" }) sampleDb sampleAdmin 3,
   .webhook sampleEvent 4]

/-- A PATCH body carrying `status = PAID` together with the amount 50.00. -/
def paidWithAmount : PatchBody :=
  { emptyPatch with status := some "PAID", amount := some (.finite 50 0) }

/-- The invoice `paidWithAmount` leaves: PAID, 5000 cents due, 10000 cents paid. -/
def paidOverAmount : Invoice :=
  { sampleInvoice with
    status := "PAID", amountCents := 5000, amountPaidCents := 10000, paidAt := some 2,
    updatedAt := 2 }

/-- An environment with both Stripe secrets set. -/
def sampleEnv : Env :=
  { STRIPE_SECRET_KEY := some "sk_test", STRIPE_WEBHOOK_SECRET := some "whsec", APP_BASE_URL := none }

/-- A completed-checkout event naming an invoice that is not stored. -/
def strayEvent : StripeEvent :=
  { sampleEvent with
    session := { sampleEvent.session with
      metadataInvoiceId := some "inv_404", client_reference_id := none } }

/-- The columns of an update object other than the descriptive ones. -/
def InvoiceSet.core (u : InvoiceSet) :
    Option String × Option Int × Option Int × Option (Option Nat) × Option (Option String) ×
      Option (Option String) × Option Nat :=
  (u.status, u.amountCents, u.amountPaidCents, u.paidAt, u.stripeCheckoutSessionId,
    u.stripePaymentIntentId, u.updatedAt)

/-! ## Listing -/

def resolveClientIdsForPortalUser (db : Db) (workspaceId : Option String) (user : User) :
    List String :=
  if !truthy workspaceId || !truthy (some user.id) then []
  else
    ((db.clients.filter (fun c => c.portalWorkspaceId == workspaceId)).filter
      (fun client =>
        if truthy client.portalUserId && client.portalUserId == some user.id then true
        else if !truthy client.email || !truthy user.email then false
        else client.email.map toLowerCase == user.email.map toLowerCase)).map
      (fun client => client.id)

/-- The route `GET /` with the query parameters `workspaceId` and `clientId`. The rows
come in the order of the store; the ordering by `createdAt` is not modelled. -/
def listRoute (db : Db) (user : User) (workspaceId clientId : Option String) : Response :=
  if !truthy workspaceId && !truthy clientId then
    ⟨400, .message "workspaceId or clientId is required"⟩
  else if truthy clientId then
    match getClientRecord db (clientId.getD "") with
    | none => ⟨404, .message "Client not found"⟩
    | some client =>
      if !canManageClientInvoices db user (some client) then ⟨403, .message "Forbidden"⟩
      else ⟨200, .rows (db.invoices.filter (fun r => r.clientId == client.id))⟩
  else
    let membership := getWorkspaceMembership db (workspaceId.getD "") user.id
    if membership.isNone && user.role != "ADMIN" then ⟨403, .message "Forbidden"⟩
    else if user.role == "CLIENT" || membership.map (fun m => m.role) == some "CLIENT" then
      let ownClientIds := resolveClientIdsForPortalUser db workspaceId user
      if ownClientIds.isEmpty then ⟨200, .rows []⟩
      else
        ⟨200, .rows (db.invoices.filter
          (fun r => r.workspaceId == workspaceId.getD "" && ownClientIds.contains r.clientId))⟩
    else ⟨200, .rows (db.invoices.filter (fun r => r.workspaceId == workspaceId.getD ""))⟩

/-- The rows of a response, none when it is not a list. -/
def Response.rows (r : Response) : List Invoice :=
  match r.body with
  | .rows rows => rows
  | _ => []

/-! ## The specification's wording of the authorization and checkout rules -/

/-- The currency handed to the provider: the invoice currency, `USD` standing in for an
empty one, trimmed and lowercased. -/
def checkoutCurrency (invoice : Invoice) : String :=
  toLowerCase (trim (if invoice.currency = "" then "USD" else invoice.currency))

/-- The string consists of exactly three letters `a` to `z` (character codes 97 to 122). -/
def ThreeLettersAtoZ (s : String) : Prop :=
  s.data.length = 3 ∧ ∀ c ∈ s.data, 97 ≤ c.toNat ∧ c.toNat ≤ 122

/-- The client record matches the user: its `portalUserId` is set and equals the user's
id, or both emails are present and equal ignoring case. -/
def ClientMatchesUser (user : User) (client : Option Client) : Prop :=
  ∃ c, client = some c ∧
    ((truthy c.portalUserId = true ∧ c.portalUserId = some user.id) ∨
      (truthy c.email = true ∧ truthy user.email = true ∧
        c.email.map toLowerCase = user.email.map toLowerCase))

/-- The access rule as the specification words it. -/
def CanAccessInvoiceSpec (db : Db) (user : User) (invoice : Invoice) (client : Option Client) :
    Prop :=
  user.role = "ADMIN" ∨
    ∃ m, getWorkspaceMembership db invoice.workspaceId user.id = some m ∧
      (m.role = "ADMIN" ∨ (m.role = "CLIENT" ∧ ClientMatchesUser user client) ∨
        (m.role ≠ "ADMIN" ∧ m.role ≠ "CLIENT"))

/-- The management rule as the specification words it. -/
def CanManageClientInvoicesSpec (db : Db) (user : User) (client : Option Client) : Prop :=
  user.role = "ADMIN" ∨
    ∃ c, client = some c ∧
      (isWorkspaceAdmin db user.id c.workspaceId = true ∨
        ∃ w, c.portalWorkspaceId = some w ∧ w ≠ "" ∧ isWorkspaceAdmin db user.id w = true)

/-! ## Sample data for checkout, authorization and listing -/

/-- A provider that answers every request with the session `cs_1`. -/
def sampleStripe : CheckoutParams → ProviderSession :=
  fun _ => { id := "cs_1", url := "https://checkout.example/cs_1" }

/-- A portal user whose email is that of client `cl_1` up to case. -/
def portalUser : User := { id := "u_portal", role := "CLIENT", email := some "Client@Example.com" }

/-- The sample store with `portalUser` as a CLIENT member of `ws_1`. -/
def portalStore : Db :=
  { sampleStore with
    workspaceMembers := [{ workspaceId := "ws_1", userId := "u_portal", role := "CLIENT" }] }

/-- The request the checkout route sends for the sample invoice on behalf of
`portalUser`. -/
def portalCheckoutParams : CheckoutParams :=
  { mode := "payment", client_reference_id := "inv_1",
    customer_email := some "client@example.com", metadataInvoiceId := "inv_1",
    metadataWorkspaceId := "ws_1", metadataClientId := "cl_1",
    success_url := "http://localhost:5173/client-invoices?checkout=success",
    cancel_url := "http://localhost:5173/client-invoices?checkout=cancel",
    currency := "usd", productName := "Website", productDescription := none,
    unit_amount := 10000, quantity := 1 }

/-- A user who is a member of no workspace. -/
def strangerUser : User := { id := "u_stranger", role := "MEMBER", email := some "x@example.com" }

/-- A client of workspace `ws_1` whose portal workspace is `ws_p`. -/
def portalLinkedClient : Client :=
  { id := "cl_2", workspaceId := "ws_1", portalWorkspaceId := some "ws_p",
    portalUserId := some "u_other", email := some "other@example.com" }

/-- A store with `portalLinkedClient`, an admin of `ws_1` and a plain member of `ws_p`. -/
def twoWorkspaceDb : Db :=
  { invoices := []
    clients := [portalLinkedClient]
    workspaceMembers :=
      [{ workspaceId := "ws_1", userId := "u_owner", role := "ADMIN" },
       { workspaceId := "ws_p", userId := "u_member", role := "MEMBER" }] }

/-- The admin of the originating workspace `ws_1`. -/
def ownerUser : User := { id := "u_owner", role := "MEMBER", email := some "owner@example.com" }

/-- A plain member of the portal workspace `ws_p`. -/
def memberUser : User := { id := "u_member", role := "MEMBER", email := some "m@example.com" }

/-- A create request for `portalLinkedClient`. -/
def portalLinkedCreate : CreateBody := { sampleCreate with clientId := some "cl_2" }

/-! ## The specification's wording of the amount and invoice-number rules -/

/-- The amount of a create request is missing, `null`, empty, non-numeric or non-finite
(a numeral too large for a finite binary64 number included), not positive (a positive
numeral that rounds to the number 0 included), or its product by 100 rounds to 0
cents. -/
def BadAmount (amount : Option RawAmount) : Prop :=
  amount = none ∨ amount = some .null ∨ amount = some .emptyString ∨
    amount = some .nonFinite ∨
    ∃ mantissa scale, amount = some (.finite mantissa scale) ∧
      (mantissa ≤ 0 ∨
        roundToBinary64 (mantissa.toNat * unitsPerOne) (10 ^ scale) = .infinity ∨
        roundToBinary64 (mantissa.toNat * unitsPerOne) (10 ^ scale) = .finite 0 ∨
        ∃ number product,
          roundToBinary64 (mantissa.toNat * unitsPerOne) (10 ^ scale) = .finite number ∧
            roundToBinary64 (number * 100) 1 = .finite product ∧
            mathRound product unitsPerOne = 0)

/-- The conversion as the specification words it: the integer nearest to a hundred times
the amount `mantissa / 10 ^ scale`, halves rounded up, computed without rounding the
amount or the product. -/
def exactCents (mantissa : Int) (scale : Nat) : Int := mathRound (mantissa * 100) (10 ^ scale)

/-- The number a string of decimal digits denotes. -/
def parseDecimal (s : String) : Nat :=
  s.data.foldl (fun acc c => 10 * acc + (c.toNat - 48)) 0

/-- The number of invoices the store holds for a workspace. -/
def invoiceCount (db : Db) (workspaceId : String) : Nat :=
  (db.invoices.filter (fun r => r.workspaceId == workspaceId)).length

/-! ## Sample data for titles, amounts and invoice numbers -/

/-- The invoice a create request with a title of three blanks stores. -/
def blankTitleInvoice : Invoice := { sampleInvoice with title := "" }

/-- A create request with a non-numeric amount for a client that does not exist. -/
def strayClientCreate : CreateBody :=
  { sampleCreate with clientId := some "cl_404", amount := some .nonFinite }

/-- A create request for 0.001, which rounds to 0 cents. -/
def tinyAmountCreate : CreateBody := { sampleCreate with amount := some (.finite 1 3) }

/-- The amount 1e308, whose product by 100 is `Infinity`. -/
def hugeAmount : RawAmount := .finite (Int.ofNat (10 ^ 308)) 0

/-- A create request for 1e308. -/
def hugeAmountCreate : CreateBody := { sampleCreate with amount := some hugeAmount }

/-- A create request for 0.0049999999999999999, which `Number` rounds to 0.005. -/
def nearHalfCentCreate : CreateBody :=
  { sampleCreate with amount := some (.finite 49999999999999999 19) }

/-- The binary64 number nearest to 1.115, written out as a decimal numeral: it is
`5021513584518103 / 2 ^ 52`, a little below 1.115. -/
def nearestTo1115 : RawAmount := .finite (5021513584518103 * 5 ^ 52) 52

/-- A store holding four invoices of workspace `ws_1` and one of `ws_2`. -/
def fourInvoiceDb : Db :=
  { sampleDb with
    invoices :=
      [{ sampleInvoice with id := "inv_1" },
       { sampleInvoice with id := "inv_2", invoiceNumber := "INV-2024-0002" },
       { sampleInvoice with id := "inv_3", workspaceId := "ws_2" },
       { sampleInvoice with id := "inv_4", invoiceNumber := "INV-2024-0003" },
       { sampleInvoice with id := "inv_5", invoiceNumber := "INV-2024-0004" }] }

/-! ## Messages (`server/src/routes/messages.js`) -/

/-- A row of the `users` table as the object the store returns: column names with their
values. -/
abbrev UserRow := List (String × String)

/-- A row of the `messages` table; the timestamp columns are not modelled. -/
structure Message where
  id : String
  workspaceId : String
  senderId : Option String
  body : String
deriving DecidableEq, Repr

/-- The tables the message routes read and write. -/
structure MessageStore where
  messages : List Message
  users : List UserRow
  workspaceMembers : List WorkspaceMember
deriving DecidableEq, Repr

def stripSensitive (user : Option UserRow) : Option UserRow :=
  match user with
  | none => none
  | some row => some (row.filter (fun kv => kv.1 != "password_hash"))

/-- Modelled from the spec: `getWorkspaceMember` of `lib/permissions.js`, which is not
among the sources: the membership of the user in the workspace, or absent. -/
def getWorkspaceMember (store : MessageStore) (userId workspaceId : String) :
    Option WorkspaceMember :=
  store.workspaceMembers.find? (fun m => m.workspaceId == workspaceId && m.userId == userId)

def ensureWorkspaceAccess (store : MessageStore) (workspaceId : String) (user : User) : Bool :=
  if user.role == "ADMIN" then true
  else (getWorkspaceMember store user.id workspaceId).isSome

/-- The response of a message route. -/
inductive MessageResponse where
  | error (status : Nat) (message : String)
  | list (payload : List (Message × Option UserRow))
  | created (message : Option Message) (sender : Option UserRow)
deriving DecidableEq, Repr

/-- The object `senderMap` of `GET /`, read at a key: the last of `senders` with that id,
stripped. Keys that are not sender ids give `undefined`. -/
def senderMapAt (senders : List UserRow) (key : String) : Option UserRow :=
  stripSensitive (senders.reverse.find? (fun u => u.lookup "id" == some key))

/-- The route `GET /` of the message router. The rows come in the order of the store. -/
def listMessages (store : MessageStore) (user : User) (workspaceId : Option String) :
    MessageResponse :=
  if !truthy workspaceId then .error 400 "workspaceId is required"
  else if !ensureWorkspaceAccess store (workspaceId.getD "") user then .error 403 "Forbidden"
  else
    let list := store.messages.filter (fun m => m.workspaceId == workspaceId.getD "")
    let senderIds := ((list.map (fun m => m.senderId)).filter truthy).eraseDups
    let senders :=
      if senderIds.isEmpty then []
      else store.users.filter (fun u => senderIds.contains (u.lookup "id"))
    .list (list.map (fun message =>
      (message, message.senderId.bind (fun id => senderMapAt senders id))))

/-- The route `POST /` of the message router; `messageId` is the result of `generateId`. -/
def createMessage (store : MessageStore) (user : User) (workspaceId body : Option String)
    (messageId : String) : MessageResponse × MessageStore :=
  if !truthy workspaceId || !truthy (body.map trim) then
    (.error 400 "workspaceId and body are required", store)
  else if !ensureWorkspaceAccess store (workspaceId.getD "") user then
    (.error 403 "Forbidden", store)
  else
    let trimmedBody := trim (body.getD "")
    let store1 :=
      { store with
        messages := store.messages ++
          [{ id := messageId, workspaceId := workspaceId.getD "", senderId := some user.id,
             body := trimmedBody }] }
    let created := store1.messages.find? (fun m => m.id == messageId)
    let sender := store1.users.find? (fun u => u.lookup "id" == some user.id)
    (.created created (stripSensitive sender), store1)

/-- The senders a message response carries. -/
def MessageResponse.senders : MessageResponse → List (Option UserRow)
  | .error _ _ => []
  | .list payload => payload.map (fun p => p.2)
  | .created _ sender => [sender]

/-! ## The columns no later operation writes -/

/-- The columns of an invoice fixed at creation. -/
def Invoice.identity (r : Invoice) :
    String × String × String × String × Nat × String × List (String × String) :=
  (r.id, r.workspaceId, r.clientId, r.invoiceNumber, r.issuedAt, r.createdBy, r.metadata)

/-- The descriptive columns of an update object. -/
def InvoiceSet.descr (u : InvoiceSet) :
    Option String × Option (Option String) × Option String × Option (Option Nat) :=
  (u.title, u.description, u.currency, u.dueDate)

/-- The string consists of exactly three letters `A` to `Z` (character codes 65 to 90). -/
def ThreeLettersAtoZUpper (s : String) : Prop :=
  s.data.length = 3 ∧ ∀ c ∈ s.data, 65 ≤ c.toNat ∧ c.toNat ≤ 90

/-! ## Sample data for currencies, statuses and messages -/

/-- The invoice a create request with the currency `dollars` stores. -/
def dollarsInvoice : Invoice := { sampleInvoice with currency := "DOLLARS" }

/-- The invoice `sampleCreate` stores when the clock reads 1 and then 2. -/
def tickedInvoice : Invoice := { sampleInvoice with updatedAt := 2 }

/-- A PATCH body carrying a valid status together with an amount of zero. -/
def voidWithZeroAmount : PatchBody :=
  { emptyPatch with status := some "VOID", amount := some (.finite 0 0) }

/-- The sample invoice with a DRAFT status. -/
def draftInvoice : Invoice := { sampleInvoice with status := "DRAFT" }

/-- The sample invoice fully paid at time 2. -/
def paidInvoice : Invoice :=
  { sampleInvoice with status := "PAID", amountPaidCents := 10000, paidAt := some 2, updatedAt := 2 }

/-- A user row with a password hash. -/
def sampleUserRow : UserRow :=
  [("id", "u_admin"), ("email", "admin@example.com"), ("password_hash", "$2b$10$hash"),
   ("role", "ADMIN")]

/-- A message store with one message sent by `u_admin`. -/
def sampleMessageStore : MessageStore :=
  { messages := [{ id := "msg_1", workspaceId := "ws_1", senderId := some "u_admin", body := "hi" }]
    users := [sampleUserRow]
    workspaceMembers := [] }

/-- The invoice `portalLinkedCreate` stores on behalf of the admin of `ws_1`. -/
def portalLinkedInvoice : Invoice :=
  { sampleInvoice with
    id := "inv_2", workspaceId := "ws_p", clientId := "cl_2", createdBy := "u_owner" }

/-- A store whose client `cl_1` is portal-linked to `ws_1`, with the sample invoice and the
portal user as a CLIENT member of `ws_1`. -/
def linkedPortalStore : Db :=
  { invoices := [sampleInvoice]
    clients :=
      [{ id := "cl_1", workspaceId := "ws_0", portalWorkspaceId := some "ws_1",
         portalUserId := none, email := some "client@example.com" }]
    workspaceMembers := [{ workspaceId := "ws_1", userId := "u_portal", role := "CLIENT" }] }

/-! ## Basic facts -/

theorem getInvoice_id {db : Db} {id : String} {invoice : Invoice}
    (h : getInvoice db id = some invoice) : invoice.id = id := by
  have := List.find?_some h
  simpa using this

theorem getInvoice_updateInvoices (db : Db) (id : String) (u : InvoiceSet) (id1 : String) :
    getInvoice (updateInvoices db id u) id1 =
      (getInvoice db id1).map (fun r => if r.id == id then applySet u r else r) := by
  unfold getInvoice updateInvoices
  rw [List.find?_map]
  have hcomp : ((fun r : Invoice => r.id == id1) ∘
      fun r => if (r.id == id) = true then applySet u r else r) = fun r => r.id == id1 := by
    funext r
    simp only [Function.comp]
    split <;> rfl
  rw [hcomp]

theorem patchTitle_core {body : PatchBody} {u u1 : InvoiceSet}
    (h : patchTitle body u = .ok u1) : u1.core = u.core := by
  unfold patchTitle at h
  split at h
  · cases h; rfl
  · split at h
    · cases h
    · cases h; rfl

theorem patchDescription_core (body : PatchBody) (u : InvoiceSet) :
    (patchDescription body u).core = u.core := by
  unfold patchDescription
  split <;> rfl

theorem patchCurrency_core (body : PatchBody) (u : InvoiceSet) :
    (patchCurrency body u).core = u.core := by
  unfold patchCurrency
  split <;> rfl

theorem patchDueDate_core {body : PatchBody} {u u1 : InvoiceSet}
    (h : patchDueDate body u = .ok u1) : u1.core = u.core := by
  unfold patchDueDate at h
  split at h
  · cases h; rfl
  · split at h
    · cases h
    · cases h; rfl

theorem patchStatus_ok {invoice : Invoice} {body : PatchBody} {now : Nat} {u u1 : InvoiceSet}
    (h : patchStatus invoice body now u = .ok u1) :
    (body.status = none ∧ u1 = u) ∨
    (∃ s, body.status = some s ∧ INVOICE_STATUSES.contains s = true ∧
      u1.status = some s ∧ u1.amountCents = u.amountCents ∧
      u1.amountPaidCents = (if s = "PAID" then some invoice.amountCents else u.amountPaidCents) ∧
      u1.paidAt =
        (if s = "VOID" then some none else if s = "PAID" then some (some now) else u.paidAt) ∧
      u1.stripeCheckoutSessionId = u.stripeCheckoutSessionId ∧
      u1.stripePaymentIntentId = u.stripePaymentIntentId ∧ u1.updatedAt = u.updatedAt) := by
  unfold patchStatus at h
  split at h
  · cases h; left; exact ⟨by assumption, rfl⟩
  · rename_i s hs
    right
    split at h
    · cases h
    · rename_i hc
      have hc1 : INVOICE_STATUSES.contains s = true := by simpa using hc
      refine ⟨s, hs, hc1, ?_⟩
      by_cases hp : s = "PAID" <;> by_cases hv : s = "VOID"
      · subst hp; exact absurd hv (by decide)
      · subst hp; cases h; simp
      · subst hv; cases h; simp
      · simp [hp, hv] at h; cases h; simp [hp, hv]

theorem patchAmount_ok {invoice : Invoice} {body : PatchBody} {u u1 : InvoiceSet}
    (h : patchAmount invoice body u = .ok u1) :
    (body.amount = none ∧ u1 = u) ∨
    (∃ raw c, body.amount = some raw ∧ invoice.status ≠ "PAID" ∧
      parseAmountCents raw = some (.integer c) ∧ c ≠ 0 ∧
        u1 = { u with amountCents := some c }) := by
  unfold patchAmount at h
  split at h
  · cases h; left; exact ⟨by assumption, rfl⟩
  · rename_i raw hraw
    right
    split at h
    · cases h
    · rename_i hst
      split at h
      · cases h
      · rename_i cents hc
        split at h
        · cases h
        · rename_i hz
          cases cents with
          | infinity => simp [storedAmountCents] at h
          | integer c =>
            simp only [storedAmountCents] at h
            cases h
            exact ⟨raw, c, hraw, by simpa using hst, hc, by simpa using hz, rfl⟩

theorem patchUpdates_ok {invoice : Invoice} {body : PatchBody} {now : Nat} {u : InvoiceSet}
    (h : patchUpdates invoice body now = .ok u) :
    u.status = body.status ∧
    (∀ s, body.status = some s → INVOICE_STATUSES.contains s = true) ∧
    u.amountPaidCents = (if body.status = some "PAID" then some invoice.amountCents else none) ∧
    u.paidAt =
      (if body.status = some "VOID" then some none
       else if body.status = some "PAID" then some (some now) else none) ∧
    ((body.amount = none ∧ u.amountCents = none) ∨
      (∃ raw c, body.amount = some raw ∧ invoice.status ≠ "PAID" ∧
        parseAmountCents raw = some (.integer c) ∧ c ≠ 0 ∧ u.amountCents = some c)) ∧
    u.stripeCheckoutSessionId = none ∧ u.stripePaymentIntentId = none ∧
    u.updatedAt = some now := by
  unfold patchUpdates at h
  split at h
  · cases h
  · rename_i u1 h1
    split at h
    · cases h
    · rename_i u2 h2
      split at h
      · cases h
      · rename_i u3 h3
        have c1 := patchTitle_core h1
        have c2 := patchDueDate_core h2
        rw [patchCurrency_core, patchDescription_core, c1] at c2
        simp only [InvoiceSet.core, InvoiceSet.empty, Prod.mk.injEq] at c2
        obtain ⟨e1, e2, e3, e4, e5, e6, e7⟩ := c2
        have hu3 : u3.status = body.status ∧
            (∀ s, body.status = some s → INVOICE_STATUSES.contains s = true) ∧
            u3.amountCents = none ∧
            u3.amountPaidCents =
              (if body.status = some "PAID" then some invoice.amountCents else none) ∧
            u3.paidAt =
              (if body.status = some "VOID" then some none
               else if body.status = some "PAID" then some (some now) else none) ∧
            u3.stripeCheckoutSessionId = none ∧ u3.stripePaymentIntentId = none ∧
            u3.updatedAt = some now := by
          rcases patchStatus_ok h3 with ⟨hn, rfl⟩ | ⟨s, hs, hc, f1, f2, f3, f4, f5, f6, f7⟩
          · simp [hn, e1, e2, e3, e4, e5, e6, e7]
          · refine ⟨by rw [f1, hs], ?_, by rw [f2, e2], ?_, ?_, by rw [f5, e5], by rw [f6, e6],
              by rw [f7, e7]⟩
            · intro s1 hs1
              rw [hs] at hs1
              cases hs1
              exact hc
            · rw [f3, e3, hs]; simp
            · rw [f4, e4, hs]; simp
        obtain ⟨g1, g2, g3, g4, g5, g6, g7, g8⟩ := hu3
        rcases patchAmount_ok h with ⟨hn, rfl⟩ | ⟨raw, c, hraw, hst, hc, hz, rfl⟩
        · exact ⟨g1, g2, g4, g5, Or.inl ⟨hn, g3⟩, g6, g7, g8⟩
        · exact ⟨g1, g2, g4, g5, Or.inr ⟨raw, c, hraw, hst, hc, hz, rfl⟩, g6, g7, g8⟩

theorem patchAmount_error {invoice : Invoice} {body : PatchBody} {u : InvoiceSet}
    {r : Response} (h : patchAmount invoice body u = .error r) :
    (∃ m, r = ⟨400, .message m⟩) ∨
      (r = ⟨500, .unhandled⟩ ∧ invoice.status ≠ "PAID" ∧
        ∃ raw, body.amount = some raw ∧ parseAmountCents raw = some .infinity) := by
  unfold patchAmount at h
  split at h
  · cases h
  · rename_i raw hraw
    split at h
    · cases h; exact Or.inl ⟨_, rfl⟩
    · rename_i hst
      split at h
      · cases h; exact Or.inl ⟨_, rfl⟩
      · rename_i cents hc
        split at h
        · cases h; exact Or.inl ⟨_, rfl⟩
        · cases cents with
          | integer k => simp [storedAmountCents] at h
          | infinity =>
            simp only [storedAmountCents] at h
            cases h
            exact Or.inr ⟨rfl, by simpa using hst, raw, hraw, hc⟩

/-- A PATCH that does not reach `db.update` is answered 400, unless its amount converts
to `Infinity`, which the store refuses. -/
theorem patchUpdates_error {invoice : Invoice} {body : PatchBody} {now : Nat} {r : Response}
    (h : patchUpdates invoice body now = .error r) :
    (∃ m, r = ⟨400, .message m⟩) ∨
      (r = ⟨500, .unhandled⟩ ∧ invoice.status ≠ "PAID" ∧
        ∃ raw, body.amount = some raw ∧ parseAmountCents raw = some .infinity) := by
  unfold patchUpdates at h
  split at h
  · cases h; exact Or.inl ⟨_, rfl⟩
  · split at h
    · cases h; exact Or.inl ⟨_, rfl⟩
    · split at h
      · cases h; exact Or.inl ⟨_, rfl⟩
      · exact patchAmount_error h

/-! ## The routes and the stored invoice -/

theorem getInvoice_update_self {db : Db} {id : String} {invoice : Invoice} (u : InvoiceSet)
    (h : getInvoice db id = some invoice) :
    getInvoice (updateInvoices db invoice.id u) id = some (applySet u invoice) := by
  rw [getInvoice_updateInvoices, h]
  simp

theorem getInvoice_update_other {db : Db} {id id1 : String} (u : InvoiceSet) (hne : id1 ≠ id) :
    getInvoice (updateInvoices db id u) id1 = getInvoice db id1 := by
  rw [getInvoice_updateInvoices]
  cases h : getInvoice db id1 with
  | none => rfl
  | some r =>
    have hr := getInvoice_id h
    have : ¬ r.id = id := by rw [hr]; exact hne
    simp [this]

/-- The route `PATCH /:id` turns the stored invoice `id` into `patchRow` of it and leaves
the stored invoice of every other id alone. -/
theorem getInvoice_patchRoute (db : Db) (user : User) (id : String) (body : PatchBody)
    (now : Nat) (id1 : String) :
    getInvoice (patchRoute db user id body now).2 id1 =
      if id1 = id then (getInvoice db id).map (fun inv => patchRow db user inv body now)
      else getInvoice db id1 := by
  unfold patchRoute
  cases h : getInvoice db id with
  | none =>
    by_cases e : id1 = id
    · subst e; simp [h]
    · simp [e]
  | some invoice =>
    have hid := getInvoice_id h
    simp only [Option.map_some']
    unfold patchRow
    by_cases hc : canManageClientInvoices db user (getClientRecord db invoice.clientId) = true
    · simp only [hc, Bool.not_true, Bool.false_eq_true, ↓reduceIte]
      cases hu : patchUpdates invoice body now with
      | error m =>
        by_cases e : id1 = id
        · subst e; simp [h]
        · simp [e]
      | ok u =>
        by_cases e : id1 = id
        · subst e
          simp only [↓reduceIte]
          exact getInvoice_update_self u h
        · simp only [e, ↓reduceIte]
          exact getInvoice_update_other u (by rw [hid]; exact e)
    · simp only [hc, Bool.not_false, ↓reduceIte]
      by_cases e : id1 = id
      · subst e; simp [h]
      · simp [e]

/-- The route `POST /:id/checkout-session` turns the stored invoice `id` into
`checkoutRow` of it and leaves the stored invoice of every other id alone. -/
theorem getInvoice_checkoutRoute (env : Env) (stripe : CheckoutParams → ProviderSession)
    (db : Db) (user : User) (id : String) (now : Nat) (id1 : String) :
    getInvoice (checkoutRoute env stripe db user id now).db id1 =
      if id1 = id then
        (getInvoice db id).map (fun inv => checkoutRow env stripe db user inv now)
      else getInvoice db id1 := by
  unfold checkoutRoute
  by_cases hcfg : isStripeConfigured env = true
  · simp only [hcfg, Bool.not_true, Bool.false_eq_true, ↓reduceIte]
    cases h : getInvoice db id with
    | none =>
      by_cases e : id1 = id
      · subst e; simp [h]
      · simp [e]
    | some invoice =>
      have hid := getInvoice_id h
      simp only [Option.map_some']
      unfold checkoutRow
      simp only [hcfg, Bool.not_true, Bool.false_eq_true, ↓reduceIte]
      cases hp : checkoutParams env db user invoice with
      | error r =>
        by_cases e : id1 = id
        · subst e; simp [h]
        · simp [e]
      | ok params =>
        by_cases e : id1 = id
        · subst e
          simp only [↓reduceIte]
          exact getInvoice_update_self _ h
        · simp only [e, ↓reduceIte]
          exact getInvoice_update_other _ (by rw [hid]; exact e)
  · simp only [hcfg, Bool.not_false, ↓reduceIte]
    unfold checkoutRow
    simp only [hcfg, Bool.not_false, ↓reduceIte]
    by_cases e : id1 = id
    · subst e; simp
    · simp [e]

theorem resolveInvoiceId_none_settles {invoice : Invoice} {event : StripeEvent}
    (h : resolveInvoiceId event.session ≠ some invoice.id) : settles invoice event = false := by
  unfold settles
  have : (resolveInvoiceId event.session == some invoice.id) = false := by simpa using h
  simp [this]

/-- Processing a verified event turns every stored invoice into `webhookRow` of it. -/
theorem getInvoice_handleEvent (db : Db) (event : StripeEvent) (now : Nat) (id1 : String) :
    getInvoice (handleEvent db event now) id1 =
      (getInvoice db id1).map (fun inv => webhookRow inv event now) := by
  have hsame : ∀ r : Option Invoice,
      (∀ inv, r = some inv → settles inv event = false) →
      r = r.map (fun inv => webhookRow inv event now) := by
    intro r hr
    cases r with
    | none => rfl
    | some inv => simp [webhookRow, hr inv rfl]
  by_cases ht : (event.type == "checkout.session.completed") = true
  · cases hres : resolveInvoiceId event.session with
    | none =>
      have hE : handleEvent db event now = db := by simp [handleEvent, hres]
      rw [hE]
      exact hsame _ (fun inv _ => resolveInvoiceId_none_settles (by rw [hres]; simp))
    | some invoiceId =>
      cases hget : getInvoice db invoiceId with
      | none =>
        have hE : handleEvent db event now = db := by simp [handleEvent, hres, hget]
        rw [hE]
        apply hsame
        intro inv hinv
        apply resolveInvoiceId_none_settles
        rw [hres]
        intro hEq
        cases hEq
        have hid := getInvoice_id hinv
        rw [hid, hinv] at hget
        cases hget
      | some invoice =>
        have hid := getInvoice_id hget
        by_cases hs : shouldSettle invoice event.session = true
        · have hE : handleEvent db event now =
              updateInvoices db invoice.id (settleSet invoice event.session now) := by
            simp [handleEvent, ht, hres, hget, hs]
          rw [hE]
          by_cases e : id1 = invoiceId
          · subst e
            rw [getInvoice_update_self _ hget, hget]
            simp [webhookRow, settles, ht, hres, hid, hs]
          · rw [getInvoice_update_other _ (by rw [hid]; exact e)]
            apply hsame
            intro inv hinv
            apply resolveInvoiceId_none_settles
            rw [hres, getInvoice_id hinv]
            intro hEq
            cases hEq
            exact e rfl
        · have hE : handleEvent db event now = db := by
            simp [handleEvent, hres, hget, hs]
          rw [hE]
          apply hsame
          intro inv hinv
          by_cases e : id1 = invoiceId
          · subst e
            rw [hget] at hinv
            cases hinv
            simp [settles, hs]
          · apply resolveInvoiceId_none_settles
            rw [hres, getInvoice_id hinv]
            intro hEq
            cases hEq
            exact e rfl
  · have hE : handleEvent db event now = db := by simp [handleEvent, ht]
    rw [hE]
    apply hsame
    intro inv _
    simp [settles, ht]

/-! ## What one operation does to the stored invoice -/

theorem patchRow_cases (db : Db) (user : User) (invoice : Invoice) (body : PatchBody)
    (now : Nat) :
    patchRow db user invoice body now = invoice ∨
      ∃ u, patchUpdates invoice body now = .ok u ∧
        patchRow db user invoice body now = applySet u invoice := by
  unfold patchRow
  split
  · exact Or.inl rfl
  · split
    · exact Or.inl rfl
    · rename_i u hu
      exact Or.inr ⟨u, hu, rfl⟩

theorem checkoutParams_ok {env : Env} {db : Db} {user : User} {invoice : Invoice}
    {params : CheckoutParams} (h : checkoutParams env db user invoice = .ok params) :
    invoice.status ≠ "PAID" ∧ invoice.status ≠ "VOID" ∧ remainingAmountCents invoice ≠ 0 := by
  unfold checkoutParams at h
  simp only [] at h
  split at h
  · cases h
  · split at h
    · cases h
    · rename_i hst
      split at h
      · cases h
      · rename_i hrem
        simp only [Bool.or_eq_true, beq_iff_eq, not_or] at hst
        exact ⟨hst.1, hst.2, by simpa using hrem⟩

theorem checkoutRow_cases (env : Env) (stripe : CheckoutParams → ProviderSession) (db : Db)
    (user : User) (invoice : Invoice) (now : Nat) :
    checkoutRow env stripe db user invoice now = invoice ∨
      (invoice.status ≠ "PAID" ∧ invoice.status ≠ "VOID" ∧
        ∃ session, checkoutRow env stripe db user invoice now =
          applySet (checkoutSet invoice session now) invoice) := by
  unfold checkoutRow
  split
  · exact Or.inl rfl
  · split
    · exact Or.inl rfl
    · rename_i params hp
      have h := checkoutParams_ok hp
      exact Or.inr ⟨h.1, h.2.1, stripe params, rfl⟩

theorem shouldSettle_status {invoice : Invoice} {session : CheckoutSession}
    (h : shouldSettle invoice session = true) :
    invoice.status ≠ "PAID" ∧ invoice.status ≠ "VOID" := by
  unfold shouldSettle at h
  simp only [Bool.and_eq_true, bne_iff_ne, ne_eq] at h
  exact ⟨h.1.1.1.1.1.1, h.1.1.1.1.1.2⟩

theorem settles_status {invoice : Invoice} {event : StripeEvent}
    (h : settles invoice event = true) :
    invoice.status ≠ "PAID" ∧ invoice.status ≠ "VOID" := by
  unfold settles at h
  simp only [Bool.and_eq_true] at h
  exact shouldSettle_status h.2

theorem webhookRow_cases (invoice : Invoice) (event : StripeEvent) (now : Nat) :
    (settles invoice event = false ∧ webhookRow invoice event now = invoice) ∨
      (settles invoice event = true ∧
        webhookRow invoice event now = applySet (settleSet invoice event.session now) invoice) := by
  unfold webhookRow
  cases h : settles invoice event
  · exact Or.inl ⟨rfl, by simp⟩
  · exact Or.inr ⟨rfl, by simp⟩

theorem mathRound_nonneg {n : Int} {d : Nat} (hn : 0 ≤ n) : 0 ≤ mathRound n d := by
  unfold mathRound
  apply Int.ediv_nonneg <;> omega

theorem parseAmountCents_nonneg {raw : RawAmount} {c : Int}
    (h : parseAmountCents raw = some (.integer c)) : 0 ≤ c := by
  unfold parseAmountCents at h
  split at h
  · cases h
  · cases h
  · cases h
  · split at h
    · cases h
    · split at h
      · cases h
      · split at h
        · cases h
        · split at h
          · cases h
          · cases h
            apply mathRound_nonneg
            omega

/-- What a successful create stores. -/
theorem createInvoice_ok {db : Db} {user : User} {body : CreateBody} {newId : String}
    {year issuedNow updatedNow : Nat} {invoice : Invoice}
    (h : createInvoice db user body newId year issuedNow updatedNow = .ok invoice) :
    invoice.amountPaidCents = 0 ∧ 0 < invoice.amountCents ∧ invoice.paidAt = none ∧
      invoice.stripeCheckoutSessionId = none ∧ invoice.stripePaymentIntentId = none ∧
      INVOICE_STATUSES.contains invoice.status = true := by
  unfold createInvoice at h
  split at h
  · cases h
  · split at h
    · cases h
    · split at h
      · cases h
      · split at h
        · cases h
        · rename_i cents hc
          split at h
          · cases h
          · rename_i hz
            simp only [] at h
            split at h
            · cases h
            · split at h
              · cases h
              · rename_i c hstored
                cases h
                have hpos : 0 < c := by
                  cases cents with
                  | infinity => simp [storedAmountCents] at hstored
                  | integer k =>
                    simp only [storedAmountCents, Option.some.injEq] at hstored
                    subst hstored
                    cases hb : body.amount with
                    | none => simp [hb] at hc
                    | some raw =>
                      simp only [hb, Option.some_bind] at hc
                      have := parseAmountCents_nonneg hc
                      have hne : k ≠ 0 := by simpa using hz
                      omega
                refine ⟨rfl, hpos, rfl, rfl, rfl, ?_⟩
                simp only []
                split
                · split
                  · assumption
                  · decide
                · decide

/-- The row a successful create stores, column by column. -/
theorem createInvoice_ok_full {db : Db} {user : User} {body : CreateBody} {newId : String}
    {year issuedNow updatedNow : Nat} {invoice : Invoice}
    (h : createInvoice db user body newId year issuedNow updatedNow = .ok invoice) :
    ∃ client, getClientRecord db (body.clientId.getD "") = some client ∧
      canManageClientInvoices db user (some client) = true ∧
      invoice.id = newId ∧
      invoice.workspaceId = orDefault client.portalWorkspaceId client.workspaceId ∧
      invoice.clientId = body.clientId.getD "" ∧
      invoice.createdBy = user.id ∧
      invoice.invoiceNumber =
        (if truthy body.invoiceNumber && trim (body.invoiceNumber.getD "") != "" then
          trim (body.invoiceNumber.getD "")
        else getNextInvoiceNumber db
          (orDefault client.portalWorkspaceId client.workspaceId) year) ∧
      invoice.title = trim (body.title.getD "") ∧
      invoice.currency = normalizeCurrency body.currency ∧
      invoice.status =
        (match body.status with
          | some s => if INVOICE_STATUSES.contains s then s else "SENT"
          | none => "SENT") ∧
      invoice.amountPaidCents = 0 ∧ invoice.issuedAt = issuedNow ∧
      invoice.updatedAt = updatedNow ∧
      invoice.metadata = body.metadata.getD [] ∧
      ∃ raw, body.amount = some raw ∧
        parseAmountCents raw = some (.integer invoice.amountCents) := by
  unfold createInvoice at h
  split at h
  · cases h
  · split at h
    · cases h
    · rename_i client hclient
      split at h
      · cases h
      · rename_i hmanage
        split at h
        · cases h
        · rename_i cents hc
          split at h
          · cases h
          · simp only [] at h
            split at h
            · cases h
            · split at h
              · cases h
              · rename_i c hstored
                cases h
                have hcents : cents = .integer c := by
                  cases cents with
                  | infinity => simp [storedAmountCents] at hstored
                  | integer k =>
                    simp only [storedAmountCents, Option.some.injEq] at hstored
                    rw [hstored]
                subst hcents
                have hamount : ∃ raw, body.amount = some raw ∧
                    parseAmountCents raw = some (.integer c) := by
                  cases hb : body.amount with
                  | none => simp [hb] at hc
                  | some raw =>
                    simp only [hb, Option.some_bind] at hc
                    exact ⟨raw, rfl, hc⟩
                exact ⟨client, hclient, by simpa using hmanage, rfl, rfl, rfl, rfl, rfl, rfl,
                  rfl, rfl, rfl, rfl, rfl, rfl, hamount⟩

/-- Every operation keeps `amountPaidCents ≤ amountCents`, unless it is a PATCH that
lowers the amount below what is recorded as paid or that sets PAID and an amount at
once. -/
theorem paid_le_amount_step {invoice : Invoice} {op : Op}
    (hinv : invoice.amountPaidCents ≤ invoice.amountCents)
    (hop : keepsAmountAbovePaid invoice op = true) :
    (applyOp invoice op).amountPaidCents ≤ (applyOp invoice op).amountCents := by
  cases op with
  | patch db user body now =>
    simp only [applyOp]
    rcases patchRow_cases db user invoice body now with h | ⟨u, hu, h⟩
    · rw [h]; exact hinv
    · rw [h]
      obtain ⟨_, _, hpaid, _, hamt, _, _, _⟩ := patchUpdates_ok hu
      simp only [applySet]
      rcases hamt with ⟨_, hc⟩ | ⟨raw, c, hraw, _, hparse, _, hc⟩
      · rw [hc, hpaid]
        split
        · simp
        · simpa using hinv
      · simp only [keepsAmountAbovePaid, hraw, hparse, Bool.and_eq_true, bne_iff_ne, ne_eq,
          decide_eq_true_eq] at hop
        rw [hc, hpaid, if_neg hop.1]
        simpa using hop.2
  | checkout env stripe db user now =>
    simp only [applyOp]
    rcases checkoutRow_cases env stripe db user invoice now with h | ⟨_, _, session, h⟩
    · rw [h]; exact hinv
    · rw [h]; exact hinv
  | webhook event now =>
    simp only [applyOp]
    rcases webhookRow_cases invoice event now with ⟨_, h⟩ | ⟨_, h⟩
    · rw [h]; exact hinv
    · rw [h]; simp [applySet, settleSet, InvoiceSet.empty]

theorem paid_le_amount_run (ops : List Op) :
    ∀ invoice : Invoice, invoice.amountPaidCents ≤ invoice.amountCents →
      allAlong keepsAmountAbovePaid invoice ops = true →
      (run invoice ops).amountPaidCents ≤ (run invoice ops).amountCents := by
  induction ops with
  | nil => intro invoice h _; exact h
  | cons op ops ih =>
    intro invoice h hall
    simp only [allAlong, Bool.and_eq_true] at hall
    exact ih _ (paid_le_amount_step h hall.1) hall.2

/-- Every operation keeps `status = VOID → paidAt = null`. -/
theorem void_unpaid_step {invoice : Invoice} (op : Op)
    (hinv : invoice.status = "VOID" → invoice.paidAt = none) :
    (applyOp invoice op).status = "VOID" → (applyOp invoice op).paidAt = none := by
  cases op with
  | patch db user body now =>
    simp only [applyOp]
    rcases patchRow_cases db user invoice body now with h | ⟨u, hu, h⟩
    · rw [h]; exact hinv
    · rw [h]
      obtain ⟨hst, _, _, hpaidAt, _, _, _, _⟩ := patchUpdates_ok hu
      simp only [applySet]
      rw [hst, hpaidAt]
      cases hb : body.status with
      | none => simpa using hinv
      | some s =>
        intro hs
        simp only [Option.getD_some] at hs
        subst hs
        simp
  | checkout env stripe db user now =>
    simp only [applyOp]
    rcases checkoutRow_cases env stripe db user invoice now with h | ⟨_, hv, session, h⟩
    · rw [h]; exact hinv
    · rw [h]
      simp only [applySet, checkoutSet, InvoiceSet.empty, Option.getD_some, Option.getD_none]
      intro hs
      split at hs
      · exact absurd hs (by decide)
      · exact absurd hs hv
  | webhook event now =>
    simp only [applyOp]
    rcases webhookRow_cases invoice event now with ⟨_, h⟩ | ⟨_, h⟩
    · rw [h]; exact hinv
    · rw [h]
      simp only [applySet, settleSet, InvoiceSet.empty, Option.getD_some]
      intro hs
      exact absurd hs (by decide)

theorem void_unpaid_run (ops : List Op) :
    ∀ invoice : Invoice, (invoice.status = "VOID" → invoice.paidAt = none) →
      (run invoice ops).status = "VOID" → (run invoice ops).paidAt = none := by
  induction ops with
  | nil => intro invoice h; exact h
  | cons op ops ih =>
    intro invoice h
    exact ih _ (void_unpaid_step op h)

/-- An operation leaves `paidAt` as it was, clears it, or leaves the invoice PAID. -/
theorem paidAt_written_with_paid (invoice : Invoice) (op : Op) :
    (applyOp invoice op).paidAt = invoice.paidAt ∨ (applyOp invoice op).paidAt = none ∨
      (applyOp invoice op).status = "PAID" := by
  cases op with
  | patch db user body now =>
    simp only [applyOp]
    rcases patchRow_cases db user invoice body now with h | ⟨u, hu, h⟩
    · rw [h]; exact Or.inl rfl
    · rw [h]
      obtain ⟨hst, _, _, hpaidAt, _, _, _, _⟩ := patchUpdates_ok hu
      simp only [applySet]
      rw [hst, hpaidAt]
      by_cases hv : body.status = some "VOID"
      · right; left; simp [hv]
      · by_cases hp : body.status = some "PAID"
        · right; right; simp [hp]
        · left; simp [hv, hp]
  | checkout env stripe db user now =>
    simp only [applyOp]
    rcases checkoutRow_cases env stripe db user invoice now with h | ⟨_, _, session, h⟩
    · rw [h]; exact Or.inl rfl
    · rw [h]; exact Or.inl rfl
  | webhook event now =>
    simp only [applyOp]
    rcases webhookRow_cases invoice event now with ⟨_, h⟩ | ⟨_, h⟩
    · rw [h]; exact Or.inl rfl
    · rw [h]; right; right; rfl

/-! ## The settlement condition -/

theorem orDefault_empty (a : Option String) : orDefault a "" = a.getD "" := by
  cases a with
  | none => rfl
  | some v =>
    simp only [orDefault, Option.getD_some]
    split
    · rfl
    · rename_i h
      simp only [bne_iff_ne, ne_eq, Decidable.not_not] at h
      exact h.symm

theorem orDefault_some (v d : String) : orDefault (some v) d = if v = "" then d else v := by
  simp only [orDefault]
  by_cases h : v = "" <;> simp [h]

theorem shouldSettle_iff (invoice : Invoice) (session : CheckoutSession) :
    shouldSettle invoice session = true ↔ SettleConditions invoice session := by
  unfold shouldSettle SettleConditions remainingAmountCents
  simp only [Bool.and_eq_true, Bool.or_eq_true, bne_iff_ne, ne_eq, beq_iff_eq,
    decide_eq_true_eq, Bool.not_eq_true', orDefault_empty, orDefault_some, gt_iff_lt]
  constructor
  · rintro ⟨⟨⟨⟨⟨⟨h1, h2⟩, h3⟩, h4⟩, h5⟩, h6⟩, h7⟩
    have hpos : 0 < invoice.amountCents - invoice.amountPaidCents := by omega
    refine ⟨h1, h2, hpos, h4, h5, ?_, h7⟩
    cases ht : session.amount_total with
    | none => rw [ht] at h6; simp only [Option.getD_none] at h6; omega
    | some t => rw [ht] at h6; simp only [Option.getD_some] at h6; congr 1; omega
  · rintro ⟨h1, h2, h3, h4, h5, h6, h7⟩
    refine ⟨⟨⟨⟨⟨⟨h1, h2⟩, by omega⟩, h4⟩, h5⟩, ?_⟩, h7⟩
    rw [h6]
    simp only [Option.getD_some]
    omega

theorem shouldSettle_paid {invoice : Invoice} (session : CheckoutSession)
    (h : invoice.status = "PAID") : shouldSettle invoice session = false := by
  cases hs : shouldSettle invoice session with
  | false => rfl
  | true => exact absurd h (shouldSettle_status hs).1

/-- Processing the same verified event a second time changes nothing. -/
theorem handleEvent_idem (db : Db) (event : StripeEvent) (now1 now2 : Nat) :
    handleEvent (handleEvent db event now1) event now2 = handleEvent db event now1 := by
  by_cases ht : (event.type == "checkout.session.completed") = true
  · cases hres : resolveInvoiceId event.session with
    | none =>
      have hE : ∀ d n, handleEvent d event n = d := by
        intro d n; simp [handleEvent, hres]
      rw [hE, hE]
    | some invoiceId =>
      cases hget : getInvoice db invoiceId with
      | none =>
        have hE : ∀ n, handleEvent db event n = db := by
          intro n; simp [handleEvent, hres, hget]
        rw [hE, hE]
      | some invoice =>
        by_cases hs : shouldSettle invoice event.session = true
        · have hE : handleEvent db event now1 =
              updateInvoices db invoice.id (settleSet invoice event.session now1) := by
            simp [handleEvent, ht, hres, hget, hs]
          rw [hE]
          have hget1 := getInvoice_update_self (settleSet invoice event.session now1) hget
          have hpaid : shouldSettle (applySet (settleSet invoice event.session now1) invoice)
              event.session = false := shouldSettle_paid _ rfl
          simp [handleEvent, hres, hget1, hpaid]
        · have hE : ∀ n, handleEvent db event n = db := by
            intro n; simp [handleEvent, hres, hget, hs]
          rw [hE, hE]
  · have hE : ∀ d n, handleEvent d event n = d := by
      intro d n; simp [handleEvent, ht]
    rw [hE, hE]

/-! ## Settlement writes along a sequence of operations -/

theorem paid_stays {invoice : Invoice} {op : Op} (hpaid : invoice.status = "PAID")
    (hop : keepsPaid invoice op = true) :
    (applyOp invoice op).status = "PAID" ∧ isSettlement invoice op = false := by
  cases op with
  | patch db user body now =>
    simp only [keepsPaid, hpaid, beq_self_eq_true, Bool.not_true, Bool.false_or,
      beq_iff_eq] at hop
    exact ⟨hop, rfl⟩
  | checkout env stripe db user now =>
    refine ⟨?_, rfl⟩
    simp only [applyOp]
    rcases checkoutRow_cases env stripe db user invoice now with h | ⟨hne, _, _⟩
    · rw [h]; exact hpaid
    · exact absurd hpaid hne
  | webhook event now =>
    have hs : settles invoice event = false := by
      cases h : settles invoice event with
      | false => rfl
      | true => exact absurd hpaid (settles_status h).1
    simp [applyOp, webhookRow, isSettlement, hs, hpaid]

theorem settlementWrites_paid (ops : List Op) :
    ∀ invoice : Invoice, invoice.status = "PAID" → allAlong keepsPaid invoice ops = true →
      settlementWrites invoice ops = 0 := by
  induction ops with
  | nil => intro _ _ _; rfl
  | cons op ops ih =>
    intro invoice hpaid hall
    simp only [allAlong, Bool.and_eq_true] at hall
    have h := paid_stays hpaid hall.1
    simp only [settlementWrites, h.2, Bool.false_eq_true, ↓reduceIte, Nat.zero_add]
    exact ih _ h.1 hall.2

theorem isSettlement_paid {invoice : Invoice} {op : Op} (h : isSettlement invoice op = true) :
    (applyOp invoice op).status = "PAID" := by
  cases op with
  | patch db user body now => simp [isSettlement] at h
  | checkout env stripe db user now => simp [isSettlement] at h
  | webhook event now =>
    simp only [isSettlement] at h
    simp [applyOp, webhookRow, h, applySet, settleSet, InvoiceSet.empty]

theorem settlementWrites_le_one (ops : List Op) :
    ∀ invoice : Invoice, allAlong keepsPaid invoice ops = true →
      settlementWrites invoice ops ≤ 1 := by
  induction ops with
  | nil => intro _ _; exact Nat.zero_le 1
  | cons op ops ih =>
    intro invoice hall
    simp only [allAlong, Bool.and_eq_true] at hall
    by_cases hs : isSettlement invoice op = true
    · have h0 := settlementWrites_paid ops _ (isSettlement_paid hs) hall.2
      simp [settlementWrites, hs, h0]
    · have := ih _ hall.2
      simpa [settlementWrites, hs] using this

/-! ## The amount of a paid invoice -/

theorem patchUpdates_paid_amount {invoice : Invoice} {body : PatchBody} (now : Nat)
    (hpaid : invoice.status = "PAID") (hamt : body.amount ≠ none) :
    ∃ m, patchUpdates invoice body now = .error ⟨400, .message m⟩ := by
  cases hu : patchUpdates invoice body now with
  | error r =>
    rcases patchUpdates_error hu with ⟨m, rfl⟩ | ⟨_, hne, _⟩
    · exact ⟨m, rfl⟩
    · exact absurd hpaid hne
  | ok u =>
    obtain ⟨_, _, _, _, h, _⟩ := patchUpdates_ok hu
    rcases h with ⟨hn, _⟩ | ⟨_, _, _, hne, _⟩
    · exact absurd hn hamt
    · exact absurd hpaid hne

theorem amountCents_paid (invoice : Invoice) (op : Op) (hpaid : invoice.status = "PAID") :
    (applyOp invoice op).amountCents = invoice.amountCents := by
  cases op with
  | patch db user body now =>
    simp only [applyOp]
    rcases patchRow_cases db user invoice body now with h | ⟨u, hu, h⟩
    · rw [h]
    · rw [h]
      obtain ⟨_, _, _, _, hamt, _⟩ := patchUpdates_ok hu
      rcases hamt with ⟨_, hc⟩ | ⟨_, _, _, hne, _⟩
      · simp [applySet, hc]
      · exact absurd hpaid hne
  | checkout env stripe db user now =>
    simp only [applyOp]
    rcases checkoutRow_cases env stripe db user invoice now with h | ⟨_, _, session, h⟩
    · rw [h]
    · rw [h]; rfl
  | webhook event now =>
    simp only [applyOp]
    rcases webhookRow_cases invoice event now with ⟨_, h⟩ | ⟨_, h⟩
    · rw [h]
    · rw [h]; rfl

/-! ## Payment columns of a paid invoice -/

/-- A successful PATCH carrying `status = PAID` records the amount the invoice had before
the update as paid and stamps `paidAt`; one carrying `status = VOID` clears `paidAt`. -/
theorem patchUpdates_paid_void {invoice : Invoice} {body : PatchBody} {now : Nat}
    {u : InvoiceSet} (h : patchUpdates invoice body now = .ok u) :
    (body.status = some "PAID" →
      (applySet u invoice).status = "PAID" ∧
      (applySet u invoice).amountPaidCents = invoice.amountCents ∧
      (applySet u invoice).paidAt = some now) ∧
    (body.status = some "VOID" →
      (applySet u invoice).status = "VOID" ∧ (applySet u invoice).paidAt = none) := by
  obtain ⟨hst, _, hpaid, hpaidAt, _, _, _, _⟩ := patchUpdates_ok h
  constructor
  · intro hb
    simp [applySet, hst, hpaid, hpaidAt, hb]
  · intro hb
    simp [applySet, hst, hpaidAt, hb]

/-- Every operation other than a PATCH carrying `status = PAID` together with an amount
keeps `status = PAID → amountPaidCents = amountCents ∧ paidAt ≠ null`. -/
theorem paid_settled_step {invoice : Invoice} {op : Op}
    (hinv : invoice.status = "PAID" →
      invoice.amountPaidCents = invoice.amountCents ∧ invoice.paidAt ≠ none)
    (hop : notPaidWithAmount invoice op = true) :
    (applyOp invoice op).status = "PAID" →
      (applyOp invoice op).amountPaidCents = (applyOp invoice op).amountCents ∧
        (applyOp invoice op).paidAt ≠ none := by
  cases op with
  | patch db user body now =>
    simp only [applyOp]
    rcases patchRow_cases db user invoice body now with h | ⟨u, hu, h⟩
    · rw [h]; exact hinv
    · rw [h]
      obtain ⟨hst, _, hpaid, hpaidAt, hamt, _, _, _⟩ := patchUpdates_ok hu
      simp only [applySet]
      rw [hst, hpaid, hpaidAt]
      cases hb : body.status with
      | none =>
        intro hs
        simp only [Option.getD_none] at hs
        rcases hamt with ⟨_, hc⟩ | ⟨_, _, _, hne, _⟩
        · rw [hc]; simpa using hinv hs
        · exact absurd hs hne
      | some s =>
        intro hs
        simp only [Option.getD_some] at hs
        subst hs
        simp only [notPaidWithAmount, hb, beq_self_eq_true, Bool.true_and,
          Bool.not_eq_true'] at hop
        rcases hamt with ⟨_, hc⟩ | ⟨_, _, hraw, _, _⟩
        · rw [hc]; simp
        · rw [hraw] at hop; cases hop
  | checkout env stripe db user now =>
    simp only [applyOp]
    rcases checkoutRow_cases env stripe db user invoice now with h | ⟨hp, _, session, h⟩
    · rw [h]; exact hinv
    · rw [h]
      simp only [applySet, checkoutSet, InvoiceSet.empty, Option.getD_some, Option.getD_none]
      intro hs
      split at hs
      · exact absurd hs (by decide)
      · exact absurd hs hp
  | webhook event now =>
    simp only [applyOp]
    rcases webhookRow_cases invoice event now with ⟨_, h⟩ | ⟨_, h⟩
    · rw [h]; exact hinv
    · rw [h]
      intro _
      simp [applySet, settleSet, InvoiceSet.empty]

/-- Apart from a create with `status = PAID` and a PATCH carrying `status = PAID`
together with an amount, every reachable PAID invoice has `amountPaidCents = amountCents`
and a `paidAt`. -/
theorem paid_settled_run (ops : List Op) :
    ∀ invoice : Invoice,
      (invoice.status = "PAID" →
        invoice.amountPaidCents = invoice.amountCents ∧ invoice.paidAt ≠ none) →
      allAlong notPaidWithAmount invoice ops = true →
      (run invoice ops).status = "PAID" →
        (run invoice ops).amountPaidCents = (run invoice ops).amountCents ∧
          (run invoice ops).paidAt ≠ none := by
  induction ops with
  | nil => intro invoice h _; exact h
  | cons op ops ih =>
    intro invoice h hall
    simp only [allAlong, Bool.and_eq_true] at hall
    exact ih _ (paid_settled_step h hall.1) hall.2

/-- The model of `Math.round` agrees with the floor of `n / d + 1 / 2`. -/
theorem mathRound_eq_floor (n : Int) (d : Nat) (hd : 0 < d) :
    mathRound n d = ⌊(n : ℚ) / (d : ℚ) + 1 / 2⌋ := by
  unfold mathRound
  have hd0 : (d : ℚ) ≠ 0 := by exact_mod_cast hd.ne.symm
  have h : (n : ℚ) / (d : ℚ) + 1 / 2 = ((2 * n + d : Int) : ℚ) / ((2 * d : Nat) : ℚ) := by
    push_cast
    field_simp
    ring
  rw [h, Rat.floor_intCast_div_natCast]
  push_cast
  rfl

/-- The conversion the specification words is the floor of a hundred times the amount
plus one half. -/
theorem exactCents_eq_floor (mantissa : Int) (scale : Nat) :
    exactCents mantissa scale = ⌊(mantissa : ℚ) / (10 : ℚ) ^ scale * 100 + 1 / 2⌋ := by
  unfold exactCents
  rw [mathRound_eq_floor _ _ (by positivity)]
  congr 1
  push_cast
  ring

/-! ## The claims -/

/-- C1, as stated, fails: after an administrator marks the sample invoice paid, reopens
it as SENT and lowers the amount to 50.00, the stored invoice has `amountCents = 5000`
and `amountPaidCents = 10000`. The same holds when the three requests go through the
routes. -/
theorem C1_paid_exceeds_amount_after_reopen :
    createInvoice sampleDb sampleAdmin sampleCreate "inv_1" 2024 1 1 = .ok sampleInvoice ∧
    (run sampleInvoice reopenAndLower).amountCents = 5000 ∧
    (run sampleInvoice reopenAndLower).amountPaidCents = 10000 ∧
    ¬ ((run sampleInvoice reopenAndLower).amountPaidCents ≤
        (run sampleInvoice reopenAndLower).amountCents) ∧
    getInvoice
      (patchRoute
        (patchRoute
          (patchRoute sampleStore sampleAdmin "inv_1"
            { emptyPatch with status := some "PAID" } 2).2
          sampleAdmin "inv_1" { emptyPatch with status := some "SENT" } 3).2
        sampleAdmin "inv_1" { emptyPatch with amount := some (.finite 50 0) } 4).2 "inv_1" =
      some { sampleInvoice with
        amountCents := 5000, amountPaidCents := 10000, paidAt := some 2, updatedAt := 4 } := by
  refine ⟨rfl, by decide, by decide, by decide, by decide⟩

/-- C1, amended: in every state reachable from a successful create by PATCH updates,
checkout-session initiations and webhook deliveries, `amountPaidCents ≤ amountCents`,
provided no PATCH sets an amount below the `amountPaidCents` the invoice then records
and no PATCH carries `status = PAID` together with an amount. -/
theorem C1_paid_le_amount_unless_lowered (db : Db) (user : User) (body : CreateBody)
    (newId : String) (year issuedNow updatedNow : Nat) (invoice : Invoice) (ops : List Op)
    (hcreate : createInvoice db user body newId year issuedNow updatedNow = .ok invoice)
    (hops : allAlong keepsAmountAbovePaid invoice ops = true) :
    (run invoice ops).amountPaidCents ≤ (run invoice ops).amountCents := by
  have h0 := createInvoice_ok hcreate
  exact paid_le_amount_run ops invoice (by rw [h0.1]; exact le_of_lt h0.2.1) hops

/-- C1, amended, at the sample invoice when an administrator raises the amount and then
marks the invoice paid. -/
theorem C1_paid_le_amount_unless_lowered_witness :
    createInvoice sampleDb sampleAdmin sampleCreate "inv_1" 2024 1 1 = .ok sampleInvoice ∧
    allAlong keepsAmountAbovePaid sampleInvoice raiseThenPay = true ∧
    (run sampleInvoice raiseThenPay).amountPaidCents ≤
      (run sampleInvoice raiseThenPay).amountCents :=
  ⟨rfl, by decide,
    C1_paid_le_amount_unless_lowered sampleDb sampleAdmin sampleCreate "inv_1" 2024 1 1
      sampleInvoice raiseThenPay rfl (by decide)⟩

/-- C2, the code at the failing input: a create request with `status = PAID` is answered
201 and stores an invoice with status PAID, `amountPaidCents = 0`, `amountCents = 10000`
and no `paidAt`. -/
theorem C2_create_paid_stores_unsettled :
    createRoute sampleDb sampleAdmin { sampleCreate with status := some "PAID" } "inv_1" 2024 1 1 =
      (⟨201, .invoice (some paidUnsettled)⟩, { sampleDb with invoices := [paidUnsettled] }) ∧
    paidUnsettled.status = "PAID" ∧ paidUnsettled.amountPaidCents = 0 ∧
    paidUnsettled.amountCents = 10000 ∧ paidUnsettled.paidAt = none := by
  refine ⟨by decide, rfl, rfl, rfl, rfl⟩

/-- C3: in every state reachable from a successful create by PATCH updates,
checkout-session initiations and webhook deliveries, `status = VOID` implies
`paidAt = null`; and each operation on such a state leaves `paidAt` as it was, clears
it, or leaves the invoice with status PAID. -/
theorem C3_void_implies_no_paidAt (db : Db) (user : User) (body : CreateBody)
    (newId : String) (year issuedNow updatedNow : Nat) (invoice : Invoice) (ops : List Op)
    (hcreate : createInvoice db user body newId year issuedNow updatedNow = .ok invoice) :
    ((run invoice ops).status = "VOID" → (run invoice ops).paidAt = none) ∧
    ∀ op : Op,
      (applyOp (run invoice ops) op).paidAt = (run invoice ops).paidAt ∨
        (applyOp (run invoice ops) op).paidAt = none ∨
        (applyOp (run invoice ops) op).status = "PAID" := by
  have h0 := createInvoice_ok hcreate
  exact ⟨void_unpaid_run ops invoice (fun _ => h0.2.2.1), fun op => paidAt_written_with_paid _ op⟩

/-- C3 at the sample invoice when an administrator marks it paid and then voids it. -/
theorem C3_void_implies_no_paidAt_witness :
    createInvoice sampleDb sampleAdmin sampleCreate "inv_1" 2024 1 1 = .ok sampleInvoice ∧
    (run sampleInvoice payThenVoid).status = "VOID" ∧
    (run sampleInvoice payThenVoid).paidAt = none :=
  ⟨rfl, by decide,
    (C3_void_implies_no_paidAt sampleDb sampleAdmin sampleCreate "inv_1" 2024 1 1
      sampleInvoice payThenVoid rfl).1 (by decide)⟩

/-- C4, as stated, fails: a create request with a blank currency stores an invoice whose
currency is empty; the sample event, in `usd`, does not match that currency ignoring
case, yet the webhook settles the invoice. -/
theorem C4_blank_currency_settles_as_usd :
    getInvoice blankCurrencyStore "inv_1" = some blankCurrencyInvoice ∧
    sampleEvent.type = "checkout.session.completed" ∧
    resolveInvoiceId sampleEvent.session = some "inv_1" ∧
    toLowerCase (sampleEvent.session.currency.getD "") ≠
      toLowerCase blankCurrencyInvoice.currency ∧
    ¬ SettleConditionsAsStated blankCurrencyInvoice sampleEvent.session ∧
    handleEvent blankCurrencyStore sampleEvent 2 ≠ blankCurrencyStore ∧
    (getInvoice (handleEvent blankCurrencyStore sampleEvent 2) "inv_1").map
      (fun r => (r.status, r.amountPaidCents, r.paidAt)) = some ("PAID", 10000, some 2) := by
  refine ⟨by decide, rfl, by decide, by decide, ?_, by decide, by decide⟩
  unfold SettleConditionsAsStated
  decide

/-- C4, amended: for a stored invoice and a verified `checkout.session.completed` event
that resolves to it, the webhook writes to the store exactly when all six conditions
hold, the currency condition being that the event currency equals, ignoring case, the
invoice currency or `USD` when the invoice currency is empty (and an empty recorded
session id counting as none). When any condition fails the store is unchanged. -/
theorem C4_webhook_writes_only_if_conditions (db : Db) (event : StripeEvent) (now : Nat)
    (id : String) (invoice : Invoice)
    (htype : event.type = "checkout.session.completed")
    (hres : resolveInvoiceId event.session = some id)
    (hget : getInvoice db id = some invoice) :
    (SettleConditions invoice event.session →
      handleEvent db event now =
        updateInvoices db invoice.id (settleSet invoice event.session now)) ∧
    (¬ SettleConditions invoice event.session → handleEvent db event now = db) := by
  constructor
  · intro hc
    have hs := (shouldSettle_iff invoice event.session).2 hc
    simp [handleEvent, htype, hres, hget, hs]
  · intro hc
    have hs : shouldSettle invoice event.session = false := by
      cases h : shouldSettle invoice event.session with
      | false => rfl
      | true => exact absurd ((shouldSettle_iff invoice event.session).1 h) hc
    simp [handleEvent, hres, hget, hs]

/-- C4, amended, at the sample invoice and an event one cent short: the store is
unchanged. -/
theorem C4_webhook_writes_only_if_conditions_witness :
    shortEvent.type = "checkout.session.completed" ∧
    resolveInvoiceId shortEvent.session = some "inv_1" ∧
    getInvoice sampleStore "inv_1" = some sampleInvoice ∧
    ¬ SettleConditions sampleInvoice shortEvent.session ∧
    handleEvent sampleStore shortEvent 2 = sampleStore :=
  ⟨rfl, by decide, by decide, by unfold SettleConditions; decide,
    (C4_webhook_writes_only_if_conditions sampleStore shortEvent 2 "inv_1" sampleInvoice rfl
      (by decide) (by decide)).2 (by unfold SettleConditions; decide)⟩

/-- C5: delivering the same verified event twice leaves the store exactly as one
delivery does, whatever the clock of the second delivery; the same holds for the
whole webhook route. -/
theorem C5_webhook_idempotent (env : Env) (signature : Option String)
    (constructEvent : Except String StripeEvent) (db : Db) (now1 now2 : Nat) :
    (∀ event : StripeEvent,
      handleEvent (handleEvent db event now1) event now2 = handleEvent db event now1) ∧
    (webhookRoute env signature constructEvent
        (webhookRoute env signature constructEvent db now1).2 now2).2 =
      (webhookRoute env signature constructEvent db now1).2 := by
  refine ⟨fun event => handleEvent_idem db event now1 now2, ?_⟩
  unfold webhookRoute
  split
  · rfl
  · split
    · rfl
    · cases constructEvent with
      | error m => rfl
      | ok event => exact handleEvent_idem db event now1 now2

/-- C6, as stated, fails: the webhook settles the sample invoice, an administrator
reopens it as SENT and raises the amount to 200.00, and a second delivery of the same
event makes the webhook perform its settlement write again; the same happens when the
requests go through the routes. -/
theorem C6_settles_twice_after_reopen :
    createInvoice sampleDb sampleAdmin sampleCreate "inv_1" 2024 1 1 = .ok sampleInvoice ∧
    settlementWrites sampleInvoice settleReopenRaise = 2 ∧
    handleEvent sampleStore sampleEvent 2 ≠ sampleStore ∧
    (getInvoice reopenedStore "inv_1").map (fun r => (r.status, r.amountCents, r.amountPaidCents))
      = some ("SENT", 20000, 10000) ∧
    handleEvent reopenedStore sampleEvent 5 ≠ reopenedStore ∧
    (getInvoice (handleEvent reopenedStore sampleEvent 5) "inv_1").map
      (fun r => (r.status, r.amountCents, r.amountPaidCents)) = some ("PAID", 20000, 20000) := by
  refine ⟨rfl, by decide, by decide, by decide, by decide, by decide⟩

/-- C6, amended: along every finite sequence of webhook deliveries, checkout-session
initiations and PATCH updates in which no PATCH moves a PAID invoice to another status,
the webhook performs its settlement write at most once. -/
theorem C6_settles_at_most_once_while_paid_kept (invoice : Invoice) (ops : List Op)
    (hops : allAlong keepsPaid invoice ops = true) :
    settlementWrites invoice ops ≤ 1 :=
  settlementWrites_le_one ops invoice hops

/-- C6, amended, at two deliveries of the sample event around a checkout-session
initiation. -/
theorem C6_settles_at_most_once_while_paid_kept_witness :
    allAlong keepsPaid sampleInvoice deliverTwice = true ∧
    settlementWrites sampleInvoice deliverTwice = 1 ∧
    settlementWrites sampleInvoice deliverTwice ≤ 1 :=
  ⟨by decide, by decide,
    C6_settles_at_most_once_while_paid_kept sampleInvoice deliverTwice (by decide)⟩

/-- C7: when the webhook settles a stored invoice with a verified event (whose session id
is not empty, as the provider's ids are), the stored invoice afterwards has status PAID,
`amountPaidCents` equal to `amountCents`, `paidAt` and `updatedAt` equal to the current
time, `stripeCheckoutSessionId` equal to the event's session id, `stripePaymentIntentId`
equal to the event's payment intent, or to its previous value when the event has none,
and every other column as before. -/
theorem C7_settlement_result (db : Db) (event : StripeEvent) (now : Nat) (id : String)
    (invoice : Invoice)
    (htype : event.type = "checkout.session.completed")
    (hres : resolveInvoiceId event.session = some id)
    (hget : getInvoice db id = some invoice)
    (hsettle : shouldSettle invoice event.session = true)
    (hsid : event.session.id ≠ "") :
    ∃ result, getInvoice (handleEvent db event now) id = some result ∧
      result.status = "PAID" ∧
      result.amountPaidCents = invoice.amountCents ∧
      result.paidAt = some now ∧
      result.stripeCheckoutSessionId = some event.session.id ∧
      (truthy event.session.payment_intent = true →
        result.stripePaymentIntentId = event.session.payment_intent) ∧
      (truthy event.session.payment_intent = false →
        result.stripePaymentIntentId = invoice.stripePaymentIntentId) ∧
      result.updatedAt = now ∧
      result.amountCents = invoice.amountCents ∧
      result.currency = invoice.currency ∧
      result.title = invoice.title ∧
      result.description = invoice.description ∧
      result.dueDate = invoice.dueDate ∧
      result.id = invoice.id ∧
      result.workspaceId = invoice.workspaceId ∧
      result.clientId = invoice.clientId ∧
      result.invoiceNumber = invoice.invoiceNumber ∧
      result.issuedAt = invoice.issuedAt ∧
      result.createdBy = invoice.createdBy ∧
      result.metadata = invoice.metadata := by
  have hE : handleEvent db event now =
      updateInvoices db invoice.id (settleSet invoice event.session now) := by
    simp [handleEvent, htype, hres, hget, hsettle]
  refine ⟨applySet (settleSet invoice event.session now) invoice, ?_, rfl, rfl, rfl, ?_, ?_, ?_,
    rfl, rfl, rfl, rfl, rfl, rfl, rfl, rfl, rfl, rfl, rfl, rfl, rfl⟩
  · rw [hE]; exact getInvoice_update_self _ hget
  · simp [applySet, settleSet, InvoiceSet.empty, orElse, truthy, hsid]
  · intro hp
    simp [applySet, settleSet, InvoiceSet.empty, orElse, hp]
  · intro hp
    simp [applySet, settleSet, InvoiceSet.empty, orElse, hp]

/-- C7 at the sample invoice and the sample event. -/
theorem C7_settlement_result_witness :
    sampleEvent.type = "checkout.session.completed" ∧
    resolveInvoiceId sampleEvent.session = some "inv_1" ∧
    getInvoice sampleStore "inv_1" = some sampleInvoice ∧
    shouldSettle sampleInvoice sampleEvent.session = true ∧
    sampleEvent.session.id ≠ "" ∧
    ∃ result, getInvoice (handleEvent sampleStore sampleEvent 2) "inv_1" = some result ∧
      result.status = "PAID" ∧ result.amountPaidCents = 10000 ∧ result.paidAt = some 2 :=
  ⟨rfl, by decide, by decide, by decide, by decide, by
    obtain ⟨result, h1, h2, h3, h4, _⟩ :=
      C7_settlement_result sampleStore sampleEvent 2 "inv_1" sampleInvoice rfl (by decide)
        (by decide) (by decide) (by decide)
    exact ⟨result, h1, h2, h3, h4⟩⟩

/-- C8: a verified event that is not of type `checkout.session.completed`, or carries
neither `metadata.invoiceId` nor `client_reference_id`, or whose resolved id
(`metadata.invoiceId`, else `client_reference_id`) matches no stored invoice, is answered
200 with `received: true` and leaves the store unchanged. -/
theorem C8_unmatched_event_is_noop (env : Env) (signature : Option String)
    (event : StripeEvent) (db : Db) (now : Nat)
    (hcfg : isStripeConfigured env = true)
    (hsecret : truthy env.STRIPE_WEBHOOK_SECRET = true)
    (hsig : truthy signature = true)
    (h : event.type ≠ "checkout.session.completed" ∨
      (event.session.metadataInvoiceId = none ∧ event.session.client_reference_id = none) ∨
      (∀ id, orElse event.session.metadataInvoiceId event.session.client_reference_id = some id →
        getInvoice db id = none)) :
    webhookRoute env signature (.ok event) db now = (⟨200, .received⟩, db) := by
  have hE : handleEvent db event now = db := by
    rcases h with h | ⟨h1, h2⟩ | h
    · simp [handleEvent, h]
    · simp [handleEvent, resolveInvoiceId, orElse, truthy, h1, h2]
    · unfold handleEvent
      split
      · cases hres : resolveInvoiceId event.session with
        | none => rfl
        | some invoiceId =>
          have hor : orElse event.session.metadataInvoiceId event.session.client_reference_id =
              some invoiceId := by
            unfold resolveInvoiceId at hres
            simp only [] at hres
            split at hres
            · exact hres
            · cases hres
          simp [h invoiceId hor]
      · rfl
  simp [webhookRoute, hcfg, hsecret, hsig, hE]

/-- C8 at a completed-checkout event naming an invoice that is not stored. -/
theorem C8_unmatched_event_is_noop_witness :
    isStripeConfigured sampleEnv = true ∧
    truthy sampleEnv.STRIPE_WEBHOOK_SECRET = true ∧
    truthy (some "t=1,v1=abc") = true ∧
    getInvoice sampleStore "inv_404" = none ∧
    webhookRoute sampleEnv (some "t=1,v1=abc") (.ok strayEvent) sampleStore 2 =
      (⟨200, .received⟩, sampleStore) :=
  ⟨by decide, by decide, by decide, by decide,
    C8_unmatched_event_is_noop sampleEnv (some "t=1,v1=abc") strayEvent sampleStore 2
      (by decide) (by decide) (by decide)
      (Or.inr (Or.inr (fun id hid => by
        have hid1 : some "inv_404" = some id := hid
        cases hid1
        decide)))⟩

/-- C9: for a stored invoice whose status is PAID, every authorized PATCH that carries an
amount, whatever else it carries, is answered 400 and leaves the store unchanged; and
no operation changes the `amountCents` of an invoice whose status is PAID. -/
theorem C9_amount_frozen_while_paid (db : Db) (user : User) (id : String) (body : PatchBody)
    (now : Nat) (invoice : Invoice)
    (hget : getInvoice db id = some invoice)
    (hpaid : invoice.status = "PAID") :
    (canManageClientInvoices db user (getClientRecord db invoice.clientId) = true →
      body.amount ≠ none →
      (patchRoute db user id body now).1.status = 400 ∧ (patchRoute db user id body now).2 = db) ∧
    (∀ op : Op, (applyOp invoice op).amountCents = invoice.amountCents) := by
  refine ⟨?_, fun op => amountCents_paid invoice op hpaid⟩
  intro hauth hamt
  obtain ⟨m, hm⟩ := patchUpdates_paid_amount now hpaid hamt
  simp [patchRoute, hget, hauth, hm]

/-- C9 at the sample invoice once paid: a PATCH carrying `status = SENT` and an amount is
answered 400 and changes nothing. -/
theorem C9_amount_frozen_while_paid_witness :
    getInvoice (handleEvent sampleStore sampleEvent 2) "inv_1" =
      some (webhookRow sampleInvoice sampleEvent 2) ∧
    (webhookRow sampleInvoice sampleEvent 2).status = "PAID" ∧
    (patchRoute (handleEvent sampleStore sampleEvent 2) sampleAdmin "inv_1"
      { emptyPatch with status := some "SENT", amount := some (.finite 50 0) } 3).1.status = 400 ∧
    (patchRoute (handleEvent sampleStore sampleEvent 2) sampleAdmin "inv_1"
      { emptyPatch with status := some "SENT", amount := some (.finite 50 0) } 3).2 =
      handleEvent sampleStore sampleEvent 2 :=
  ⟨by decide, by decide,
    ((C9_amount_frozen_while_paid (handleEvent sampleStore sampleEvent 2) sampleAdmin "inv_1"
      { emptyPatch with status := some "SENT", amount := some (.finite 50 0) } 3
      (webhookRow sampleInvoice sampleEvent 2) (by decide) (by decide)).1 (by decide)
      (by decide)).1,
    ((C9_amount_frozen_while_paid (handleEvent sampleStore sampleEvent 2) sampleAdmin "inv_1"
      { emptyPatch with status := some "SENT", amount := some (.finite 50 0) } 3
      (webhookRow sampleInvoice sampleEvent 2) (by decide) (by decide)).1 (by decide)
      (by decide)).2⟩

/-- C10, the code at the failing input: on the sample invoice (SENT, 10000 cents) a PATCH
carrying `status = PAID` together with the amount 50.00 is answered 200 and stores
status PAID, `amountCents = 5000` and `amountPaidCents = 10000`. -/
theorem C10_paid_with_amount_records_old_amount :
    getInvoice sampleStore "inv_1" = some sampleInvoice ∧
    patchRoute sampleStore sampleAdmin "inv_1" paidWithAmount 2 =
      (⟨200, .invoice (some paidOverAmount)⟩, { sampleDb with invoices := [paidOverAmount] }) ∧
    paidOverAmount.status = "PAID" ∧ paidOverAmount.amountCents = 5000 ∧
    paidOverAmount.amountPaidCents = 10000 ∧
    paidOverAmount.amountPaidCents ≠ paidOverAmount.amountCents := by
  refine ⟨by decide, by decide, rfl, rfl, rfl, by decide⟩

/-! ## Checkout-session initiation -/

theorem remainingAmountCents_eq_zero (invoice : Invoice) :
    remainingAmountCents invoice = 0 ↔ invoice.amountCents - invoice.amountPaidCents ≤ 0 := by
  unfold remainingAmountCents
  constructor
  · intro h; omega
  · intro h; omega

theorem isThreeLowercaseLetters_iff (s : String) :
    isThreeLowercaseLetters s = true ↔ ThreeLettersAtoZ s := by
  unfold isThreeLowercaseLetters ThreeLettersAtoZ
  simp [List.all_eq_true]

/-- What the checkout route has checked once it has a request for the provider. -/
theorem checkoutParams_ok_full {env : Env} {db : Db} {user : User} {invoice : Invoice}
    {params : CheckoutParams} (h : checkoutParams env db user invoice = .ok params) :
    canAccessInvoice db user invoice (getClientRecord db invoice.clientId) = true ∧
    invoice.status ≠ "PAID" ∧ invoice.status ≠ "VOID" ∧
    0 < invoice.amountCents - invoice.amountPaidCents ∧
    params.unit_amount = invoice.amountCents - invoice.amountPaidCents ∧
    params.quantity = 1 ∧
    params.currency = checkoutCurrency invoice ∧
    isThreeLowercaseLetters params.currency = true := by
  unfold checkoutParams at h
  simp only [] at h
  split at h
  · cases h
  · rename_i hacc
    split at h
    · cases h
    · rename_i hst
      split at h
      · cases h
      · rename_i hrem
        split at h
        · cases h
        · rename_i hcur
          cases h
          simp only [Bool.or_eq_true, beq_iff_eq, not_or] at hst
          have hrem1 : ¬ remainingAmountCents invoice = 0 := by simpa using hrem
          rw [remainingAmountCents_eq_zero] at hrem1
          have hpos : 0 < invoice.amountCents - invoice.amountPaidCents := by omega
          refine ⟨by simpa using hacc, hst.1, hst.2, hpos, ?_, rfl, ?_, ?_⟩
          · simp only [remainingAmountCents]; omega
          · simp only [checkoutCurrency, orDefault_some]
          · simpa using hcur

/-- The checks of the checkout route on a stored invoice, in the order of the source. -/
theorem checkoutParams_checks (env : Env) (db : Db) (user : User) (invoice : Invoice) :
    (canAccessInvoice db user invoice (getClientRecord db invoice.clientId) = false →
      checkoutParams env db user invoice = .error ⟨403, .message "Forbidden"⟩) ∧
    (canAccessInvoice db user invoice (getClientRecord db invoice.clientId) = true →
      ((invoice.status = "PAID" ∨ invoice.status = "VOID") →
        checkoutParams env db user invoice =
          .error ⟨400, .message ("Invoice is " ++ toLowerCase invoice.status)⟩) ∧
      (invoice.status ≠ "PAID" → invoice.status ≠ "VOID" →
        (invoice.amountCents - invoice.amountPaidCents ≤ 0 →
          checkoutParams env db user invoice =
            .error ⟨400, .message "Invoice has no remaining balance"⟩) ∧
        (0 < invoice.amountCents - invoice.amountPaidCents →
          (isThreeLowercaseLetters (checkoutCurrency invoice) = false →
            checkoutParams env db user invoice =
              .error ⟨400, .message "Invoice currency is invalid"⟩) ∧
          (isThreeLowercaseLetters (checkoutCurrency invoice) = true →
            ∃ params, checkoutParams env db user invoice = .ok params)))) := by
  refine ⟨fun hacc => ?_, fun hacc => ⟨fun hst => ?_, fun hp hv => ⟨fun hrem => ?_, fun hrem =>
    ⟨fun hcur => ?_, fun hcur => ?_⟩⟩⟩⟩
  · simp [checkoutParams, hacc]
  · have hst1 : (invoice.status == "PAID" || invoice.status == "VOID") = true := by
      simpa using hst
    simp [checkoutParams, hacc, hst1]
  · have h0 := (remainingAmountCents_eq_zero invoice).2 hrem
    simp [checkoutParams, hacc, hp, hv, h0]
  · have h0 : ¬ remainingAmountCents invoice = 0 := by
      rw [remainingAmountCents_eq_zero]; omega
    have hcur1 : isThreeLowercaseLetters
        (toLowerCase (trim (orDefault (some invoice.currency) "USD"))) = false := by
      rw [orDefault_some]; exact hcur
    simp [checkoutParams, hacc, hp, hv, h0, hcur1]
  · have h0 : ¬ remainingAmountCents invoice = 0 := by
      rw [remainingAmountCents_eq_zero]; omega
    have hcur1 : isThreeLowercaseLetters
        (toLowerCase (trim (orDefault (some invoice.currency) "USD"))) = true := by
      rw [orDefault_some]; exact hcur
    simp [checkoutParams, hacc, hp, hv, h0, hcur1]

/-- C11, as stated, fails: the invoice stored by a create request with a blank currency
has the empty currency, which trimmed and lowercased does not match `^[a-z]{3}$`, yet
checkout-session initiation answers 200 and calls the provider. -/
theorem C11_blank_currency_reaches_provider :
    getInvoice blankCurrencyStore "inv_1" = some blankCurrencyInvoice ∧
    isThreeLowercaseLetters (toLowerCase (trim blankCurrencyInvoice.currency)) = false ∧
    (checkoutRoute sampleEnv sampleStripe blankCurrencyStore sampleAdmin "inv_1" 2).response.status
      = 200 ∧
    (checkoutRoute sampleEnv sampleStripe blankCurrencyStore sampleAdmin "inv_1"
      2).providerCalls.length = 1 := by
  refine ⟨by decide, by decide, by decide, by decide⟩

/-- C11, amended: checkout-session initiation checks, in this order, that the Stripe key
is configured (else 503), that the invoice exists (else 404), that `canAccessInvoice`
grants access (else 403), that the status is neither PAID nor VOID (else 400), that
`amountCents - amountPaidCents > 0` (else 400) and that the invoice currency, `USD`
standing in for an empty one, trimmed and lowercased matches `^[a-z]{3}$` (else 400).
When a check fails no provider call is made and the store is unchanged; when all pass
the provider is called once and the answer is 200. -/
theorem C11_checkout_checks_in_order (env : Env) (stripe : CheckoutParams → ProviderSession)
    (db : Db) (user : User) (id : String) (now : Nat) (out : CheckoutOutcome)
    (hout : out = checkoutRoute env stripe db user id now) :
    (isStripeConfigured env = false →
      out.response.status = 503 ∧ out.providerCalls = [] ∧ out.db = db) ∧
    (isStripeConfigured env = true →
      (getInvoice db id = none →
        out.response.status = 404 ∧ out.providerCalls = [] ∧ out.db = db) ∧
      (∀ invoice, getInvoice db id = some invoice →
        (canAccessInvoice db user invoice (getClientRecord db invoice.clientId) = false →
          out.response.status = 403 ∧ out.providerCalls = [] ∧ out.db = db) ∧
        (canAccessInvoice db user invoice (getClientRecord db invoice.clientId) = true →
          ((invoice.status = "PAID" ∨ invoice.status = "VOID") →
            out.response.status = 400 ∧ out.providerCalls = [] ∧ out.db = db) ∧
          (invoice.status ≠ "PAID" → invoice.status ≠ "VOID" →
            (invoice.amountCents - invoice.amountPaidCents ≤ 0 →
              out.response.status = 400 ∧ out.providerCalls = [] ∧ out.db = db) ∧
            (0 < invoice.amountCents - invoice.amountPaidCents →
              (isThreeLowercaseLetters (checkoutCurrency invoice) = false →
                out.response.status = 400 ∧ out.providerCalls = [] ∧ out.db = db) ∧
              (isThreeLowercaseLetters (checkoutCurrency invoice) = true →
                out.response.status = 200 ∧ out.providerCalls.length = 1)))))) := by
  subst hout
  refine ⟨fun hcfg => ?_, fun hcfg => ⟨fun hget => ?_, fun invoice hget => ?_⟩⟩
  · simp [checkoutRoute, hcfg]
  · simp [checkoutRoute, hcfg, hget]
  · have hc := checkoutParams_checks env db user invoice
    refine ⟨fun hacc => ?_, fun hacc => ⟨fun hst => ?_, fun hp hv => ⟨fun hrem => ?_,
      fun hrem => ⟨fun hcur => ?_, fun hcur => ?_⟩⟩⟩⟩
    · simp [checkoutRoute, hcfg, hget, hc.1 hacc]
    · simp [checkoutRoute, hcfg, hget, (hc.2 hacc).1 hst]
    · simp [checkoutRoute, hcfg, hget, ((hc.2 hacc).2 hp hv).1 hrem]
    · simp [checkoutRoute, hcfg, hget, (((hc.2 hacc).2 hp hv).2 hrem).1 hcur]
    · obtain ⟨params, hparams⟩ := (((hc.2 hacc).2 hp hv).2 hrem).2 hcur
      simp [checkoutRoute, hcfg, hget, hparams]

/-- C11, amended, at the sample invoice: a portal user with access reaches the provider,
and on the paid invoice the same request is answered 400 without a provider call. -/
theorem C11_checkout_checks_in_order_witness :
    (checkoutRoute sampleEnv sampleStripe portalStore portalUser "inv_1" 2).response.status = 200 ∧
    (checkoutRoute sampleEnv sampleStripe portalStore portalUser "inv_1"
      2).providerCalls.length = 1 ∧
    (checkoutRoute sampleEnv sampleStripe { sampleDb with invoices := [paidUnsettled] }
      sampleAdmin "inv_1" 2).response.status = 400 ∧
    (checkoutRoute sampleEnv sampleStripe { sampleDb with invoices := [paidUnsettled] }
      sampleAdmin "inv_1" 2).providerCalls = [] :=
  ⟨((((((C11_checkout_checks_in_order sampleEnv sampleStripe portalStore portalUser "inv_1" 2 _
      rfl).2 (by decide)).2 sampleInvoice (by decide)).2 (by decide)).2 (by decide)
      (by decide)).2 (by decide)).2 (by decide) |>.1,
   ((((((C11_checkout_checks_in_order sampleEnv sampleStripe portalStore portalUser "inv_1" 2 _
      rfl).2 (by decide)).2 sampleInvoice (by decide)).2 (by decide)).2 (by decide)
      (by decide)).2 (by decide)).2 (by decide) |>.2,
   (((((C11_checkout_checks_in_order sampleEnv sampleStripe
      { sampleDb with invoices := [paidUnsettled] } sampleAdmin "inv_1" 2 _
      rfl).2 (by decide)).2 paidUnsettled (by decide)).2 (by decide)).1
      (Or.inl (by decide))).1,
   (((((C11_checkout_checks_in_order sampleEnv sampleStripe
      { sampleDb with invoices := [paidUnsettled] } sampleAdmin "inv_1" 2 _
      rfl).2 (by decide)).2 paidUnsettled (by decide)).2 (by decide)).1
      (Or.inl (by decide))).2.1⟩

/-- C12, as stated, fails: for the invoice stored with an empty currency the provider is
asked for the currency `usd`, which is not the invoice currency trimmed and
lowercased. -/
theorem C12_blank_currency_charged_in_usd :
    getInvoice blankCurrencyStore "inv_1" = some blankCurrencyInvoice ∧
    toLowerCase (trim blankCurrencyInvoice.currency) = "" ∧
    (checkoutRoute sampleEnv sampleStripe blankCurrencyStore sampleAdmin "inv_1"
      2).providerCalls.map (fun p => (p.currency, p.unit_amount, p.quantity)) =
      [("usd", 10000, 1)] := by
  refine ⟨by decide, by decide, by decide⟩

/-- C12, amended: whenever checkout-session initiation reaches the provider, it sends one
request, for one line item of quantity 1 whose `unit_amount` is
`amountCents - amountPaidCents`, strictly positive, and whose currency is the invoice
currency, `USD` standing in for an empty one, trimmed and lowercased, consisting of
exactly three letters a to z. -/
theorem C12_checkout_request (env : Env) (stripe : CheckoutParams → ProviderSession)
    (db : Db) (user : User) (id : String) (now : Nat) (params : CheckoutParams)
    (hcall : params ∈ (checkoutRoute env stripe db user id now).providerCalls) :
    ∃ invoice, getInvoice db id = some invoice ∧
      (checkoutRoute env stripe db user id now).providerCalls = [params] ∧
      params.quantity = 1 ∧
      params.unit_amount = invoice.amountCents - invoice.amountPaidCents ∧
      0 < params.unit_amount ∧
      params.currency =
        toLowerCase (trim (if invoice.currency = "" then "USD" else invoice.currency)) ∧
      ThreeLettersAtoZ params.currency := by
  by_cases hcfg : isStripeConfigured env = true
  · cases hget : getInvoice db id with
    | none =>
      have hE : (checkoutRoute env stripe db user id now).providerCalls = [] := by
        simp [checkoutRoute, hcfg, hget]
      rw [hE] at hcall
      cases hcall
    | some invoice =>
      cases hp : checkoutParams env db user invoice with
      | error r =>
        have hE : (checkoutRoute env stripe db user id now).providerCalls = [] := by
          simp [checkoutRoute, hcfg, hget, hp]
        rw [hE] at hcall
        cases hcall
      | ok p =>
        have hE : (checkoutRoute env stripe db user id now).providerCalls = [p] := by
          simp [checkoutRoute, hcfg, hget, hp]
        rw [hE] at hcall ⊢
        simp only [List.mem_singleton] at hcall
        subst hcall
        obtain ⟨_, _, _, hpos, hamt, hq, hcur, h3⟩ := checkoutParams_ok_full hp
        exact ⟨invoice, rfl, rfl, hq, hamt, by rw [hamt]; exact hpos, hcur,
          (isThreeLowercaseLetters_iff _).1 h3⟩
  · have hE : (checkoutRoute env stripe db user id now).providerCalls = [] := by
      simp [checkoutRoute, hcfg]
    rw [hE] at hcall
    cases hcall

/-- C12, amended, at the sample invoice and a portal user. -/
theorem C12_checkout_request_witness :
    portalCheckoutParams ∈
      (checkoutRoute sampleEnv sampleStripe portalStore portalUser "inv_1" 2).providerCalls ∧
    ∃ invoice, getInvoice portalStore "inv_1" = some invoice ∧
      portalCheckoutParams.unit_amount = invoice.amountCents - invoice.amountPaidCents ∧
      ThreeLettersAtoZ portalCheckoutParams.currency := by
  refine ⟨by decide, ?_⟩
  obtain ⟨invoice, h1, _, _, h4, _, _, h7⟩ :=
    C12_checkout_request sampleEnv sampleStripe portalStore portalUser "inv_1" 2
      portalCheckoutParams (by decide)
  exact ⟨invoice, h1, h4, h7⟩

/-! ## Authorization -/

theorem canAccessInvoice_iff (db : Db) (user : User) (invoice : Invoice)
    (client : Option Client) :
    canAccessInvoice db user invoice client = true ↔
      CanAccessInvoiceSpec db user invoice client := by
  unfold canAccessInvoice CanAccessInvoiceSpec ClientMatchesUser
  by_cases hadmin : user.role = "ADMIN"
  · simp [hadmin]
  · cases hm : getWorkspaceMembership db invoice.workspaceId user.id with
    | none => simp [hadmin]
    | some m =>
      by_cases hma : m.role = "ADMIN"
      · simp [hadmin, hma]
      · by_cases hmc : m.role = "CLIENT"
        · cases client with
          | none => simp [hadmin, hma, hmc, truthy]
          | some c =>
            simp only [hadmin, hmc, beq_iff_eq, Option.some_bind, Bool.and_eq_true,
              Option.some.injEq, exists_eq_left', false_or, ↓reduceIte]
            by_cases hp : truthy c.portalUserId = true ∧ c.portalUserId = some user.id
            · simp [hp, and_assoc]
            · by_cases he : truthy c.email = true ∧ truthy user.email = true
              · simp [hp, he]
              · simp only [hp, he]
                simp only [not_and] at he
                simp
                intro h1 h2
                exact absurd h2 (he h1)
        · simp [hadmin, hma, hmc]

theorem canManageClientInvoices_iff (db : Db) (user : User) (client : Option Client) :
    canManageClientInvoices db user client = true ↔
      CanManageClientInvoicesSpec db user client := by
  unfold canManageClientInvoices CanManageClientInvoicesSpec
  by_cases hadmin : user.role = "ADMIN"
  · simp [hadmin]
  · cases client with
    | none => simp [hadmin]
    | some c =>
      by_cases hs : isWorkspaceAdmin db user.id c.workspaceId = true
      · simp [hadmin, hs]
      · cases hw : c.portalWorkspaceId with
        | none => simp [hadmin, hs, hw]
        | some w =>
          by_cases he : w = ""
          · simp [hadmin, hs, hw, he]
          · simp [hadmin, hs, hw, he]

theorem isWorkspaceAdmin_false_of_no_admin_role {db : Db} {user : User}
    (h : ∀ m ∈ db.workspaceMembers, m.userId = user.id → m.role ≠ "ADMIN") (w : String) :
    isWorkspaceAdmin db user.id w = false := by
  unfold isWorkspaceAdmin
  rw [List.any_eq_false]
  intro m hm
  simp only [Bool.and_eq_true, beq_iff_eq, not_and]
  intro hwu
  exact h m hm hwu.2

/-- C13: `canAccessInvoice` is true exactly when the user's platform role is ADMIN, or
the user's membership in the invoice's workspace has role ADMIN, or has role CLIENT and
the client's `portalUserId` is set and equals the user's id or both emails are present
and equal ignoring case, or has any other role. A user without a membership in the
invoice's workspace who is not a platform admin is denied, and a CLIENT-role member is
denied when the client's `portalUserId` and email do not match theirs. -/
theorem C13_canAccessInvoice_rule (db : Db) (user : User) (invoice : Invoice)
    (client : Option Client) :
    (canAccessInvoice db user invoice client = true ↔
      (user.role = "ADMIN" ∨
        ∃ m, getWorkspaceMembership db invoice.workspaceId user.id = some m ∧
          (m.role = "ADMIN" ∨
            (m.role = "CLIENT" ∧
              ∃ c, client = some c ∧
                ((truthy c.portalUserId = true ∧ c.portalUserId = some user.id) ∨
                  (truthy c.email = true ∧ truthy user.email = true ∧
                    c.email.map toLowerCase = user.email.map toLowerCase))) ∨
            (m.role ≠ "ADMIN" ∧ m.role ≠ "CLIENT")))) ∧
    (user.role ≠ "ADMIN" → getWorkspaceMembership db invoice.workspaceId user.id = none →
      canAccessInvoice db user invoice client = false) ∧
    (user.role ≠ "ADMIN" →
      ∀ m, getWorkspaceMembership db invoice.workspaceId user.id = some m →
        m.role = "CLIENT" → ¬ ClientMatchesUser user client →
        canAccessInvoice db user invoice client = false) := by
  have hiff := canAccessInvoice_iff db user invoice client
  refine ⟨hiff, fun hadmin hnone => ?_, fun hadmin m hm hrole hno => ?_⟩
  · cases h : canAccessInvoice db user invoice client with
    | false => rfl
    | true =>
      rcases hiff.1 h with h1 | ⟨m, hm, _⟩
      · exact absurd h1 hadmin
      · rw [hnone] at hm; cases hm
  · cases h : canAccessInvoice db user invoice client with
    | false => rfl
    | true =>
      rcases hiff.1 h with h1 | ⟨m1, hm1, h2⟩
      · exact absurd h1 hadmin
      · rw [hm] at hm1
        cases hm1
        rcases h2 with h2 | ⟨_, h2⟩ | ⟨_, h2⟩
        · rw [hrole] at h2; exact absurd h2 (by decide)
        · exact absurd h2 hno
        · exact absurd hrole h2

/-- C13 at a portal user who is a CLIENT member of `ws_1`: access to the invoice of the
client whose email matches theirs ignoring case, none to an invoice of another client,
and none for a user without membership. -/
theorem C13_canAccessInvoice_rule_witness :
    canAccessInvoice portalStore portalUser sampleInvoice (getClientRecord portalStore "cl_1")
      = true ∧
    canAccessInvoice portalStore portalUser sampleInvoice (some portalLinkedClient) = false ∧
    canAccessInvoice portalStore strangerUser sampleInvoice (getClientRecord portalStore "cl_1")
      = false :=
  ⟨(C13_canAccessInvoice_rule portalStore portalUser sampleInvoice
      (getClientRecord portalStore "cl_1")).1.2
      (Or.inr ⟨{ workspaceId := "ws_1", userId := "u_portal", role := "CLIENT" }, by decide,
        Or.inr (Or.inl ⟨rfl,
          { id := "cl_1", workspaceId := "ws_1", portalWorkspaceId := none,
            portalUserId := none, email := some "client@example.com" },
          by decide, Or.inr ⟨by decide, by decide, by decide⟩⟩)⟩),
   (C13_canAccessInvoice_rule portalStore portalUser sampleInvoice
      (some portalLinkedClient)).2.2 (by decide)
      { workspaceId := "ws_1", userId := "u_portal", role := "CLIENT" } (by decide) rfl
      (by
        rintro ⟨c, hc, h⟩
        cases hc
        revert h
        decide),
   (C13_canAccessInvoice_rule portalStore strangerUser sampleInvoice
      (getClientRecord portalStore "cl_1")).2.1 (by decide) (by decide)⟩

/-- C14: `canManageClientInvoices` is true exactly when the user's platform role is
ADMIN, or the client exists and the user is a workspace admin of its `workspaceId`, or
the client has a `portalWorkspaceId` and the user is a workspace admin of it. Hence an
admin of the originating workspace may manage a client that has a portal workspace, and
a user who is not a platform admin and holds no ADMIN membership may not. -/
theorem C14_canManageClientInvoices_rule (db : Db) (user : User) (client : Option Client) :
    (canManageClientInvoices db user client = true ↔
      (user.role = "ADMIN" ∨
        ∃ c, client = some c ∧
          (isWorkspaceAdmin db user.id c.workspaceId = true ∨
            ∃ w, c.portalWorkspaceId = some w ∧ w ≠ "" ∧
              isWorkspaceAdmin db user.id w = true))) ∧
    (∀ c, client = some c → isWorkspaceAdmin db user.id c.workspaceId = true →
      canManageClientInvoices db user client = true) ∧
    (user.role ≠ "ADMIN" →
      (∀ m ∈ db.workspaceMembers, m.userId = user.id → m.role ≠ "ADMIN") →
      canManageClientInvoices db user client = false) := by
  have hiff := canManageClientInvoices_iff db user client
  refine ⟨hiff, fun c hc hadm => hiff.2 (Or.inr ⟨c, hc, Or.inl hadm⟩), fun hadmin hno => ?_⟩
  cases h : canManageClientInvoices db user client with
  | false => rfl
  | true =>
    rcases hiff.1 h with h1 | ⟨c, _, h2 | ⟨w, _, _, h2⟩⟩
    · exact absurd h1 hadmin
    · rw [isWorkspaceAdmin_false_of_no_admin_role hno] at h2; cases h2
    · rw [isWorkspaceAdmin_false_of_no_admin_role hno] at h2; cases h2

/-- C14 at a client of `ws_1` whose portal workspace is `ws_p`: the admin of `ws_1` may
manage it and creates an invoice for it (201), a plain member of `ws_p` may not and is
answered 403. -/
theorem C14_canManageClientInvoices_rule_witness :
    canManageClientInvoices twoWorkspaceDb ownerUser (some portalLinkedClient) = true ∧
    canManageClientInvoices twoWorkspaceDb memberUser (some portalLinkedClient) = false ∧
    (createRoute twoWorkspaceDb ownerUser portalLinkedCreate "inv_2" 2024 1 1).1.status = 201 ∧
    (createRoute twoWorkspaceDb memberUser portalLinkedCreate "inv_2" 2024 1 1).1.status = 403 :=
  ⟨(C14_canManageClientInvoices_rule twoWorkspaceDb ownerUser (some portalLinkedClient)).2.1
      portalLinkedClient rfl (by decide),
   (C14_canManageClientInvoices_rule twoWorkspaceDb memberUser (some portalLinkedClient)).2.2
      (by decide) (by decide),
   by decide, by decide⟩

/-- C15, as stated, fails: for the portal user, `canManageClientInvoices` is false for the
sample invoice's client, yet checkout-session initiation answers 200 and calls the
provider. -/
theorem C15_portal_user_checks_out_without_manage :
    getInvoice portalStore "inv_1" = some sampleInvoice ∧
    canManageClientInvoices portalStore portalUser
      (getClientRecord portalStore sampleInvoice.clientId) = false ∧
    canAccessInvoice portalStore portalUser sampleInvoice
      (getClientRecord portalStore sampleInvoice.clientId) = true ∧
    (checkoutRoute sampleEnv sampleStripe portalStore portalUser "inv_1" 2).response =
      ⟨200, .checkout "cs_1" "https://checkout.example/cs_1"⟩ ∧
    (checkoutRoute sampleEnv sampleStripe portalStore portalUser "inv_1" 2).providerCalls =
      [portalCheckoutParams] := by
  refine ⟨by decide, by decide, by decide, by decide, by decide⟩

/-- C15, amended: checkout-session initiation is gated by `canAccessInvoice`: for every
actor and stored invoice for which `canAccessInvoice` is false, initiating checkout
fails with 403 (with 503 when Stripe is not configured), makes no provider call and
leaves the store unchanged. -/
theorem C15_checkout_gated_by_access (env : Env) (stripe : CheckoutParams → ProviderSession)
    (db : Db) (user : User) (id : String) (now : Nat) (invoice : Invoice)
    (hget : getInvoice db id = some invoice)
    (hacc : canAccessInvoice db user invoice (getClientRecord db invoice.clientId) = false) :
    (checkoutRoute env stripe db user id now).response.status =
      (if isStripeConfigured env = true then 403 else 503) ∧
    (checkoutRoute env stripe db user id now).providerCalls = [] ∧
    (checkoutRoute env stripe db user id now).db = db := by
  by_cases hcfg : isStripeConfigured env = true
  · have hp := (checkoutParams_checks env db user invoice).1 hacc
    simp [checkoutRoute, hcfg, hget, hp]
  · simp [checkoutRoute, hcfg]

/-- C15, amended, at a user who is a member of no workspace. -/
theorem C15_checkout_gated_by_access_witness :
    getInvoice sampleStore "inv_1" = some sampleInvoice ∧
    canAccessInvoice sampleStore strangerUser sampleInvoice
      (getClientRecord sampleStore sampleInvoice.clientId) = false ∧
    (checkoutRoute sampleEnv sampleStripe sampleStore strangerUser "inv_1" 2).response.status
      = 403 ∧
    (checkoutRoute sampleEnv sampleStripe sampleStore strangerUser "inv_1" 2).providerCalls = [] :=
  ⟨by decide, by decide,
    (C15_checkout_gated_by_access sampleEnv sampleStripe sampleStore strangerUser "inv_1" 2
      sampleInvoice (by decide) (by decide)).1,
    (C15_checkout_gated_by_access sampleEnv sampleStripe sampleStore strangerUser "inv_1" 2
      sampleInvoice (by decide) (by decide)).2.1⟩

/-! ## Listing by workspace -/

theorem find?_id_of_nodup {α : Type} (f : α → String) :
    ∀ (l : List α) (c : α), (l.map f).Nodup → c ∈ l →
      l.find? (fun x => f x == f c) = some c := by
  intro l
  induction l with
  | nil => intro c _ hc; cases hc
  | cons a l ih =>
    intro c hnd hc
    simp only [List.map_cons, List.nodup_cons] at hnd
    by_cases hac : f a = f c
    · rcases List.mem_cons.1 hc with h | h
      · subst h; simp
      · exact absurd (hac ▸ List.mem_map_of_mem f h) hnd.1
    · rcases List.mem_cons.1 hc with h | h
      · subst h; exact absurd rfl hac
      · have hb : (f a == f c) = false := by simpa using hac
        simp only [List.find?_cons, hb]
        exact ih c hnd.2 h

theorem portalFilter_iff (user : User) (c : Client) :
    (if truthy c.portalUserId && c.portalUserId == some user.id then true
      else if !truthy c.email || !truthy user.email then false
      else c.email.map toLowerCase == user.email.map toLowerCase) = true ↔
      ClientMatchesUser user (some c) := by
  unfold ClientMatchesUser
  simp only [Option.some.injEq, exists_eq_left']
  by_cases hp : truthy c.portalUserId = true ∧ c.portalUserId = some user.id
  · simp [hp, and_assoc]
  · by_cases he : truthy c.email = true ∧ truthy user.email = true
    · have hp1 : (truthy c.portalUserId && c.portalUserId == some user.id) = false := by
        simpa using hp
      simp [hp1, hp, he]
    · have hp1 : (truthy c.portalUserId && c.portalUserId == some user.id) = false := by
        simpa using hp
      have he1 : (!truthy c.email || !truthy user.email) = true := by
        simp only [not_and] at he
        cases h1 : truthy c.email <;> cases h2 : truthy user.email <;> simp_all
      simp only [hp1, he1, hp, false_or]
      simp only [Bool.false_eq_true, ↓reduceIte, false_iff, not_and]
      intro h1 h2
      exact absurd ⟨h1, h2⟩ he

/-- The ids `resolveClientIdsForPortalUser` returns belong to clients that are
portal-linked to the workspace and match the user. -/
theorem mem_resolveClientIdsForPortalUser {db : Db} {w : String} {user : User} {cid : String}
    (h : cid ∈ resolveClientIdsForPortalUser db (some w) user) :
    ∃ c ∈ db.clients, c.id = cid ∧ c.portalWorkspaceId = some w ∧
      ClientMatchesUser user (some c) := by
  unfold resolveClientIdsForPortalUser at h
  split at h
  · cases h
  · simp only [List.mem_map, List.mem_filter] at h
    obtain ⟨c, ⟨⟨hc, hw⟩, hmatch⟩, hid⟩ := h
    exact ⟨c, hc, hid, by simpa using hw, (portalFilter_iff user c).1 hmatch⟩

/-- For a user with an id, `resolveClientIdsForPortalUser` returns exactly the ids of the
clients that are portal-linked to the workspace and match the user; for a user without
id it returns nothing. -/
theorem mem_resolveClientIdsForPortalUser_iff (db : Db) (w : String) (hw : w ≠ "")
    (user : User) (cid : String) :
    cid ∈ resolveClientIdsForPortalUser db (some w) user ↔
      user.id ≠ "" ∧ ∃ c ∈ db.clients, c.id = cid ∧ c.portalWorkspaceId = some w ∧
        ClientMatchesUser user (some c) := by
  unfold resolveClientIdsForPortalUser
  by_cases hu : user.id = ""
  · simp [truthy, hu]
  · have h1 : (!truthy (some w) || !truthy (some user.id)) = false := by
      simp [truthy, hw, hu]
    simp only [h1, Bool.false_eq_true, ↓reduceIte, List.mem_map, List.mem_filter]
    constructor
    · rintro ⟨c, ⟨⟨hc, hpw⟩, hmatch⟩, hid⟩
      exact ⟨hu, c, hc, hid, by simpa using hpw, (portalFilter_iff user c).1 hmatch⟩
    · rintro ⟨_, c, hc, hid, hpw, hmatch⟩
      exact ⟨c, ⟨⟨hc, by simpa using hpw⟩, (portalFilter_iff user c).2 hmatch⟩, hid⟩

theorem listRoute_workspace (db : Db) (user : User) (w : String) (hw : w ≠ "") :
    listRoute db user (some w) none =
      if (getWorkspaceMembership db w user.id).isNone && user.role != "ADMIN" then
        ⟨403, .message "Forbidden"⟩
      else if user.role == "CLIENT" ||
          (getWorkspaceMembership db w user.id).map (fun m => m.role) == some "CLIENT" then
        if (resolveClientIdsForPortalUser db (some w) user).isEmpty then ⟨200, .rows []⟩
        else
          ⟨200, .rows (db.invoices.filter (fun r =>
            r.workspaceId == w && (resolveClientIdsForPortalUser db (some w) user).contains
              r.clientId))⟩
      else ⟨200, .rows (db.invoices.filter (fun r => r.workspaceId == w))⟩ := by
  simp [listRoute, truthy, hw]

/-- The rows of a listing by workspace that is not answered 403. -/
theorem listRoute_rows_iff (db : Db) (user : User) (w : String) (hw : w ≠ "")
    (hok : (listRoute db user (some w) none).status ≠ 403) (r : Invoice) :
    (listRoute db user (some w) none).status = 200 ∧
    (r ∈ (listRoute db user (some w) none).rows ↔
      r ∈ db.invoices ∧ r.workspaceId = w ∧
        ((user.role = "CLIENT" ∨
            (getWorkspaceMembership db w user.id).map (fun m => m.role) = some "CLIENT") →
          r.clientId ∈ resolveClientIdsForPortalUser db (some w) user)) := by
  rw [listRoute_workspace db user w hw] at hok ⊢
  split at hok
  · exact absurd rfl hok
  · rename_i h403
    rw [if_neg h403]
    by_cases hcl : (user.role == "CLIENT" ||
        (getWorkspaceMembership db w user.id).map (fun m => m.role) == some "CLIENT") = true
    · have hcl1 : user.role = "CLIENT" ∨
          (getWorkspaceMembership db w user.id).map (fun m => m.role) = some "CLIENT" := by
        simpa using hcl
      rw [if_pos hcl]
      by_cases hempty : (resolveClientIdsForPortalUser db (some w) user).isEmpty = true
      · rw [if_pos hempty]
        have hnil : resolveClientIdsForPortalUser db (some w) user = [] := by
          simpa using hempty
        refine ⟨rfl, ?_⟩
        simp only [Response.rows, List.not_mem_nil, false_iff, not_and]
        intro _ _ h
        have := h hcl1
        rw [hnil] at this
        cases this
      · rw [if_neg hempty]
        refine ⟨rfl, ?_⟩
        simp only [Response.rows, List.mem_filter, Bool.and_eq_true, beq_iff_eq]
        constructor
        · rintro ⟨h1, h2, h3⟩
          exact ⟨h1, h2, fun _ => by simpa using h3⟩
        · rintro ⟨h1, h2, h3⟩
          exact ⟨h1, h2, by simpa using h3 hcl1⟩
    · have hcl1 : ¬ (user.role = "CLIENT" ∨
          (getWorkspaceMembership db w user.id).map (fun m => m.role) = some "CLIENT") := by
        simpa using hcl
      rw [if_neg hcl]
      refine ⟨rfl, ?_⟩
      simp only [Response.rows, List.mem_filter, beq_iff_eq]
      constructor
      · rintro ⟨h1, h2⟩
        exact ⟨h1, h2, fun h => absurd h hcl1⟩
      · rintro ⟨h1, h2, _⟩
        exact ⟨h1, h2⟩

/-- A listing by workspace that is not answered 403 has a platform admin or a member of
the workspace as its actor. -/
theorem listRoute_actor (db : Db) (user : User) (w : String) (hw : w ≠ "")
    (hok : (listRoute db user (some w) none).status ≠ 403) :
    user.role = "ADMIN" ∨ ∃ m, getWorkspaceMembership db w user.id = some m := by
  rw [listRoute_workspace db user w hw] at hok
  split at hok
  · exact absurd rfl hok
  · rename_i h403
    by_cases hadmin : user.role = "ADMIN"
    · exact Or.inl hadmin
    · right
      cases hm : getWorkspaceMembership db w user.id with
      | none => simp [hm, hadmin] at h403
      | some m => exact ⟨m, rfl⟩

/-- Every row of a listing by workspace is accessible to the actor, client ids being
unique. -/
theorem listRoute_sound (db : Db) (user : User) (w : String) (hw : w ≠ "")
    (hpk : (db.clients.map (fun c => c.id)).Nodup)
    (hok : (listRoute db user (some w) none).status ≠ 403) (r : Invoice)
    (hr : r ∈ (listRoute db user (some w) none).rows) :
    canAccessInvoice db user r (getClientRecord db r.clientId) = true := by
  obtain ⟨_, hws, hown⟩ := ((listRoute_rows_iff db user w hw hok r).2).1 hr
  rw [canAccessInvoice_iff]
  rcases listRoute_actor db user w hw hok with hadmin | ⟨m, hm⟩
  · exact Or.inl hadmin
  · right
    refine ⟨m, by rw [hws]; exact hm, ?_⟩
    by_cases hma : m.role = "ADMIN"
    · exact Or.inl hma
    · by_cases hmc : m.role = "CLIENT"
      · right; left
        refine ⟨hmc, ?_⟩
        obtain ⟨c, hc, hid, _, hmatch⟩ :=
          mem_resolveClientIdsForPortalUser (hown (Or.inr (by simp [hm, hmc])))
        have hfind : getClientRecord db r.clientId = some c := by
          unfold getClientRecord
          rw [← hid]
          exact find?_id_of_nodup (fun c => c.id) db.clients c hpk hc
        rw [hfind]
        exact hmatch
      · exact Or.inr (Or.inr ⟨hma, hmc⟩)

/-- C16, as stated, fails: the portal user is a CLIENT member of `ws_1` and may access the
sample invoice of `ws_1` (its client's email matches theirs), but the listing of `ws_1`
answers 200 with no row, because the client is not portal-linked to `ws_1`. -/
theorem C16_accessible_invoice_not_listed :
    sampleInvoice ∈ portalStore.invoices ∧ sampleInvoice.workspaceId = "ws_1" ∧
    canAccessInvoice portalStore portalUser sampleInvoice
      (getClientRecord portalStore sampleInvoice.clientId) = true ∧
    listRoute portalStore portalUser (some "ws_1") none = ⟨200, .rows []⟩ := by
  refine ⟨by decide, rfl, by decide, by decide⟩

/-- C16, amended: a listing by workspace that is not answered 403 is answered 200 with
invoices of that workspace only, each of them accessible to the actor by
`canAccessInvoice` (client ids being unique). For an actor whose platform role and
membership role are not CLIENT it holds every invoice of the workspace; for a CLIENT
actor it holds exactly the invoices of the workspace that belong to a client record
portal-linked to that workspace (`portalWorkspaceId` is the workspace) which matches the
actor by `portalUserId` or by email ignoring case, and nothing when the actor has no
id. -/
theorem C16_list_by_workspace (db : Db) (user : User) (w : String) (hw : w ≠ "")
    (hpk : (db.clients.map (fun c => c.id)).Nodup)
    (hok : (listRoute db user (some w) none).status ≠ 403) :
    (listRoute db user (some w) none).status = 200 ∧
    (∀ r ∈ (listRoute db user (some w) none).rows,
      r ∈ db.invoices ∧ r.workspaceId = w ∧
        canAccessInvoice db user r (getClientRecord db r.clientId) = true) ∧
    (user.role ≠ "CLIENT" →
      (getWorkspaceMembership db w user.id).map (fun m => m.role) ≠ some "CLIENT" →
      ∀ r ∈ db.invoices, r.workspaceId = w → r ∈ (listRoute db user (some w) none).rows) ∧
    ((user.role = "CLIENT" ∨
        (getWorkspaceMembership db w user.id).map (fun m => m.role) = some "CLIENT") →
      ∀ r, r ∈ (listRoute db user (some w) none).rows ↔
        r ∈ db.invoices ∧ r.workspaceId = w ∧ user.id ≠ "" ∧
          ∃ c ∈ db.clients, c.id = r.clientId ∧ c.portalWorkspaceId = some w ∧
            ClientMatchesUser user (some c)) := by
  refine ⟨?_, fun r hr => ?_, fun h1 h2 r hr hws => ?_, fun hcl r => ?_⟩
  · exact (listRoute_rows_iff db user w hw hok sampleInvoice).1
  · obtain ⟨hin, hws, _⟩ := ((listRoute_rows_iff db user w hw hok r).2).1 hr
    exact ⟨hin, hws, listRoute_sound db user w hw hpk hok r hr⟩
  · refine ((listRoute_rows_iff db user w hw hok r).2).2 ⟨hr, hws, fun h => ?_⟩
    rcases h with h | h
    · exact absurd h h1
    · exact absurd h h2
  · rw [(listRoute_rows_iff db user w hw hok r).2,
      ← mem_resolveClientIdsForPortalUser_iff db w hw user r.clientId]
    constructor
    · rintro ⟨a, b, c⟩
      exact ⟨a, b, c hcl⟩
    · rintro ⟨a, b, c⟩
      exact ⟨a, b, fun _ => c⟩

/-- C16, amended, at the portal user listing `ws_1` in a store whose client is
portal-linked to `ws_1` and has their email up to case: the sample invoice is listed;
and at the platform admin listing `ws_1`. -/
theorem C16_list_by_workspace_witness :
    ("ws_1" : String) ≠ "" ∧
    (linkedPortalStore.clients.map (fun c => c.id)).Nodup ∧
    (listRoute linkedPortalStore portalUser (some "ws_1") none).status ≠ 403 ∧
    portalUser.role = "CLIENT" ∧
    (listRoute linkedPortalStore portalUser (some "ws_1") none).rows = [sampleInvoice] ∧
    sampleInvoice ∈ (listRoute linkedPortalStore portalUser (some "ws_1") none).rows ∧
    sampleInvoice ∈ (listRoute sampleStore sampleAdmin (some "ws_1") none).rows :=
  ⟨by decide, by decide, by decide, rfl, by decide,
    ((C16_list_by_workspace linkedPortalStore portalUser "ws_1" (by decide) (by decide)
      (by decide)).2.2.2 (Or.inl rfl) sampleInvoice).2
      ⟨by decide, rfl, by decide,
        { id := "cl_1", workspaceId := "ws_0", portalWorkspaceId := some "ws_1",
          portalUserId := none, email := some "client@example.com" },
        by decide, rfl, rfl,
        ⟨_, rfl, Or.inr ⟨by decide, by decide, by decide⟩⟩⟩,
    by decide⟩

/-! ## Titles -/

theorem patchUpdates_blank_title {invoice : Invoice} {body : PatchBody} {t : String}
    (now : Nat) (ht : body.title = some t) (hblank : trim t = "") :
    patchUpdates invoice body now = .error ⟨400, .message "title cannot be empty"⟩ := by
  simp [patchUpdates, patchTitle, ht, hblank]

/-- C17, the code at the failing input: a create request whose title is three blanks is
answered 201 and stores an invoice whose title is the empty string. -/
theorem C17_create_stores_blank_title :
    trim "   " = "" ∧
    createRoute sampleDb sampleAdmin { sampleCreate with title := some "   " } "inv_1" 2024 1 1 =
      (⟨201, .invoice (some blankTitleInvoice)⟩,
        { sampleDb with invoices := [blankTitleInvoice] }) ∧
    blankTitleInvoice.title = "" ∧
    (patchRoute { sampleDb with invoices := [blankTitleInvoice] } sampleAdmin "inv_1"
      { emptyPatch with title := some "   " } 2).1 = ⟨400, .message "title cannot be empty"⟩ := by
  refine ⟨by decide, by decide, rfl, by decide⟩

/-! ## Binary64 rounding -/

theorem roundHalfEven_spec (n d : Nat) (hd : 0 < d) :
    2 * (roundHalfEven n d * d) ≤ 2 * n + d ∧ 2 * n ≤ 2 * (roundHalfEven n d * d) + d := by
  have h := Nat.div_add_mod n d
  have hr := Nat.mod_lt n hd
  rw [Nat.mul_comm] at h
  unfold roundHalfEven
  generalize n / d = f at *
  generalize n % d = r at *
  split_ifs <;> (try simp only [Nat.add_mul, Nat.one_mul]) <;> omega

theorem logAux_spec (fuel : Nat) : ∀ n b : Nat, 2 ≤ b → n < b ^ 2 ^ fuel →
    (logAux fuel n b).1 = n / b ^ (logAux fuel n b).2 ∧ (logAux fuel n b).1 < b ∧
      (0 < n → 0 < (logAux fuel n b).1) := by
  induction fuel with
  | zero =>
    intro n b _ hn
    simp only [pow_zero, pow_one] at hn
    simp [logAux, hn]
  | succ fuel ih =>
    intro n b hb hn
    unfold logAux
    by_cases hlt : n < b
    · simp [hlt]
    · simp only [hlt, ↓reduceIte]
      have hbb : 2 ≤ b * b := by nlinarith
      have hn1 : n < (b * b) ^ 2 ^ fuel := by
        rw [← pow_two, ← pow_mul, ← pow_succ']
        exact hn
      obtain ⟨h1, h2, h3⟩ := ih n (b * b) hbb hn1
      have hpow : (b * b) ^ (logAux fuel n (b * b)).2 = b ^ (2 * (logAux fuel n (b * b)).2) := by
        rw [← pow_two, ← pow_mul]
      have hpos : 0 < n := by omega
      by_cases hr : (logAux fuel n (b * b)).1 < b
      · rw [if_pos hr]
        exact ⟨by rw [← hpow]; exact h1, hr, fun _ => h3 hpos⟩
      · rw [if_neg hr]
        refine ⟨?_, ?_, fun _ => ?_⟩
        · rw [h1, hpow, Nat.div_div_eq_div_mul, ← pow_succ]
        · exact Nat.div_lt_of_lt_mul h2
        · exact Nat.div_pos (by omega) (by omega)

/-- The leading bit: `2 ^ floorLog2 n ≤ n < 2 ^ (floorLog2 n + 1)`. -/
theorem floorLog2_spec (n : Nat) (hn : 0 < n) :
    2 ^ floorLog2 n ≤ n ∧ n < 2 ^ (floorLog2 n + 1) := by
  have hfuel : n < 2 ^ 2 ^ n :=
    lt_of_lt_of_le (Nat.lt_two_pow n) (Nat.pow_le_pow_right (by decide) (Nat.lt_two_pow n).le)
  obtain ⟨h1, h2, h3⟩ := logAux_spec n n 2 (le_refl 2) hfuel
  have hpos := h3 hn
  unfold floorLog2
  rw [h1] at h2 hpos
  constructor
  · have := (Nat.le_div_iff_mul_le (Nat.two_pow_pos _)).1 hpos
    simpa using this
  · rw [pow_succ]
    have := (Nat.div_lt_iff_lt_mul (Nat.two_pow_pos _)).1 h2
    rw [Nat.mul_comm] at this
    exact this

theorem floorLog2_zero : floorLog2 0 = 0 := rfl

theorem roundToBinary64_cases (p q : Nat) :
    roundToBinary64 p q =
      if roundHalfEven p (q * 2 ^ (floorLog2 (p / q) - 52)) * 2 ^ (floorLog2 (p / q) - 52) <
          2 ^ 1024 * unitsPerOne then
        .finite (roundHalfEven p (q * 2 ^ (floorLog2 (p / q) - 52)) *
          2 ^ (floorLog2 (p / q) - 52))
      else .infinity := rfl

/-- From `2 ^ 52` units on, the relative error of rounding is at most `2 ^ (-53)`. -/
theorem roundHalfEven_spacing (p q : Nat) (hq : 0 < q) (hnorm : 2 ^ 52 * q ≤ p) :
    2 ^ 53 * (roundHalfEven p (q * 2 ^ (floorLog2 (p / q) - 52)) *
        2 ^ (floorLog2 (p / q) - 52) * q) ≤ (2 ^ 53 + 1) * p ∧
      (2 ^ 53 - 1) * p ≤ 2 ^ 53 * (roundHalfEven p (q * 2 ^ (floorLog2 (p / q) - 52)) *
        2 ^ (floorLog2 (p / q) - 52) * q) := by
  have ht : 2 ^ 52 ≤ p / q := (Nat.le_div_iff_mul_le hq).2 hnorm
  have htpos : 0 < p / q := lt_of_lt_of_le (by positivity) ht
  obtain ⟨hlo, hhi⟩ := floorLog2_spec (p / q) htpos
  have hL : 52 ≤ floorLog2 (p / q) := by
    by_contra hcon
    have h1 : floorLog2 (p / q) + 1 ≤ 52 := by omega
    have := Nat.pow_le_pow_right (by decide : 0 < 2) h1
    omega
  generalize hs : 2 ^ (floorLog2 (p / q) - 52) = s
  have hspos : 0 < s := by rw [← hs]; positivity
  have hsL : s * 2 ^ 52 = 2 ^ floorLog2 (p / q) := by
    rw [← hs, ← pow_add]; congr 1; omega
  have hsp : q * s * 2 ^ 52 ≤ p := by
    have h1 : s * 2 ^ 52 ≤ p / q := by rw [hsL]; exact hlo
    have h2 := (Nat.le_div_iff_mul_le hq).1 h1
    calc q * s * 2 ^ 52 = s * 2 ^ 52 * q := by ring
      _ ≤ p := h2
  obtain ⟨h1, h2⟩ := roundHalfEven_spec p (q * s) (by positivity)
  have he : roundHalfEven p (q * s) * s * q = roundHalfEven p (q * s) * (q * s) := by ring
  rw [he]
  generalize roundHalfEven p (q * s) * (q * s) = x at *
  generalize q * s = d at *
  constructor <;> omega

theorem unitsPerOne_large : 2 ^ 110 ≤ unitsPerOne := by
  unfold unitsPerOne
  exact Nat.pow_le_pow_right (by decide) (by decide)

/-- From `2 ^ 52` units on, the rounding either overflows or has relative error at most
`2 ^ (-53)`. -/
theorem roundToBinary64_normal (p q : Nat) (hq : 0 < q) (hnorm : 2 ^ 52 * q ≤ p) :
    ∃ n, 2 ^ 53 * (n * q) ≤ (2 ^ 53 + 1) * p ∧ (2 ^ 53 - 1) * p ≤ 2 ^ 53 * (n * q) ∧
      roundToBinary64 p q = if n < 2 ^ 1024 * unitsPerOne then .finite n else .infinity :=
  ⟨_, (roundHalfEven_spacing p q hq hnorm).1, (roundHalfEven_spacing p q hq hnorm).2,
    roundToBinary64_cases p q⟩

/-- Rounding never exceeds the value by more than the relative error `2 ^ (-53)` plus
half a unit. -/
theorem roundToBinary64_upper (p q : Nat) (hq : 0 < q) :
    ∃ n, 2 ^ 53 * (n * q) ≤ (2 ^ 53 + 1) * p + 2 ^ 52 * q ∧
      roundToBinary64 p q = if n < 2 ^ 1024 * unitsPerOne then .finite n else .infinity := by
  by_cases hnorm : 2 ^ 52 * q ≤ p
  · obtain ⟨n, h1, _, h3⟩ := roundToBinary64_normal p q hq hnorm
    exact ⟨n, by omega, h3⟩
  · have ht : p / q < 2 ^ 52 := by
      apply (Nat.div_lt_iff_lt_mul hq).2
      omega
    have hL : floorLog2 (p / q) - 52 = 0 := by
      by_cases h0 : p / q = 0
      · rw [h0, floorLog2_zero]
      · obtain ⟨hlo, _⟩ := floorLog2_spec (p / q) (Nat.pos_of_ne_zero h0)
        by_contra hcon
        have h1 : 52 ≤ floorLog2 (p / q) := by omega
        have := Nat.pow_le_pow_right (by decide : 0 < 2) h1
        omega
    refine ⟨roundHalfEven p q, ?_, ?_⟩
    · obtain ⟨h1, _⟩ := roundHalfEven_spec p q hq
      generalize roundHalfEven p q * q = x at *
      omega
    · rw [roundToBinary64_cases, hL]
      simp

/-! ## Amounts -/

/-- An amount that is a whole number `k` of cents below `2 ^ 51` converts to `k`. -/
theorem parseAmountCents_exact (mantissa : Int) (scale k : Nat) (hk : 0 < k)
    (hk51 : k < 2 ^ 51) (hval : 100 * mantissa = k * 10 ^ scale) :
    parseAmountCents (.finite mantissa scale) = some (.integer k) := by
  have hqpos : 0 < 10 ^ scale := by positivity
  have hmpos : 0 < mantissa := by
    by_contra hcon
    have h1 : 100 * mantissa ≤ 0 := by omega
    have h2 : (0 : Int) < k * 10 ^ scale := by positivity
    omega
  obtain ⟨m, rfl⟩ := Int.eq_ofNat_of_zero_le hmpos.le
  have hval1 : 100 * m = k * 10 ^ scale := by exact_mod_cast hval
  have hmpos1 : 0 < m := by exact_mod_cast hmpos
  generalize hq : 10 ^ scale = q at hval1 hqpos
  have hU := unitsPerOne_large
  generalize hUdef : unitsPerOne = U at hU
  have hKU : U ≤ k * U := Nat.le_mul_of_pos_left U hk
  have hKU1 : k * U ≤ (2 ^ 51 - 1) * U := Nat.mul_le_mul_right U (by omega)
  have hnorm1 : 2 ^ 52 * q ≤ m * U := by
    have h1 : q * (2 ^ 52 * 100) ≤ q * U := Nat.mul_le_mul_left q (by omega)
    have h2 : q * U ≤ k * q * U := by
      calc q * U = 1 * (q * U) := by ring
        _ ≤ k * (q * U) := Nat.mul_le_mul_right _ hk
        _ = k * q * U := by ring
    have h3 : 100 * (m * U) = k * q * U := by rw [← hval1]; ring
    have h4 : q * (2 ^ 52 * 100) = 100 * (2 ^ 52 * q) := by ring
    omega
  obtain ⟨a, ha1, ha2, ha⟩ := roundToBinary64_normal (m * U) q hqpos hnorm1
  have h3 : 100 * (m * U) = k * U * q := by
    calc 100 * (m * U) = 100 * m * U := by ring
      _ = k * q * U := by rw [hval1]
      _ = k * U * q := by ring
  have hb1 : 2 ^ 53 * (100 * a) ≤ (2 ^ 53 + 1) * (k * U) := by
    have h5 : 2 ^ 53 * (100 * a) * q ≤ (2 ^ 53 + 1) * (k * U) * q := by
      calc 2 ^ 53 * (100 * a) * q = 100 * (2 ^ 53 * (a * q)) := by ring
        _ ≤ 100 * ((2 ^ 53 + 1) * (m * U)) := Nat.mul_le_mul_left _ ha1
        _ = (2 ^ 53 + 1) * (100 * (m * U)) := by ring
        _ = (2 ^ 53 + 1) * (k * U) * q := by rw [h3]; ring
    exact Nat.le_of_mul_le_mul_right h5 hqpos
  have hb2 : (2 ^ 53 - 1) * (k * U) ≤ 2 ^ 53 * (100 * a) := by
    have h5 : (2 ^ 53 - 1) * (k * U) * q ≤ 2 ^ 53 * (100 * a) * q := by
      calc (2 ^ 53 - 1) * (k * U) * q = (2 ^ 53 - 1) * (k * U * q) := by ring
        _ = 100 * ((2 ^ 53 - 1) * (m * U)) := by rw [← h3]; ring
        _ ≤ 100 * (2 ^ 53 * (a * q)) := Nat.mul_le_mul_left _ ha2
        _ = 2 ^ 53 * (100 * a) * q := by ring
    exact Nat.le_of_mul_le_mul_right h5 hqpos
  have hafin : a < 2 ^ 1024 * U := by omega
  have hapos : a ≠ 0 := by omega
  rw [hUdef, if_pos hafin] at ha
  have hnorm2 : 2 ^ 52 * 1 ≤ a * 100 := by omega
  obtain ⟨c, hc1, hc2, hc⟩ := roundToBinary64_normal (a * 100) 1 (by decide) hnorm2
  have hcfin : c < 2 ^ 1024 * U := by omega
  rw [hUdef, if_pos hcfin] at hc
  have hround : (2 * c + U) / (2 * U) = k := by
    apply Nat.div_eq_of_lt_le
    · have : k * (2 * U) = 2 * (k * U) := by ring
      omega
    · have : (k + 1) * (2 * U) = 2 * (k * U) + 2 * U := by ring
      omega
  have hle : ¬ ((m : Int) ≤ 0) := by omega
  simp only [parseAmountCents, hle, ↓reduceIte, Int.toNat_ofNat, hUdef, hq, ha, hapos, hc,
    Option.some.injEq, Cents.integer.injEq, mathRound]
  exact_mod_cast hround

/-- An amount of at most 0.004 is refused: it rounds to the number 0 or to 0 cents. -/
theorem parseAmountCents_small (mantissa : Int) (scale : Nat)
    (hsmall : 250 * mantissa ≤ 10 ^ scale) :
    parseAmountCents (.finite mantissa scale) = none ∨
      parseAmountCents (.finite mantissa scale) = some (.integer 0) := by
  by_cases hle : mantissa ≤ 0
  · left; simp [parseAmountCents, hle]
  · have hmpos : 0 < mantissa := by omega
    obtain ⟨m, rfl⟩ := Int.eq_ofNat_of_zero_le hmpos.le
    have hqpos : 0 < 10 ^ scale := by positivity
    have hsmall1 : 250 * m ≤ 10 ^ scale := by exact_mod_cast hsmall
    generalize hq : 10 ^ scale = q at hsmall1 hqpos
    have hU := unitsPerOne_large
    generalize hUdef : unitsPerOne = U at hU
    obtain ⟨a, ha1, ha⟩ := roundToBinary64_upper (m * U) q hqpos
    have hb1 : 250 * 2 ^ 53 * a ≤ (2 ^ 53 + 1) * U + 250 * 2 ^ 52 := by
      have h1 : 250 * (m * U) ≤ U * q := by
        calc 250 * (m * U) = 250 * m * U := by ring
          _ ≤ q * U := Nat.mul_le_mul_right U hsmall1
          _ = U * q := by ring
      have h2 : 250 * 2 ^ 53 * a * q ≤ ((2 ^ 53 + 1) * U + 250 * 2 ^ 52) * q := by
        calc 250 * 2 ^ 53 * a * q = 250 * (2 ^ 53 * (a * q)) := by ring
          _ ≤ 250 * ((2 ^ 53 + 1) * (m * U) + 2 ^ 52 * q) := Nat.mul_le_mul_left _ ha1
          _ = (2 ^ 53 + 1) * (250 * (m * U)) + 250 * 2 ^ 52 * q := by ring
          _ ≤ (2 ^ 53 + 1) * (U * q) + 250 * 2 ^ 52 * q :=
            Nat.add_le_add_right (Nat.mul_le_mul_left _ h1) _
          _ = ((2 ^ 53 + 1) * U + 250 * 2 ^ 52) * q := by ring
      exact Nat.le_of_mul_le_mul_right h2 hqpos
    have hafin : a < 2 ^ 1024 * U := by omega
    rw [hUdef, if_pos hafin] at ha
    by_cases ha0 : a = 0
    · left
      subst ha0
      simp [parseAmountCents, hle, hUdef, hq, ha]
    · right
      obtain ⟨c, hc1, hc⟩ := roundToBinary64_upper (a * 100) 1 (by decide)
      have hcfin : c < 2 ^ 1024 * U := by omega
      rw [hUdef, if_pos hcfin] at hc
      have hround : (2 * c + U) / (2 * U) = 0 := by
        apply Nat.div_eq_of_lt
        omega
      simp only [parseAmountCents, hle, ↓reduceIte, Int.toNat_ofNat, hUdef, hq, ha, ha0, hc,
        Option.some.injEq, Cents.integer.injEq, mathRound]
      exact_mod_cast hround

/-- A positive amount between 1e-300 and 1e300 converts to an integer `c` that differs
from a hundred times the amount by at most a half plus the error of the two binary64
roundings: with `a = mantissa / 10 ^ scale`,
`100 a (1 - 2 ^ (-52) + 2 ^ (-106)) - 1/2 < c ≤ 100 a (1 + 2 ^ (-52) + 2 ^ (-106)) + 1/2`. -/
theorem parseAmountCents_near (mantissa : Int) (scale : Nat) (hpos : 0 < mantissa)
    (hlow : 10 ^ scale ≤ 10 ^ 300 * mantissa) (hhigh : mantissa ≤ 10 ^ 300 * 10 ^ scale) :
    ∃ c : Nat, parseAmountCents (.finite mantissa scale) = some (.integer c) ∧
      2 ^ 106 * (2 * (c * 10 ^ scale)) ≤
        2 ^ 106 * 10 ^ scale + 2 * (2 ^ 106 + 2 ^ 54 + 1) * (100 * mantissa.toNat) ∧
      2 * (2 ^ 106 - 2 ^ 54 + 1) * (100 * mantissa.toNat) <
        2 ^ 106 * (2 * (c * 10 ^ scale) + 10 ^ scale) := by
  obtain ⟨m, rfl⟩ := Int.eq_ofNat_of_zero_le hpos.le
  have hqpos : 0 < 10 ^ scale := by positivity
  have hmpos : 0 < m := by exact_mod_cast hpos
  have hlow1 : 10 ^ scale ≤ 10 ^ 300 * m := by exact_mod_cast hlow
  have hhigh1 : m ≤ 10 ^ 300 * 10 ^ scale := by exact_mod_cast hhigh
  simp only [Int.toNat_ofNat]
  generalize hq : 10 ^ scale = q at hlow1 hhigh1 hqpos ⊢
  have hU : 2 ^ 52 * 10 ^ 300 * 2 ^ 10 ≤ unitsPerOne := by
    unfold unitsPerOne
    norm_num
  have hUpos : 0 < unitsPerOne := lt_of_lt_of_le (by positivity) hU
  generalize hUdef : unitsPerOne = U at hU hUpos
  have hnorm1 : 2 ^ 52 * q ≤ m * U := by
    calc 2 ^ 52 * q ≤ 2 ^ 52 * (10 ^ 300 * m) := Nat.mul_le_mul_left _ hlow1
      _ = m * (2 ^ 52 * 10 ^ 300) := by ring
      _ ≤ m * U := Nat.mul_le_mul_left _ (by omega)
  obtain ⟨a, ha1, ha2, ha⟩ := roundToBinary64_normal (m * U) q hqpos hnorm1
  have hmU : m * U ≤ 10 ^ 300 * U * q := by
    calc m * U ≤ 10 ^ 300 * q * U := Nat.mul_le_mul_right U hhigh1
      _ = 10 ^ 300 * U * q := by ring
  have haq : a * q < 2 ^ 1000 * U * q := by
    have : (2 : Nat) ^ 1000 * U * q = 2 ^ 1000 * (U * q) := by ring
    have h10 : (10 : Nat) ^ 300 * U * q = 10 ^ 300 * (U * q) := by ring
    have hpos1 : 0 < U * q := Nat.mul_pos hUpos hqpos
    omega
  have hafin : a < 2 ^ 1024 * U := by
    have h1 : a < 2 ^ 1000 * U := Nat.lt_of_mul_lt_mul_right haq
    omega
  have hapos : a ≠ 0 := by
    intro h0
    subst h0
    have : 0 < m * U := Nat.mul_pos hmpos hUpos
    omega
  rw [hUdef, if_pos hafin] at ha
  have hnorm2 : 2 ^ 52 * 1 ≤ a * 100 := by
    have h1 : 2 ^ 52 * q ≤ (a * 100) * q := by
      have h2 : a * 100 * q = 100 * (a * q) := by ring
      omega
    have := Nat.le_of_mul_le_mul_right h1 hqpos
    omega
  obtain ⟨c, hc1, hc2, hc⟩ := roundToBinary64_normal (a * 100) 1 (by decide) hnorm2
  have hcfin : c < 2 ^ 1024 * U := by
    have h1 : a < 2 ^ 1000 * U := Nat.lt_of_mul_lt_mul_right haq
    omega
  rw [hUdef, if_pos hcfin] at hc
  have hdiv := Nat.div_add_mod (2 * c + U) (2 * U)
  have hmod := Nat.mod_lt (2 * c + U) (by omega : 0 < 2 * U)
  have hle : ¬ ((m : Int) ≤ 0) := by omega
  refine ⟨(2 * c + U) / (2 * U), ?_, ?_, ?_⟩
  · simp only [parseAmountCents, hle, ↓reduceIte, Int.toNat_ofNat, hUdef, hq, ha, hapos, hc,
      Option.some.injEq, Cents.integer.injEq, mathRound]
    push_cast
    rfl
  · generalize (2 * c + U) / (2 * U) = k at *
    generalize (2 * c + U) % (2 * U) = r at *
    have hYZ : 2 ^ 53 * (c * q) ≤ (2 ^ 53 + 1) * (100 * (a * q)) := by
      calc 2 ^ 53 * (c * q) = 2 ^ 53 * (c * 1) * q := by ring
        _ ≤ (2 ^ 53 + 1) * (a * 100) * q := Nat.mul_le_mul_right q hc1
        _ = (2 ^ 53 + 1) * (100 * (a * q)) := by ring
    have hX : 2 * (k * q * U) + r * q = 2 * (c * q) + U * q := by
      calc 2 * (k * q * U) + r * q = (2 * U * k + r) * q := by ring
        _ = (2 * c + U) * q := by rw [hdiv]
        _ = 2 * (c * q) + U * q := by ring
    have hfin : (2 ^ 106 * (2 * (k * q))) * U ≤
        (2 ^ 106 * q + 2 * (2 ^ 106 + 2 ^ 54 + 1) * (100 * m)) * U := by
      have e1 : (2 ^ 106 * (2 * (k * q))) * U = 2 ^ 106 * (2 * (k * q * U)) := by ring
      have e2 : (2 ^ 106 * q + 2 * (2 ^ 106 + 2 ^ 54 + 1) * (100 * m)) * U =
          2 ^ 106 * (U * q) + 2 * (2 ^ 106 + 2 ^ 54 + 1) * (100 * (m * U)) := by ring
      rw [e1, e2]
      generalize k * q * U = X at *
      generalize c * q = Y at *
      generalize a * q = Z at *
      generalize m * U = W at *
      generalize U * q = V at *
      generalize r * q = R at *
      omega
    exact Nat.le_of_mul_le_mul_right hfin hUpos
  · generalize (2 * c + U) / (2 * U) = k at *
    generalize (2 * c + U) % (2 * U) = r at *
    have hYZ : (2 ^ 53 - 1) * (100 * (a * q)) ≤ 2 ^ 53 * (c * q) := by
      calc (2 ^ 53 - 1) * (100 * (a * q)) = (2 ^ 53 - 1) * (a * 100) * q := by ring
        _ ≤ 2 ^ 53 * (c * 1) * q := Nat.mul_le_mul_right q hc2
        _ = 2 ^ 53 * (c * q) := by ring
    have hrq : r * q < 2 * (U * q) := by
      calc r * q < 2 * U * q := Nat.mul_lt_mul_of_pos_right hmod hqpos
        _ = 2 * (U * q) := by ring
    have hX : 2 * (k * q * U) + r * q = 2 * (c * q) + U * q := by
      calc 2 * (k * q * U) + r * q = (2 * U * k + r) * q := by ring
        _ = (2 * c + U) * q := by rw [hdiv]
        _ = 2 * (c * q) + U * q := by ring
    have hfin : (2 * (2 ^ 106 - 2 ^ 54 + 1) * (100 * m)) * U <
        (2 ^ 106 * (2 * (k * q) + q)) * U := by
      have e1 : (2 ^ 106 * (2 * (k * q) + q)) * U =
          2 ^ 106 * (2 * (k * q * U)) + 2 ^ 106 * (U * q) := by ring
      have e2 : (2 * (2 ^ 106 - 2 ^ 54 + 1) * (100 * m)) * U =
          2 * (2 ^ 106 - 2 ^ 54 + 1) * (100 * (m * U)) := by ring
      rw [e1, e2]
      generalize k * q * U = X at *
      generalize c * q = Y at *
      generalize a * q = Z at *
      generalize m * U = W at *
      generalize U * q = V at *
      generalize r * q = R at *
      omega
    exact Nat.lt_of_mul_lt_mul_right hfin

/-- The bad amounts are those `parseAmountCents` answers with `null` or 0. -/
theorem parseAmountCents_bad_iff (raw : RawAmount) :
    BadAmount (some raw) ↔
      (parseAmountCents raw = none ∨ parseAmountCents raw = some (.integer 0)) := by
  constructor
  · intro h
    rcases h with h | h | h | h | ⟨m, s, h, hm⟩
    · cases h
    · cases h; exact Or.inl rfl
    · cases h; exact Or.inl rfl
    · cases h; exact Or.inl rfl
    · cases h
      by_cases hle : m ≤ 0
      · left; simp [parseAmountCents, hle]
      · rcases hm with hm | hm | hm | ⟨number, product, hn, hp, h0⟩
        · exact absurd hm hle
        · left; simp [parseAmountCents, hle, hm]
        · left; simp [parseAmountCents, hle, hm]
        · by_cases hz : number = 0
          · left; simp [parseAmountCents, hle, hn, hz]
          · right; simp [parseAmountCents, hle, hn, hz, hp, h0]
  · intro h
    cases raw with
    | null => exact Or.inr (Or.inl rfl)
    | emptyString => exact Or.inr (Or.inr (Or.inl rfl))
    | nonFinite => exact Or.inr (Or.inr (Or.inr (Or.inl rfl)))
    | finite m s =>
      refine Or.inr (Or.inr (Or.inr (Or.inr ⟨m, s, rfl, ?_⟩)))
      by_cases hle : m ≤ 0
      · exact Or.inl hle
      · right
        cases hn : roundToBinary64 (m.toNat * unitsPerOne) (10 ^ s) with
        | infinity => exact Or.inl rfl
        | finite number =>
          right
          by_cases hz : number = 0
          · exact Or.inl (by rw [hz])
          · right
            cases hp : roundToBinary64 (number * 100) 1 with
            | infinity =>
              simp [parseAmountCents, hle, hn, hz, hp] at h
            | finite product =>
              refine ⟨number, product, rfl, hp, ?_⟩
              simpa [parseAmountCents, hle, hn, hz, hp] using h

theorem parseAmountCents_bad {raw : RawAmount} (h : BadAmount (some raw)) :
    parseAmountCents raw = none ∨ parseAmountCents raw = some (.integer 0) :=
  (parseAmountCents_bad_iff raw).1 h

/-- A create request with a bad amount is answered with an error: 400, or 404 when the
client is unknown, or 403 when the actor may not manage the client. -/
theorem createInvoice_bad_amount (db : Db) (user : User) (body : CreateBody)
    (newId : String) (year issuedNow updatedNow : Nat) (hbad : BadAmount body.amount) :
    ∃ r, createInvoice db user body newId year issuedNow updatedNow = .error r ∧
      (r.status = 400 ∨
        (r.status = 404 ∧ getClientRecord db (body.clientId.getD "") = none) ∨
        (r.status = 403 ∧ ∃ c, getClientRecord db (body.clientId.getD "") = some c ∧
          canManageClientInvoices db user (some c) = false)) := by
  by_cases h1 : (!truthy body.clientId || !truthy body.title || body.amount.isNone) = true
  · exact ⟨⟨400, .message "clientId, title, and amount are required"⟩,
      by simp only [createInvoice, h1, ↓reduceIte], Or.inl rfl⟩
  · cases hc : getClientRecord db (body.clientId.getD "") with
    | none =>
      exact ⟨⟨404, .message "Client not found"⟩, by simp only [createInvoice, h1, hc]; rfl,
        Or.inr (Or.inl ⟨rfl, rfl⟩)⟩
    | some c =>
      by_cases hm : canManageClientInvoices db user (some c) = true
      · cases ha : body.amount with
        | none => simp [ha] at h1
        | some raw =>
          rw [ha] at hbad
          have h1a : ¬ (truthy body.clientId = false ∨ truthy body.title = false) := by
            simpa [ha] using h1
          rcases parseAmountCents_bad hbad with hp | hp
          · exact ⟨⟨400, .message "amount must be greater than 0"⟩,
              by simp [createInvoice, h1a, hc, hm, ha, hp], Or.inl rfl⟩
          · exact ⟨⟨400, .message "amount must be greater than 0"⟩,
              by simp [createInvoice, h1a, hc, hm, ha, hp], Or.inl rfl⟩
      · have hm1 : canManageClientInvoices db user (some c) = false := by simpa using hm
        exact ⟨⟨403, .message "Forbidden"⟩, by simp only [createInvoice, h1, hc, hm1]; rfl,
          Or.inr (Or.inr ⟨rfl, c, rfl, hm1⟩)⟩

theorem createInvoice_no_amount (db : Db) (user : User) (body : CreateBody)
    (newId : String) (year issuedNow updatedNow : Nat) (hnone : body.amount = none) :
    createInvoice db user body newId year issuedNow updatedNow =
      .error ⟨400, .message "clientId, title, and amount are required"⟩ := by
  simp [createInvoice, hnone]

/-- The answers `POST /` gives before it reaches the insert. -/
theorem createInvoice_error_status {db : Db} {user : User} {body : CreateBody}
    {newId : String} {year issuedNow updatedNow : Nat} {r : Response}
    (h : createInvoice db user body newId year issuedNow updatedNow = .error r) :
    r.status = 400 ∨ r.status = 404 ∨ r.status = 403 ∨ r = ⟨500, .unhandled⟩ := by
  unfold createInvoice at h
  split at h
  · cases h; exact Or.inl rfl
  · split at h
    · cases h; exact Or.inr (Or.inl rfl)
    · split at h
      · cases h; exact Or.inr (Or.inr (Or.inl rfl))
      · split at h
        · cases h; exact Or.inl rfl
        · split at h
          · cases h; exact Or.inl rfl
          · simp only [] at h
            split at h
            · cases h; exact Or.inl rfl
            · split at h
              · cases h; exact Or.inr (Or.inr (Or.inr rfl))
              · cases h

/-- A create request whose amount converts to `Infinity` is never answered 201: the
row is refused by the store, unless an earlier check answers first. -/
theorem createInvoice_infinity (db : Db) (user : User) (body : CreateBody)
    (newId : String) (year issuedNow updatedNow : Nat) (raw : RawAmount)
    (hraw : body.amount = some raw) (hinf : parseAmountCents raw = some .infinity) :
    (∃ r, createInvoice db user body newId year issuedNow updatedNow = .error r) ∧
    (truthy body.clientId = true → truthy body.title = true →
      (∃ c, getClientRecord db (body.clientId.getD "") = some c ∧
        canManageClientInvoices db user (some c) = true) →
      ((body.dueDate.getD .falsy).truthy && (body.dueDate.bind toIsoOrNull).isNone) = false →
      createInvoice db user body newId year issuedNow updatedNow =
        .error ⟨500, .unhandled⟩) := by
  constructor
  · cases h : createInvoice db user body newId year issuedNow updatedNow with
    | error r => exact ⟨r, rfl⟩
    | ok invoice =>
      obtain ⟨_, _, _, _, _, _, _, _, _, _, _, _, _, _, _, raw1, hraw1, hparse⟩ :=
        createInvoice_ok_full h
      rw [hraw] at hraw1
      cases hraw1
      rw [hinf] at hparse
      cases hparse
  · intro hc ht ⟨c, hclient, hmanage⟩ hdue
    simp [createInvoice, hc, ht, hraw, hclient, hmanage, hinf, hdue, storedAmountCents]

/-! ## What the create route answers -/

theorem getInvoice_append_new {db : Db} {row : Invoice} (h : duplicateKey db row = false) :
    getInvoice { db with invoices := db.invoices ++ [row] } row.id = some row := by
  have hnone : db.invoices.find? (fun r => r.id == row.id) = none := by
    rw [List.find?_eq_none]
    intro r hr hid
    have hany : duplicateKey db row = true := by
      unfold duplicateKey
      rw [List.any_eq_true]
      exact ⟨r, hr, by simp [hid]⟩
    rw [h] at hany
    cases hany
  unfold getInvoice
  simp [List.find?_append, hnone]

/-- The three outcomes of `POST /`: an error before the insert, a duplicate key, or the
row inserted and answered. -/
theorem createRoute_cases (db : Db) (user : User) (body : CreateBody) (newId : String)
    (year issuedNow updatedNow : Nat) :
    (∃ r, createInvoice db user body newId year issuedNow updatedNow = .error r ∧
      createRoute db user body newId year issuedNow updatedNow = (r, db)) ∨
    (∃ row, createInvoice db user body newId year issuedNow updatedNow = .ok row ∧
      duplicateKey db row = true ∧
      createRoute db user body newId year issuedNow updatedNow =
        (⟨409, .message "invoiceNumber already exists"⟩, db)) ∨
    (∃ row, createInvoice db user body newId year issuedNow updatedNow = .ok row ∧
      duplicateKey db row = false ∧
      createRoute db user body newId year issuedNow updatedNow =
        (⟨201, .invoice (some row)⟩, { db with invoices := db.invoices ++ [row] })) := by
  cases h : createInvoice db user body newId year issuedNow updatedNow with
  | error r => exact Or.inl ⟨r, rfl, by simp [createRoute, h]⟩
  | ok row =>
    right
    cases hd : duplicateKey db row
    · right
      have hid : row.id = newId := (createInvoice_ok_full h).choose_spec.2.2.1
      have hget := getInvoice_append_new hd
      rw [hid] at hget
      exact ⟨row, rfl, hd, by simp [createRoute, h, hd, hget]⟩
    · left
      exact ⟨row, rfl, hd, by simp [createRoute, h, hd]⟩

/-- A create request is answered 400, 403, 404, 409, 500 or 201; only 201 changes the
store. -/
theorem createRoute_unchanged (db : Db) (user : User) (body : CreateBody) (newId : String)
    (year issuedNow updatedNow : Nat)
    (h : (createRoute db user body newId year issuedNow updatedNow).1.status ≠ 201) :
    (createRoute db user body newId year issuedNow updatedNow).2 = db := by
  rcases createRoute_cases db user body newId year issuedNow updatedNow with
    ⟨r, _, hr⟩ | ⟨row, _, _, hr⟩ | ⟨row, _, _, hr⟩
  · rw [hr]
  · rw [hr]
  · rw [hr] at h
    exact absurd rfl h

/-! ## The conversion to cents -/

/-- C18, as stated, fails. The amount 1.005 converts to 100 cents, where the integer
nearest to 100.5 is 101. The binary64 number nearest to 1.115 (the number `Number` gives
for 1.115) lies below 1.115, so that the integer nearest to a hundred times it is 111,
and it converts to 112 cents. The amount 90071992547409.93, with two decimal places,
converts to 9007199254740994 cents. -/
theorem C18_conversion_is_not_exact :
    parseAmountCents (.finite 1005 3) = some (.integer 100) ∧ exactCents 1005 3 = 101 ∧
    roundToBinary64 (1115 * unitsPerOne) (10 ^ 3) = .finite (5021513584518103 * 2 ^ 1022) ∧
    roundToBinary64 (5021513584518103 * 5 ^ 52 * unitsPerOne) (10 ^ 52) =
      .finite (5021513584518103 * 2 ^ 1022) ∧
    parseAmountCents nearestTo1115 = some (.integer 112) ∧
    exactCents (5021513584518103 * 5 ^ 52) 52 = 111 ∧
    parseAmountCents (.finite 9007199254740993 2) = some (.integer 9007199254740994) := by
  refine ⟨by decide, by decide, by decide, by decide, by decide, by decide, by decide⟩

/-- C18, amended: `parseAmountCents` returns `Math.round` of the binary64 product of the
binary64 amount by 100. A positive amount that is a whole number `k` of cents, `k` below
`2 ^ 51`, converts to exactly `k`; so does every amount with at most two decimal places
below that bound. A positive amount between 1e-300 and 1e300 converts to an integer
within a half plus the error of the two roundings of a hundred times the amount. -/
theorem C18_conversion_in_binary64 (mantissa : Int) (scale : Nat) (hpos : 0 < mantissa) :
    (∀ k : Nat, k < 2 ^ 51 → 100 * mantissa = k * 10 ^ scale →
      parseAmountCents (.finite mantissa scale) = some (.integer k)) ∧
    (scale ≤ 2 → mantissa * 10 ^ (2 - scale) < 2 ^ 51 →
      parseAmountCents (.finite mantissa scale) =
        some (.integer (mantissa * 10 ^ (2 - scale))) ∧
      exactCents mantissa scale = mantissa * 10 ^ (2 - scale)) ∧
    (10 ^ scale ≤ 10 ^ 300 * mantissa → mantissa ≤ 10 ^ 300 * 10 ^ scale →
      ∃ c : Nat, parseAmountCents (.finite mantissa scale) = some (.integer c) ∧
        2 ^ 106 * (2 * (c * 10 ^ scale)) ≤
          2 ^ 106 * 10 ^ scale + 2 * (2 ^ 106 + 2 ^ 54 + 1) * (100 * mantissa.toNat) ∧
        2 * (2 ^ 106 - 2 ^ 54 + 1) * (100 * mantissa.toNat) <
          2 ^ 106 * (2 * (c * 10 ^ scale) + 10 ^ scale)) := by
  refine ⟨fun k hk51 hval => ?_, fun hscale hbound => ?_, fun hlow hhigh => ?_⟩
  · have hk : 0 < k := by
      rcases Nat.eq_zero_or_pos k with h0 | h0
      · subst h0
        simp at hval
        omega
      · exact h0
    exact parseAmountCents_exact mantissa scale k hk hk51 hval
  · obtain ⟨m, rfl⟩ := Int.eq_ofNat_of_zero_le hpos.le
    have hm : 0 < m := by exact_mod_cast hpos
    have hten : (10 : Nat) ^ (2 - scale) * 10 ^ scale = 100 := by
      rw [← pow_add]
      have : 2 - scale + scale = 2 := by omega
      rw [this]
      rfl
    have hcast : ((m : Int) * 10 ^ (2 - scale)) = ((m * 10 ^ (2 - scale) : Nat) : Int) := by
      push_cast
      rfl
    constructor
    · rw [hcast]
      apply parseAmountCents_exact (m : Int) scale (m * 10 ^ (2 - scale))
      · positivity
      · have : ((m * 10 ^ (2 - scale) : Nat) : Int) < 2 ^ 51 := by rw [← hcast]; exact hbound
        exact_mod_cast this
      · have : 100 * m = m * 10 ^ (2 - scale) * 10 ^ scale := by
          rw [Nat.mul_assoc, hten, Nat.mul_comm]
        exact_mod_cast this
    · unfold exactCents mathRound
      have hq : 0 < (10 : Int) ^ scale := by positivity
      have h100 : ((10 : Int) ^ (2 - scale)) * 10 ^ scale = 100 := by exact_mod_cast hten
      have e : 2 * ((m : Int) * 100) + ((10 ^ scale : Nat) : Int) =
          ((10 ^ scale : Nat) : Int) + (2 * ((10 ^ scale : Nat) : Int)) *
            ((m : Int) * 10 ^ (2 - scale)) := by
        push_cast
        rw [← h100]
        ring
      rw [e, Int.add_mul_ediv_left _ _ (by push_cast; positivity)]
      have hsmall : ((10 ^ scale : Nat) : Int) / (2 * ((10 ^ scale : Nat) : Int)) = 0 := by
        apply Int.ediv_eq_zero_of_lt
        · positivity
        · push_cast
          linarith
      rw [hsmall]
      simp
  · exact parseAmountCents_near mantissa scale hpos hlow hhigh

/-- C18, amended, at the amount 25.00, which converts to 2500 cents, and at 1.005, which
converts to within a half and a rounding error of 100.5. -/
theorem C18_conversion_in_binary64_witness :
    (0 : Int) < 2500 ∧ parseAmountCents (.finite 2500 2) = some (.integer 2500) ∧
    exactCents 2500 2 = 2500 ∧ parseAmountCents (.finite 25 0) = some (.integer 2500) :=
  ⟨by decide,
    ((C18_conversion_in_binary64 2500 2 (by decide)).2.1 (by decide) (by decide)).1,
    ((C18_conversion_in_binary64 2500 2 (by decide)).2.1 (by decide) (by decide)).2,
    (C18_conversion_in_binary64 25 0 (by decide)).1 2500 (by decide) (by decide)⟩

/-! ## Amounts that are refused -/

/-- C19, as stated, fails twice. A create request with a non-numeric amount for a client
that does not exist is answered 404, not 400. A create request for 1e308, whose product
by 100 is `Infinity`, passes the test of the amount: it is not answered 400, the row
reaches the store, which refuses it. -/
theorem C19_bad_amount_not_always_400 :
    BadAmount strayClientCreate.amount ∧
    createRoute sampleDb sampleAdmin strayClientCreate "inv_1" 2024 1 1 =
      (⟨404, .message "Client not found"⟩, sampleDb) ∧
    parseAmountCents hugeAmount = some .infinity ∧
    createRoute sampleDb sampleAdmin hugeAmountCreate "inv_1" 2024 1 1 =
      (⟨500, .unhandled⟩, sampleDb) := by
  refine ⟨Or.inr (Or.inr (Or.inr (Or.inl rfl))), by decide, by decide, by decide⟩

/-- C19, amended: a create request whose amount is missing, null, empty, non-numeric,
non-finite, not positive or rounding to 0 cents (every amount up to 0.004 does) persists
nothing and is answered 400, or 404 when the client is unknown, or 403 when the actor may
not manage the client (both checked before the amount is parsed); a missing amount is
always answered 400. An amount whose product by 100 is `Infinity` is not refused by the
route: nothing is persisted, and the answer is the store's error once the other checks
pass. Every invoice persisted by create and every `amountCents` written by an update is
an integer of at least 1. -/
theorem C19_bad_amount_rejected (db : Db) (user : User) (body : CreateBody) (newId : String)
    (year issuedNow updatedNow : Nat) (hbad : BadAmount body.amount) :
    (createRoute db user body newId year issuedNow updatedNow).2 = db ∧
    ((createRoute db user body newId year issuedNow updatedNow).1.status = 400 ∨
      ((createRoute db user body newId year issuedNow updatedNow).1.status = 404 ∧
        getClientRecord db (body.clientId.getD "") = none) ∨
      ((createRoute db user body newId year issuedNow updatedNow).1.status = 403 ∧
        ∃ c, getClientRecord db (body.clientId.getD "") = some c ∧
          canManageClientInvoices db user (some c) = false)) ∧
    (body.amount = none →
      (createRoute db user body newId year issuedNow updatedNow).1.status = 400) ∧
    (∀ (mantissa : Int) (scale : Nat), 250 * mantissa ≤ 10 ^ scale →
      BadAmount (some (.finite mantissa scale))) ∧
    (∀ (body1 : CreateBody) (raw : RawAmount), body1.amount = some raw →
      parseAmountCents raw = some .infinity →
      (createRoute db user body1 newId year issuedNow updatedNow).2 = db ∧
      (createRoute db user body1 newId year issuedNow updatedNow).1.status ≠ 201 ∧
      (truthy body1.clientId = true → truthy body1.title = true →
        (∃ c, getClientRecord db (body1.clientId.getD "") = some c ∧
          canManageClientInvoices db user (some c) = true) →
        ((body1.dueDate.getD .falsy).truthy && (body1.dueDate.bind toIsoOrNull).isNone) =
          false →
        (createRoute db user body1 newId year issuedNow updatedNow).1 =
          ⟨500, .unhandled⟩)) ∧
    (∀ (db1 : Db) (user1 : User) (body1 : CreateBody) (newId1 : String)
        (year1 issuedNow1 updatedNow1 : Nat),
      ∀ row ∈ (createRoute db1 user1 body1 newId1 year1 issuedNow1 updatedNow1).2.invoices,
        row ∈ db1.invoices ∨ 1 ≤ row.amountCents) ∧
    (∀ (invoice : Invoice) (body1 : PatchBody) (now1 : Nat) (u : InvoiceSet) (c : Int),
      patchUpdates invoice body1 now1 = .ok u → u.amountCents = some c → 1 ≤ c) := by
  obtain ⟨r, hr, hstatus⟩ :=
    createInvoice_bad_amount db user body newId year issuedNow updatedNow hbad
  have hroute : createRoute db user body newId year issuedNow updatedNow = (r, db) := by
    simp [createRoute, hr]
  refine ⟨by rw [hroute], by rw [hroute]; exact hstatus, fun hnone => ?_, ?_, ?_, ?_, ?_⟩
  · simp [createRoute,
      createInvoice_no_amount db user body newId year issuedNow updatedNow hnone]
  · intro mantissa scale hsmall
    exact (parseAmountCents_bad_iff _).2 (parseAmountCents_small mantissa scale hsmall)
  · intro body1 raw hraw hinf
    obtain ⟨⟨r1, hr1⟩, hfull⟩ :=
      createInvoice_infinity db user body1 newId year issuedNow updatedNow raw hraw hinf
    have hroute1 : createRoute db user body1 newId year issuedNow updatedNow = (r1, db) := by
      simp [createRoute, hr1]
    have hne : r1.status ≠ 201 := by
      intro h201
      rcases createInvoice_error_status hr1 with h | h | h | h
      · rw [h201] at h; cases h
      · rw [h201] at h; cases h
      · rw [h201] at h; cases h
      · rw [h] at h201; cases h201
    refine ⟨by rw [hroute1], by rw [hroute1]; exact hne, fun hc ht hcl hdue => ?_⟩
    have := hfull hc ht hcl hdue
    simp [createRoute, this]
  · intro db1 user1 body1 newId1 year1 issuedNow1 updatedNow1 row hrow
    rcases createRoute_cases db1 user1 body1 newId1 year1 issuedNow1 updatedNow1 with
      ⟨_, _, h⟩ | ⟨_, _, _, h⟩ | ⟨new, hnew, _, h⟩
    · rw [h] at hrow; exact Or.inl hrow
    · rw [h] at hrow; exact Or.inl hrow
    · rw [h] at hrow
      simp only [List.mem_append, List.mem_singleton] at hrow
      rcases hrow with hrow | hrow
      · exact Or.inl hrow
      · right
        rw [hrow]
        have := (createInvoice_ok hnew).2.1
        omega
  · intro invoice body1 now1 u c h hc
    obtain ⟨_, _, _, _, hamt, _⟩ := patchUpdates_ok h
    rcases hamt with ⟨_, hnone⟩ | ⟨raw, c1, _, _, hparse, hne, hsome⟩
    · rw [hnone] at hc; cases hc
    · rw [hsome] at hc
      cases hc
      have := parseAmountCents_nonneg hparse
      omega

/-- C19, amended, at a create request for 0.001, which rounds to 0 cents and is answered
400; a request for 0.0049999999999999999 is stored with 1 cent. -/
theorem C19_bad_amount_rejected_witness :
    BadAmount tinyAmountCreate.amount ∧
    parseAmountCents (.finite 1 3) = some (.integer 0) ∧
    (createRoute sampleDb sampleAdmin tinyAmountCreate "inv_1" 2024 1 1).2 = sampleDb ∧
    (createRoute sampleDb sampleAdmin tinyAmountCreate "inv_1" 2024 1 1).1 =
      ⟨400, .message "amount must be greater than 0"⟩ ∧
    parseAmountCents (.finite 49999999999999999 19) = some (.integer 1) ∧
    (createRoute sampleDb sampleAdmin nearHalfCentCreate "inv_1" 2024 1 1).1 =
      ⟨201, .invoice (some { sampleInvoice with amountCents := 1 })⟩ :=
  ⟨(parseAmountCents_bad_iff _).2 (Or.inr (by decide)), by decide,
    (C19_bad_amount_rejected sampleDb sampleAdmin tinyAmountCreate "inv_1" 2024 1 1
      ((parseAmountCents_bad_iff _).2 (Or.inr (by decide)))).1,
    by decide, by decide, by decide⟩

/-! ## Invoice numbers -/

theorem digitChar_value (k : Nat) (hk : k < 10) : (Nat.digitChar k).toNat - 48 = k := by
  interval_cases k <;> rfl

theorem foldl_toDigitsCore (fuel : Nat) :
    ∀ (n : Nat) (ds : List Char), n < fuel →
      (Nat.toDigitsCore 10 fuel n ds).foldl (fun acc c => 10 * acc + (c.toNat - 48)) 0 =
        ds.foldl (fun acc c => 10 * acc + (c.toNat - 48)) n := by
  induction fuel with
  | zero => intro n ds h; omega
  | succ fuel ih =>
    intro n ds h
    simp only [Nat.toDigitsCore]
    have hmod : n % 10 < 10 := Nat.mod_lt _ (by decide)
    split
    · rename_i hdiv
      simp only [List.foldl_cons, Nat.mul_zero, Nat.zero_add, digitChar_value _ hmod]
      congr 1
      omega
    · rename_i hdiv
      rw [ih (n / 10) _ (by omega)]
      simp only [List.foldl_cons, digitChar_value _ hmod]
      congr 1
      omega

/-- Reading back the decimal digits of a number gives the number. -/
theorem parseDecimal_toString (n : Nat) : parseDecimal (toString n) = n := by
  show (Nat.toDigits 10 n).foldl (fun acc c => 10 * acc + (c.toNat - 48)) 0 = n
  unfold Nat.toDigits
  rw [foldl_toDigitsCore (n + 1) n [] (by omega)]
  rfl

theorem foldl_zeros (k : Nat) (l : List Char) :
    (List.replicate k '0' ++ l).foldl (fun acc c => 10 * acc + (c.toNat - 48)) 0 =
      l.foldl (fun acc c => 10 * acc + (c.toNat - 48)) 0 := by
  induction k with
  | zero => rfl
  | succ k ih =>
    simp only [List.replicate_succ, List.cons_append, List.foldl_cons]
    exact ih

theorem parseDecimal_padStart4 (n : Nat) : parseDecimal (padStart4 (toString n)) = n := by
  have h := parseDecimal_toString n
  unfold parseDecimal at h ⊢
  unfold padStart4
  simp only []
  rw [foldl_zeros]
  exact h

theorem padStart4_length (s : String) : 4 ≤ (padStart4 s).length := by
  unfold padStart4
  simp only [String.length, List.length_append, List.length_replicate]
  omega

/-- C20: for a workspace holding `n` invoices and the UTC year `y`,
`getNextInvoiceNumber` returns `INV-`, `y`, `-` and the decimal digits of `n + 1`
left-padded with zeros to at least four characters; the sequence part reads back as
`n + 1`; with `n = 4` and `y = 2024` the result is `INV-2024-0005`. -/
theorem C20_next_invoice_number (db : Db) (workspaceId : String) (year : Nat) :
    getNextInvoiceNumber db workspaceId year =
      "INV-" ++ toString year ++ "-" ++ padStart4 (toString (invoiceCount db workspaceId + 1)) ∧
    (padStart4 (toString (invoiceCount db workspaceId + 1))).data =
      List.replicate (4 - (toString (invoiceCount db workspaceId + 1)).length) '0' ++
        (toString (invoiceCount db workspaceId + 1)).data ∧
    4 ≤ (padStart4 (toString (invoiceCount db workspaceId + 1))).length ∧
    parseDecimal (padStart4 (toString (invoiceCount db workspaceId + 1))) =
      invoiceCount db workspaceId + 1 ∧
    (invoiceCount db workspaceId = 4 → year = 2024 →
      getNextInvoiceNumber db workspaceId year = "INV-2024-0005") := by
  refine ⟨rfl, rfl, padStart4_length _, parseDecimal_padStart4 _, fun hn hy => ?_⟩
  have h : getNextInvoiceNumber db workspaceId year =
      "INV-" ++ toString year ++ "-" ++ padStart4 (toString (invoiceCount db workspaceId + 1)) :=
    rfl
  rw [h, hn, hy]
  decide

/-- C20 at a store holding four invoices of `ws_1`: the next number in 2024 is
`INV-2024-0005`, also when a create request without a number goes through the route. -/
theorem C20_next_invoice_number_witness :
    invoiceCount fourInvoiceDb "ws_1" = 4 ∧
    getNextInvoiceNumber fourInvoiceDb "ws_1" 2024 = "INV-2024-0005" ∧
    (getInvoice (createRoute fourInvoiceDb sampleAdmin sampleCreate "inv_6" 2024 1 1).2
      "inv_6").map (fun r => r.invoiceNumber) = some "INV-2024-0005" :=
  ⟨by decide,
    (C20_next_invoice_number fourInvoiceDb "ws_1" 2024).2.2.2.2 (by decide) rfl,
    by decide⟩

/-! ## The descriptive columns of an update -/

theorem patchTitle_ok {body : PatchBody} {u u1 : InvoiceSet}
    (h : patchTitle body u = .ok u1) :
    (body.title = none ∧ u1 = u) ∨
      ∃ t, body.title = some t ∧ trim t ≠ "" ∧ u1 = { u with title := some (trim t) } := by
  unfold patchTitle at h
  split at h
  · cases h; exact Or.inl ⟨by assumption, rfl⟩
  · rename_i t ht
    split at h
    · cases h
    · rename_i hne
      cases h
      exact Or.inr ⟨t, ht, by simpa using hne, rfl⟩

theorem patchDueDate_ok {body : PatchBody} {u u1 : InvoiceSet}
    (h : patchDueDate body u = .ok u1) :
    (body.dueDate = none ∧ u1 = u) ∨
      ∃ d, body.dueDate = some d ∧ ¬ (d.truthy = true ∧ toIsoOrNull d = none) ∧
        u1 = { u with dueDate := some (toIsoOrNull d) } := by
  unfold patchDueDate at h
  split at h
  · cases h; exact Or.inl ⟨by assumption, rfl⟩
  · rename_i d hd
    split at h
    · cases h
    · rename_i hne
      cases h
      refine Or.inr ⟨d, hd, ?_, rfl⟩
      simpa using hne

theorem patchStatus_descr {invoice : Invoice} {body : PatchBody} {now : Nat}
    {u u1 : InvoiceSet} (h : patchStatus invoice body now u = .ok u1) :
    u1.descr = u.descr := by
  unfold patchStatus at h
  split at h
  · cases h; rfl
  · rename_i s hs
    split at h
    · cases h
    · by_cases hp : s = "PAID" <;> by_cases hv : s = "VOID"
      · subst hp; exact absurd hv (by decide)
      · subst hp; cases h; rfl
      · subst hv; cases h; rfl
      · simp [hp, hv] at h; cases h; rfl

theorem patchAmount_descr {invoice : Invoice} {body : PatchBody} {u u1 : InvoiceSet}
    (h : patchAmount invoice body u = .ok u1) : u1.descr = u.descr := by
  rcases patchAmount_ok h with ⟨_, rfl⟩ | ⟨_, _, _, _, _, _, rfl⟩
  · rfl
  · rfl

/-- The descriptive columns a successful PATCH writes: the trimmed title, the trimmed
description or null, the normalized currency and the parsed due date, each only when
the request carries the field. -/
theorem patchUpdates_descr {invoice : Invoice} {body : PatchBody} {now : Nat} {u : InvoiceSet}
    (h : patchUpdates invoice body now = .ok u) :
    u.title = body.title.map trim ∧
    (∀ t, body.title = some t → trim t ≠ "") ∧
    u.description = body.description.map (fun d => if d != "" then some (trim d) else none) ∧
    u.currency = body.currency.map (fun c => normalizeCurrency (some c)) ∧
    u.dueDate = body.dueDate.map toIsoOrNull := by
  unfold patchUpdates at h
  split at h
  · cases h
  · rename_i u1 h1
    split at h
    · cases h
    · rename_i u2 h2
      split at h
      · cases h
      · rename_i u3 h3
        have d3 := patchStatus_descr h3
        have d4 := patchAmount_descr h
        rw [d3] at d4
        simp only [InvoiceSet.descr, Prod.mk.injEq] at d4
        obtain ⟨e1, e2, e3, e4⟩ := d4
        have hu1 : u1.title = body.title.map trim ∧ (∀ t, body.title = some t → trim t ≠ "") ∧
            u1.description = none ∧ u1.currency = none ∧ u1.dueDate = none := by
          rcases patchTitle_ok h1 with ⟨hn, rfl⟩ | ⟨t, ht, hne, rfl⟩
          · simp [hn, InvoiceSet.empty]
          · refine ⟨by simp [ht], ?_, rfl, rfl, rfl⟩
            intro t1 ht1
            rw [ht] at ht1
            cases ht1
            exact hne
        obtain ⟨f1, f2, f3, f4, f5⟩ := hu1
        have hmid : (patchCurrency body (patchDescription body u1)).title = u1.title ∧
            (patchCurrency body (patchDescription body u1)).description =
              body.description.map (fun d => if d != "" then some (trim d) else none) ∧
            (patchCurrency body (patchDescription body u1)).currency =
              body.currency.map (fun c => normalizeCurrency (some c)) ∧
            (patchCurrency body (patchDescription body u1)).dueDate = none := by
          unfold patchCurrency patchDescription
          cases hd : body.description <;> cases hc : body.currency <;> simp [f3, f4, f5]
        obtain ⟨g1, g2, g3, g4⟩ := hmid
        rcases patchDueDate_ok h2 with ⟨hn, rfl⟩ | ⟨d, hd, _, rfl⟩
        · refine ⟨by rw [e1, g1, f1], f2, by rw [e2, g2], by rw [e3, g3], ?_⟩
          rw [e4, g4, hn]; rfl
        · refine ⟨by rw [e1]; exact g1.trans f1, f2, by rw [e2]; exact g2, by rw [e3]; exact g3, ?_⟩
          rw [e4, hd]; rfl

/-! ## What create stores -/

/-- C21, as stated, fails: a create request with the currency `dollars` is answered 201
and stores the currency `DOLLARS`; an update with the same currency stores it too. -/
theorem C21_currency_is_not_validated :
    createRoute sampleDb sampleAdmin { sampleCreate with currency := some "dollars" } "inv_1"
        2024 1 1 =
      (⟨201, .invoice (some dollarsInvoice)⟩, { sampleDb with invoices := [dollarsInvoice] }) ∧
    dollarsInvoice.currency = "DOLLARS" ∧
    dollarsInvoice.currency.data.length = 7 ∧
    (getInvoice (patchRoute sampleStore sampleAdmin "inv_1"
      { emptyPatch with currency := some " dollars " } 2).2 "inv_1").map (fun r => r.currency) =
      some "DOLLARS" := by
  refine ⟨by decide, rfl, by decide, by decide⟩

/-- C21, amended: a successful create stores the currency `USD` when the request carries
no currency (or an empty one) and the supplied value trimmed and uppercased otherwise;
a successful update that carries a currency stores it the same way and one that carries
none leaves the currency as it was. Nothing checks that the value has three letters. -/
theorem C21_currency_normalized (db : Db) (user : User) (newId : String)
    (year issuedNow updatedNow now : Nat) :
    (∀ (body : CreateBody) (invoice : Invoice),
      createInvoice db user body newId year issuedNow updatedNow = .ok invoice →
        ((body.currency = none ∨ body.currency = some "") → invoice.currency = "USD") ∧
        (∀ c, body.currency = some c → c ≠ "" → invoice.currency = toUpperCase (trim c))) ∧
    (∀ (invoice : Invoice) (body : PatchBody) (u : InvoiceSet),
      patchUpdates invoice body now = .ok u →
        (body.currency = none → (applySet u invoice).currency = invoice.currency) ∧
        (body.currency = some "" → (applySet u invoice).currency = "USD") ∧
        (∀ c, body.currency = some c → c ≠ "" →
          (applySet u invoice).currency = toUpperCase (trim c))) := by
  constructor
  · intro body invoice h
    obtain ⟨_, _, _, _, _, _, _, _, _, hcur, _⟩ := createInvoice_ok_full h
    rw [hcur]
    refine ⟨fun hc => ?_, fun c hc hne => ?_⟩
    · rcases hc with hc | hc <;> simp [hc, normalizeCurrency]
    · simp [hc, normalizeCurrency, hne]
  · intro invoice body u h
    obtain ⟨_, _, _, hcur, _⟩ := patchUpdates_descr h
    simp only [applySet, hcur]
    refine ⟨fun hc => ?_, fun hc => ?_, fun c hc hne => ?_⟩
    · simp [hc]
    · simp [hc, normalizeCurrency]
    · simp [hc, normalizeCurrency, hne]

/-- C21, amended, at the sample create request and an update carrying ` eur `. -/
theorem C21_currency_normalized_witness :
    createInvoice sampleDb sampleAdmin sampleCreate "inv_1" 2024 1 1 = .ok sampleInvoice ∧
    sampleInvoice.currency = "USD" ∧
    (∃ u, patchUpdates sampleInvoice { emptyPatch with currency := some " eur " } 2 = .ok u ∧
      (applySet u sampleInvoice).currency = "EUR") := by
  exact ⟨rfl,
    ((C21_currency_normalized sampleDb sampleAdmin "inv_1" 2024 1 1 1).1 sampleCreate sampleInvoice
      rfl).1 (Or.inl rfl),
    { InvoiceSet.empty with currency := some "EUR", updatedAt := some 2 }, rfl,
    (((C21_currency_normalized sampleDb sampleAdmin "inv_1" 2024 1 1 2).2 sampleInvoice
      { emptyPatch with currency := some " eur " }
      { InvoiceSet.empty with currency := some "EUR", updatedAt := some 2 } rfl).2.2
      " eur " rfl (by decide)).trans (by decide)⟩

/-! ## What the routes write -/

theorem updateInvoices_identity (db : Db) (id : String) (u : InvoiceSet) :
    (updateInvoices db id u).invoices.map Invoice.identity =
      db.invoices.map Invoice.identity := by
  unfold updateInvoices
  simp only [List.map_map]
  apply List.map_congr_left
  intro r _
  simp only [Function.comp]
  split <;> rfl

/-- The outcomes of `PATCH /:id`: 404, 403, 400 and the error of the store leave the
store as it was, 200 applies the update object to the rows of the invoice. -/
theorem patchRoute_cases (db : Db) (user : User) (id : String) (body : PatchBody) (now : Nat) :
    ((patchRoute db user id body now).1.status = 404 ∧ getInvoice db id = none ∧
        (patchRoute db user id body now).2 = db) ∨
    ((patchRoute db user id body now).1.status = 403 ∧ (patchRoute db user id body now).2 = db) ∨
    (((patchRoute db user id body now).1.status = 400 ∨
        (patchRoute db user id body now).1 = ⟨500, .unhandled⟩) ∧
      (patchRoute db user id body now).2 = db) ∨
    ((patchRoute db user id body now).1.status = 200 ∧
      ∃ invoice u, getInvoice db id = some invoice ∧
        canManageClientInvoices db user (getClientRecord db invoice.clientId) = true ∧
        patchUpdates invoice body now = .ok u ∧
        (patchRoute db user id body now).2 = updateInvoices db invoice.id u) := by
  cases hget : getInvoice db id with
  | none => left; simp [patchRoute, hget]
  | some invoice =>
    by_cases hauth : canManageClientInvoices db user (getClientRecord db invoice.clientId) = true
    · cases hu : patchUpdates invoice body now with
      | error r =>
        right; right; left
        rcases patchUpdates_error hu with ⟨m, rfl⟩ | ⟨rfl, _⟩
        · simp [patchRoute, hget, hauth, hu]
        · simp [patchRoute, hget, hauth, hu]
      | ok u =>
        right; right; right
        refine ⟨by simp [patchRoute, hget, hauth, hu], invoice, u, rfl, hauth, hu, ?_⟩
        simp [patchRoute, hget, hauth, hu]
    · right; left; simp [patchRoute, hget, hauth]

/-- The store after `POST /:id/checkout-session`: as it was, or with the checkout columns
of the invoice written. -/
theorem checkoutRoute_db (env : Env) (stripe : CheckoutParams → ProviderSession) (db : Db)
    (user : User) (id : String) (now : Nat) :
    (checkoutRoute env stripe db user id now).db = db ∨
      ∃ invoice session, (checkoutRoute env stripe db user id now).db =
        updateInvoices db invoice.id (checkoutSet invoice session now) := by
  by_cases hcfg : isStripeConfigured env = true
  · cases hget : getInvoice db id with
    | none => left; simp [checkoutRoute, hcfg, hget]
    | some invoice =>
      cases hp : checkoutParams env db user invoice with
      | error r => left; simp [checkoutRoute, hcfg, hget, hp]
      | ok params =>
        right
        exact ⟨invoice, stripe params, by simp [checkoutRoute, hcfg, hget, hp]⟩
  · left; simp [checkoutRoute, hcfg]

/-- The store after the webhook processed an event: as it was, or with the settlement
columns of the invoice written. -/
theorem handleEvent_db (db : Db) (event : StripeEvent) (now : Nat) :
    handleEvent db event now = db ∨
      ∃ invoice, handleEvent db event now =
        updateInvoices db invoice.id (settleSet invoice event.session now) := by
  unfold handleEvent
  split
  · split
    · exact Or.inl rfl
    · split
      · exact Or.inl rfl
      · rename_i invoice _
        split
        · exact Or.inr ⟨invoice, rfl⟩
        · exact Or.inl rfl
  · exact Or.inl rfl

theorem applyOp_identity (invoice : Invoice) (op : Op) :
    (applyOp invoice op).identity = invoice.identity := by
  cases op with
  | patch db user body now =>
    simp only [applyOp]
    rcases patchRow_cases db user invoice body now with h | ⟨u, _, h⟩
    · rw [h]
    · rw [h]; rfl
  | checkout env stripe db user now =>
    simp only [applyOp]
    rcases checkoutRow_cases env stripe db user invoice now with h | ⟨_, _, _, h⟩
    · rw [h]
    · rw [h]; rfl
  | webhook event now =>
    simp only [applyOp]
    rcases webhookRow_cases invoice event now with ⟨_, h⟩ | ⟨_, h⟩
    · rw [h]
    · rw [h]; rfl

/-- C22: no update, checkout-session initiation or webhook delivery changes the `id`,
`workspaceId`, `clientId`, `invoiceNumber`, `issuedAt`, `createdBy` or `metadata` of a
stored invoice: these columns of every row are the same before and after each route,
whatever the request. -/
theorem C22_identity_columns_fixed (db : Db) (user : User) (id : String) (body : PatchBody)
    (now : Nat) (env : Env) (stripe : CheckoutParams → ProviderSession)
    (signature : Option String) (constructEvent : Except String StripeEvent) :
    (patchRoute db user id body now).2.invoices.map
        (fun r => (r.id, r.workspaceId, r.clientId, r.invoiceNumber, r.issuedAt, r.createdBy,
          r.metadata)) =
      db.invoices.map
        (fun r => (r.id, r.workspaceId, r.clientId, r.invoiceNumber, r.issuedAt, r.createdBy,
          r.metadata)) ∧
    (checkoutRoute env stripe db user id now).db.invoices.map Invoice.identity =
      db.invoices.map Invoice.identity ∧
    (webhookRoute env signature constructEvent db now).2.invoices.map Invoice.identity =
      db.invoices.map Invoice.identity ∧
    (∀ (invoice : Invoice) (op : Op), (applyOp invoice op).identity = invoice.identity) := by
  refine ⟨?_, ?_, ?_, applyOp_identity⟩
  · rcases patchRoute_cases db user id body now with h | h | h | ⟨_, invoice, u, _, _, _, h⟩
    · rw [h.2.2]
    · rw [h.2]
    · rw [h.2]
    · rw [h]; exact updateInvoices_identity db invoice.id u
  · rcases checkoutRoute_db env stripe db user id now with h | ⟨invoice, session, h⟩
    · rw [h]
    · rw [h]; exact updateInvoices_identity _ _ _
  · unfold webhookRoute
    split
    · rfl
    · split
      · rfl
      · cases constructEvent with
        | error m => rfl
        | ok event =>
          show (handleEvent db event now).invoices.map Invoice.identity = _
          rcases handleEvent_db db event now with h | ⟨invoice, h⟩
          · rw [h]
          · rw [h]; exact updateInvoices_identity _ _ _

/-- C23: when checkout-session initiation on a stored invoice is answered 200, the
response carries the provider's session id and URL, and the stored invoice afterwards
has that session id as `stripeCheckoutSessionId`, status SENT if it was DRAFT and its
former status otherwise, `updatedAt` equal to the current time, and `amountCents`,
`amountPaidCents`, `paidAt`, `currency` and `title` as before. -/
theorem C23_checkout_success (env : Env) (stripe : CheckoutParams → ProviderSession) (db : Db)
    (user : User) (id : String) (now : Nat) (invoice : Invoice)
    (hget : getInvoice db id = some invoice)
    (hok : (checkoutRoute env stripe db user id now).response.status = 200) :
    ∃ params, (checkoutRoute env stripe db user id now).providerCalls = [params] ∧
      (checkoutRoute env stripe db user id now).response =
        ⟨200, .checkout (stripe params).id (stripe params).url⟩ ∧
      ∃ result, getInvoice (checkoutRoute env stripe db user id now).db id = some result ∧
        result.stripeCheckoutSessionId = some (stripe params).id ∧
        (invoice.status = "DRAFT" → result.status = "SENT") ∧
        (invoice.status ≠ "DRAFT" → result.status = invoice.status) ∧
        result.updatedAt = now ∧
        result.amountCents = invoice.amountCents ∧
        result.amountPaidCents = invoice.amountPaidCents ∧
        result.paidAt = invoice.paidAt ∧
        result.currency = invoice.currency ∧
        result.title = invoice.title := by
  by_cases hcfg : isStripeConfigured env = true
  · cases hp : checkoutParams env db user invoice with
    | error r =>
      have hr : r.status ≠ 200 := by
        have hc := checkoutParams_checks env db user invoice
        by_cases hacc : canAccessInvoice db user invoice (getClientRecord db invoice.clientId)
            = true
        · by_cases hst : invoice.status = "PAID" ∨ invoice.status = "VOID"
          · rw [(hc.2 hacc).1 hst] at hp; cases hp
            exact (by decide : (400 : Nat) ≠ 200)
          · simp only [not_or] at hst
            by_cases hrem : invoice.amountCents - invoice.amountPaidCents ≤ 0
            · rw [((hc.2 hacc).2 hst.1 hst.2).1 hrem] at hp; cases hp
              exact (by decide : (400 : Nat) ≠ 200)
            · have hpos : 0 < invoice.amountCents - invoice.amountPaidCents := by omega
              cases hcur : isThreeLowercaseLetters (checkoutCurrency invoice) with
              | false =>
                rw [(((hc.2 hacc).2 hst.1 hst.2).2 hpos).1 hcur] at hp; cases hp
                exact (by decide : (400 : Nat) ≠ 200)
              | true =>
                obtain ⟨p, hpp⟩ := (((hc.2 hacc).2 hst.1 hst.2).2 hpos).2 hcur
                rw [hpp] at hp; cases hp
        · have hacc1 : canAccessInvoice db user invoice (getClientRecord db invoice.clientId)
              = false := by simpa using hacc
          rw [hc.1 hacc1] at hp; cases hp
          exact (by decide : (403 : Nat) ≠ 200)
      have hE : (checkoutRoute env stripe db user id now).response = r := by
        simp [checkoutRoute, hcfg, hget, hp]
      rw [hE] at hok
      exact absurd hok hr
    | ok params =>
      have hE : checkoutRoute env stripe db user id now =
          ⟨⟨200, .checkout (stripe params).id (stripe params).url⟩,
            updateInvoices db invoice.id (checkoutSet invoice (stripe params) now), [params]⟩ := by
        simp [checkoutRoute, hcfg, hget, hp]
      rw [hE]
      refine ⟨params, rfl, rfl, applySet (checkoutSet invoice (stripe params) now) invoice,
        getInvoice_update_self _ hget, rfl, ?_, ?_, rfl, rfl, rfl, rfl, rfl, rfl⟩
      · intro hd
        simp [applySet, checkoutSet, InvoiceSet.empty, hd]
      · intro hd
        simp [applySet, checkoutSet, InvoiceSet.empty, hd]
  · have hE : (checkoutRoute env stripe db user id now).response.status = 503 := by
      simp [checkoutRoute, hcfg]
    rw [hE] at hok
    cases hok

/-- C23 at a DRAFT invoice and the platform admin. -/
theorem C23_checkout_success_witness :
    getInvoice { sampleDb with invoices := [draftInvoice] } "inv_1" = some draftInvoice ∧
    (checkoutRoute sampleEnv sampleStripe { sampleDb with invoices := [draftInvoice] }
      sampleAdmin "inv_1" 2).response = ⟨200, .checkout "cs_1" "https://checkout.example/cs_1"⟩ ∧
    (getInvoice (checkoutRoute sampleEnv sampleStripe { sampleDb with invoices := [draftInvoice] }
      sampleAdmin "inv_1" 2).db "inv_1").map
      (fun r => (r.status, r.stripeCheckoutSessionId, r.updatedAt)) =
      some ("SENT", some "cs_1", 2) ∧
    ∃ params, (checkoutRoute sampleEnv sampleStripe { sampleDb with invoices := [draftInvoice] }
      sampleAdmin "inv_1" 2).providerCalls = [params] := by
  refine ⟨by decide, by decide, by decide, ?_⟩
  obtain ⟨params, h, _⟩ := C23_checkout_success sampleEnv sampleStripe
    { sampleDb with invoices := [draftInvoice] } sampleAdmin "inv_1" 2 draftInvoice
    (by decide) (by decide)
  exact ⟨params, h⟩

theorem patchUpdates_status_only (invoice : Invoice) (t : String) (now : Nat)
    (ht : INVOICE_STATUSES.contains t = true) :
    ∃ u, patchUpdates invoice { emptyPatch with status := some t } now = .ok u ∧
      u.status = some t := by
  cases hu : patchUpdates invoice { emptyPatch with status := some t } now with
  | ok u => exact ⟨u, rfl, (patchUpdates_ok hu).1⟩
  | error m =>
    have ht1 : t ∈ INVOICE_STATUSES := by simpa using ht
    simp [patchUpdates, patchTitle, patchDescription, patchCurrency, patchDueDate, patchStatus,
      patchAmount, emptyPatch, ht1] at hu

theorem patchUpdates_invalid_status (invoice : Invoice) {body : PatchBody} {t : String}
    (now : Nat) (hb : body.status = some t) (hnot : t ∉ INVOICE_STATUSES) :
    ∃ m, patchUpdates invoice body now = .error ⟨400, .message m⟩ := by
  unfold patchUpdates
  split
  · exact ⟨_, rfl⟩
  · split
    · exact ⟨_, rfl⟩
    · rename_i u2 _
      cases h3 : patchStatus invoice body now u2 with
      | error m => exact ⟨m, rfl⟩
      | ok u3 =>
        rcases patchStatus_ok h3 with ⟨hn, _⟩ | ⟨s, hs, hc, _⟩
        · rw [hb] at hn; cases hn
        · rw [hb] at hs
          cases hs
          exact absurd (by simpa using hc) hnot

/-- C24: for a stored invoice of any status and an authorized actor, a PATCH whose only
field is `status = t`, `t` one of the five statuses, is answered 200 and leaves the
invoice in status `t`; a PATCH whose status is not one of the five is answered 400 and
changes nothing. -/
theorem C24_status_transitions_unrestricted (db : Db) (user : User) (id : String) (now : Nat)
    (invoice : Invoice)
    (hget : getInvoice db id = some invoice)
    (hauth : canManageClientInvoices db user (getClientRecord db invoice.clientId) = true) :
    (∀ t, t ∈ INVOICE_STATUSES →
      (patchRoute db user id { emptyPatch with status := some t } now).1.status = 200 ∧
      (getInvoice (patchRoute db user id { emptyPatch with status := some t } now).2 id).map
        (fun r => r.status) = some t) ∧
    (∀ (body : PatchBody) (t : String), body.status = some t → t ∉ INVOICE_STATUSES →
      (patchRoute db user id body now).1.status = 400 ∧
      (patchRoute db user id body now).2 = db) := by
  constructor
  · intro t ht
    obtain ⟨u, hu, hst⟩ := patchUpdates_status_only invoice t now (by simpa using ht)
    have hE : patchRoute db user id { emptyPatch with status := some t } now =
        (⟨200, .invoice (getInvoice (updateInvoices db invoice.id u) invoice.id)⟩,
          updateInvoices db invoice.id u) := by
      simp [patchRoute, hget, hauth, hu]
    rw [hE]
    refine ⟨rfl, ?_⟩
    rw [getInvoice_update_self u hget]
    simp [applySet, hst]
  · intro body t hb hnot
    obtain ⟨m, hu⟩ := patchUpdates_invalid_status invoice now hb hnot
    simp [patchRoute, hget, hauth, hu]

/-- C24 at the paid sample invoice: an administrator moves it to DRAFT, and a PATCH with
the status `OVERDUE` is answered 400. -/
theorem C24_status_transitions_unrestricted_witness :
    getInvoice { sampleDb with invoices := [paidInvoice] } "inv_1" = some paidInvoice ∧
    (getInvoice (patchRoute { sampleDb with invoices := [paidInvoice] } sampleAdmin "inv_1"
      { emptyPatch with status := some "DRAFT" } 3).2 "inv_1").map (fun r => r.status) =
      some "DRAFT" ∧
    (patchRoute { sampleDb with invoices := [paidInvoice] } sampleAdmin "inv_1"
      { emptyPatch with status := some "OVERDUE" } 3).1.status = 400 :=
  ⟨by decide,
    ((C24_status_transitions_unrestricted { sampleDb with invoices := [paidInvoice] } sampleAdmin
      "inv_1" 3 paidInvoice (by decide) (by decide)).1 "DRAFT" (by decide)).2,
    ((C24_status_transitions_unrestricted { sampleDb with invoices := [paidInvoice] } sampleAdmin
      "inv_1" 3 paidInvoice (by decide) (by decide)).2
      { emptyPatch with status := some "OVERDUE" } "OVERDUE" rfl (by decide)).1⟩

/-- C25, as stated, fails: the route reads the clock once for `issuedAt` and once more
for `updatedAt`, and when the clock advances in between the created invoice has
`issuedAt` different from `updatedAt`. -/
theorem C25_clock_read_twice :
    createRoute sampleDb sampleAdmin sampleCreate "inv_1" 2024 1 2 =
      (⟨201, .invoice (some tickedInvoice)⟩, { sampleDb with invoices := [tickedInvoice] }) ∧
    tickedInvoice.issuedAt = 1 ∧ tickedInvoice.updatedAt = 2 ∧
    tickedInvoice.issuedAt ≠ tickedInvoice.updatedAt := by
  refine ⟨by decide, rfl, rfl, by decide⟩

/-- C25, amended: a create request answered 201 has appended one invoice to the store and
answers with it; the invoice has the requested status when that is one of the five
statuses and SENT when the request omits the status or gives another value; it has
`amountPaidCents = 0`, `issuedAt` the first and `updatedAt` the second reading of the
clock, which are equal when the clock did not advance between the two. -/
theorem C25_created_status_and_times (db : Db) (user : User) (body : CreateBody)
    (newId : String) (year issuedNow updatedNow : Nat)
    (h201 : (createRoute db user body newId year issuedNow updatedNow).1.status = 201) :
    ∃ invoice, createRoute db user body newId year issuedNow updatedNow =
        (⟨201, .invoice (some invoice)⟩, { db with invoices := db.invoices ++ [invoice] }) ∧
      (∀ s, body.status = some s → s ∈ INVOICE_STATUSES → invoice.status = s) ∧
      (∀ s, body.status = some s → s ∉ INVOICE_STATUSES → invoice.status = "SENT") ∧
      (body.status = none → invoice.status = "SENT") ∧
      invoice.amountPaidCents = 0 ∧ invoice.issuedAt = issuedNow ∧
      invoice.updatedAt = updatedNow ∧
      (issuedNow = updatedNow → invoice.issuedAt = invoice.updatedAt) := by
  rcases createRoute_cases db user body newId year issuedNow updatedNow with
    ⟨r, hr, hroute⟩ | ⟨row, _, _, hroute⟩ | ⟨invoice, h, _, hroute⟩
  · rw [hroute] at h201
    rcases createInvoice_error_status hr with h1 | h1 | h1 | h1
    · rw [h201] at h1; cases h1
    · rw [h201] at h1; cases h1
    · rw [h201] at h1; cases h1
    · rw [h1] at h201; cases h201
  · rw [hroute] at h201; cases h201
  · obtain ⟨_, _, _, _, _, _, _, _, _, _, hst, hpaid, hiss, hupd, _⟩ := createInvoice_ok_full h
    refine ⟨invoice, hroute, fun s hs hin => ?_, fun s hs hnot => ?_, fun hs => ?_, hpaid,
      hiss, hupd, fun heq => ?_⟩
    · rw [hst, hs]; simp [hin]
    · rw [hst, hs]; simp [hnot]
    · rw [hst, hs]
    · rw [hiss, hupd, heq]

/-- C25, amended, at a create request asking for the status `OVERDUE`, which is stored
as SENT. -/
theorem C25_created_status_and_times_witness :
    (createRoute sampleDb sampleAdmin { sampleCreate with status := some "OVERDUE" } "inv_1"
      2024 1 1).1.status = 201 ∧
    ∃ invoice,
      createRoute sampleDb sampleAdmin { sampleCreate with status := some "OVERDUE" } "inv_1"
          2024 1 1 =
        (⟨201, .invoice (some invoice)⟩,
          { sampleDb with invoices := sampleDb.invoices ++ [invoice] }) ∧
      invoice.status = "SENT" ∧ invoice.amountPaidCents = 0 ∧ invoice.issuedAt = 1 ∧
      invoice.updatedAt = 1 := by
  refine ⟨by decide, ?_⟩
  obtain ⟨invoice, h1, _, h3, _, h5, h6, h7, _⟩ :=
    C25_created_status_and_times sampleDb sampleAdmin
      { sampleCreate with status := some "OVERDUE" } "inv_1" 2024 1 1 (by decide)
  exact ⟨invoice, h1, h3 "OVERDUE" rfl (by decide), h5, h6, h7⟩

/-- C26: a successfully created invoice has the `workspaceId` of its client's
`portalWorkspaceId` when that is set and of the client's `workspaceId` otherwise; when
the request supplies no invoice number (or a blank one), the number is generated from
the count of the invoices of that same workspace. -/
theorem C26_created_workspace (db : Db) (user : User) (body : CreateBody)
    (newId : String) (year issuedNow updatedNow : Nat) (invoice : Invoice)
    (h : createInvoice db user body newId year issuedNow updatedNow = .ok invoice) :
    ∃ client, getClientRecord db (body.clientId.getD "") = some client ∧
      (∀ w, client.portalWorkspaceId = some w → w ≠ "" → invoice.workspaceId = w) ∧
      ((client.portalWorkspaceId = none ∨ client.portalWorkspaceId = some "") →
        invoice.workspaceId = client.workspaceId) ∧
      ((body.invoiceNumber = none ∨ trim (body.invoiceNumber.getD "") = "") →
        invoice.invoiceNumber = getNextInvoiceNumber db invoice.workspaceId year ∧
        invoice.invoiceNumber =
          "INV-" ++ toString year ++ "-" ++
            padStart4 (toString (invoiceCount db invoice.workspaceId + 1))) := by
  obtain ⟨client, hclient, _, _, hws, _, _, hnum, _⟩ := createInvoice_ok_full h
  refine ⟨client, hclient, fun w hw hne => ?_, fun hw => ?_, fun hn => ?_⟩
  · rw [hws, hw]; simp [orDefault, hne]
  · rw [hws]
    rcases hw with hw | hw <;> simp [hw, orDefault]
  · have hauto : invoice.invoiceNumber = getNextInvoiceNumber db invoice.workspaceId year := by
      rw [hnum, hws]
      rcases hn with hn | hn
      · simp [hn, truthy]
      · simp [hn]
    exact ⟨hauto, hauto.trans rfl⟩

/-- C26 at a client of `ws_1` whose portal workspace is `ws_p`: the invoice is stored under
`ws_p` and numbered from the count of the invoices of `ws_p`. -/
theorem C26_created_workspace_witness :
    createInvoice twoWorkspaceDb ownerUser portalLinkedCreate "inv_2" 2024 1 1 =
      .ok portalLinkedInvoice ∧
    portalLinkedInvoice.workspaceId = "ws_p" ∧
    portalLinkedInvoice.invoiceNumber = "INV-2024-0001" ∧
    ∃ client, getClientRecord twoWorkspaceDb (portalLinkedCreate.clientId.getD "") =
      some client := by
  obtain ⟨client, hclient, _⟩ :=
    C26_created_workspace twoWorkspaceDb ownerUser portalLinkedCreate "inv_2" 2024 1 1
      portalLinkedInvoice rfl
  exact ⟨rfl, rfl, rfl, client, hclient⟩

/-- C27: a PATCH answered 400, 403 or 404 leaves the store exactly as it was, whatever
valid fields the request carries besides the one that fails. -/
theorem C27_patch_atomic_on_failure (db : Db) (user : User) (id : String) (body : PatchBody)
    (now : Nat)
    (hfail : (patchRoute db user id body now).1.status = 400 ∨
      (patchRoute db user id body now).1.status = 403 ∨
      (patchRoute db user id body now).1.status = 404) :
    (patchRoute db user id body now).2 = db := by
  rcases patchRoute_cases db user id body now with h | h | h | ⟨h, _⟩
  · exact h.2.2
  · exact h.2
  · exact h.2
  · rw [h] at hfail
    rcases hfail with h1 | h1 | h1 <;> cases h1

/-- C27 at a PATCH carrying a valid `status = VOID` together with the amount 0: it is
answered 400 and the invoice keeps its status. -/
theorem C27_patch_atomic_on_failure_witness :
    (patchRoute sampleStore sampleAdmin "inv_1" voidWithZeroAmount 2).1 =
      ⟨400, .message "amount must be greater than 0"⟩ ∧
    (patchRoute sampleStore sampleAdmin "inv_1" voidWithZeroAmount 2).2 = sampleStore ∧
    getInvoice sampleStore "inv_1" = some sampleInvoice :=
  ⟨by decide,
    C27_patch_atomic_on_failure sampleStore sampleAdmin "inv_1" voidWithZeroAmount 2
      (Or.inl (by decide)),
    by decide⟩

/-- C28: for an actor whose membership role in the workspace is CLIENT, the listing by
workspace is answered 200 and every invoice it returns belongs to that workspace and to
a client record that matches the actor (its `portalUserId` is the actor's id, or both
emails are present and equal ignoring case), so that `canAccessInvoice` holds for it;
when no client record matches the actor the listing is empty. -/
theorem C28_portal_listing_confined (db : Db) (user : User) (w : String) (m : WorkspaceMember)
    (hw : w ≠ "")
    (hm : getWorkspaceMembership db w user.id = some m)
    (hrole : m.role = "CLIENT") :
    (listRoute db user (some w) none).status = 200 ∧
    (∀ r ∈ (listRoute db user (some w) none).rows,
      r ∈ db.invoices ∧ r.workspaceId = w ∧
        ∃ c ∈ db.clients, c.id = r.clientId ∧
          ((truthy c.portalUserId = true ∧ c.portalUserId = some user.id) ∨
            (truthy c.email = true ∧ truthy user.email = true ∧
              c.email.map toLowerCase = user.email.map toLowerCase)) ∧
          canAccessInvoice db user r (some c) = true) ∧
    ((db.clients.map (fun c => c.id)).Nodup →
      ∀ r ∈ (listRoute db user (some w) none).rows,
        canAccessInvoice db user r (getClientRecord db r.clientId) = true) ∧
    ((∀ c ∈ db.clients, ¬ ClientMatchesUser user (some c)) →
      (listRoute db user (some w) none).rows = []) := by
  have hok : (listRoute db user (some w) none).status ≠ 403 := by
    rw [listRoute_workspace db user w hw]
    simp only [hm, Option.isNone_some, Bool.false_and, Bool.false_eq_true, ↓reduceIte]
    split
    · split
      · exact (by decide : (200 : Nat) ≠ 403)
      · exact (by decide : (200 : Nat) ≠ 403)
    · exact (by decide : (200 : Nat) ≠ 403)
  have hactor : user.role = "CLIENT" ∨
      (getWorkspaceMembership db w user.id).map (fun m => m.role) = some "CLIENT" :=
    Or.inr (by simp [hm, hrole])
  have hrows : ∀ r ∈ (listRoute db user (some w) none).rows,
      r ∈ db.invoices ∧ r.workspaceId = w ∧
        ∃ c ∈ db.clients, c.id = r.clientId ∧ ClientMatchesUser user (some c) := by
    intro r hr
    obtain ⟨hin, hws, hown⟩ := ((listRoute_rows_iff db user w hw hok r).2).1 hr
    obtain ⟨c, hc, hid, _, hmatch⟩ := mem_resolveClientIdsForPortalUser (hown hactor)
    exact ⟨hin, hws, c, hc, hid, hmatch⟩
  refine ⟨(listRoute_rows_iff db user w hw hok sampleInvoice).1, fun r hr => ?_,
    fun hpk r hr => listRoute_sound db user w hw hpk hok r hr, fun hnone => ?_⟩
  · obtain ⟨hin, hws, c, hc, hid, hmatch⟩ := hrows r hr
    refine ⟨hin, hws, c, hc, hid, ?_, ?_⟩
    · obtain ⟨c1, hc1, h⟩ := hmatch
      cases hc1
      exact h
    · rw [canAccessInvoice_iff]
      exact Or.inr ⟨m, by rw [hws]; exact hm, Or.inr (Or.inl ⟨hrole, hmatch⟩)⟩
  · apply List.eq_nil_iff_forall_not_mem.2
    intro r hr
    obtain ⟨_, _, c, hc, _, hmatch⟩ := hrows r hr
    exact hnone c hc hmatch

/-- C28 at the portal user, a CLIENT member of `ws_1` whose email matches the client that
is portal-linked to `ws_1`: the listing holds the sample invoice, which is accessible. -/
theorem C28_portal_listing_confined_witness :
    getWorkspaceMembership linkedPortalStore "ws_1" "u_portal" =
      some { workspaceId := "ws_1", userId := "u_portal", role := "CLIENT" } ∧
    (listRoute linkedPortalStore portalUser (some "ws_1") none).rows = [sampleInvoice] ∧
    (listRoute linkedPortalStore portalUser (some "ws_1") none).status = 200 ∧
    canAccessInvoice linkedPortalStore portalUser sampleInvoice
      (getClientRecord linkedPortalStore sampleInvoice.clientId) = true :=
  ⟨by decide, by decide,
    (C28_portal_listing_confined linkedPortalStore portalUser "ws_1"
      { workspaceId := "ws_1", userId := "u_portal", role := "CLIENT" } (by decide) (by decide)
      rfl).1,
    (C28_portal_listing_confined linkedPortalStore portalUser "ws_1"
      { workspaceId := "ws_1", userId := "u_portal", role := "CLIENT" } (by decide) (by decide)
      rfl).2.2.1 (by decide) sampleInvoice (by decide)⟩

/-- C29: when a PATCH on a stored invoice with `amountPaidCents = amountCents` (a PAID
invoice in particular) succeeds with a status among DRAFT, SENT and PARTIALLY_PAID and
no amount, the stored invoice keeps `amountPaidCents`, `paidAt` and `amountCents`, so its
remaining balance is 0. A following checkout-session initiation never reaches the provider nor changes the
store, and once past the configuration and access checks it is answered 400 with
`Invoice has no remaining balance`; no webhook event settles the invoice. -/
theorem C29_leaving_paid_keeps_payment (db : Db) (user : User) (id : String) (body : PatchBody)
    (now : Nat) (invoice : Invoice)
    (hget : getInvoice db id = some invoice)
    (hfull : invoice.amountPaidCents = invoice.amountCents)
    (hst : body.status = some "DRAFT" ∨ body.status = some "SENT" ∨
      body.status = some "PARTIALLY_PAID")
    (hamt : body.amount = none)
    (hok : (patchRoute db user id body now).1.status = 200) :
    ∃ result, getInvoice (patchRoute db user id body now).2 id = some result ∧
      body.status = some result.status ∧
      result.amountPaidCents = invoice.amountPaidCents ∧
      result.paidAt = invoice.paidAt ∧
      result.amountCents = invoice.amountCents ∧
      remainingAmountCents result = 0 ∧
      (∀ (env : Env) (stripe : CheckoutParams → ProviderSession) (db1 : Db) (user1 : User)
          (now1 : Nat), getInvoice db1 id = some result →
        (checkoutRoute env stripe db1 user1 id now1).providerCalls = [] ∧
        (checkoutRoute env stripe db1 user1 id now1).db = db1 ∧
        (isStripeConfigured env = true →
          canAccessInvoice db1 user1 result (getClientRecord db1 result.clientId) = true →
          (checkoutRoute env stripe db1 user1 id now1).response =
            ⟨400, .message "Invoice has no remaining balance"⟩)) ∧
      (∀ (event : StripeEvent) (now1 : Nat),
        shouldSettle result event.session = false ∧ webhookRow result event now1 = result) ∧
      (∀ (db1 : Db) (event : StripeEvent) (now1 : Nat), getInvoice db1 id = some result →
        getInvoice (handleEvent db1 event now1) id = some result) := by
  rcases patchRoute_cases db user id body now with h | h | h | ⟨_, invoice1, u, hget1, _, hu, hdb⟩
  · rw [h.1] at hok; cases hok
  · rw [h.1] at hok; cases hok
  · rcases h.1 with h1 | h1 <;> rw [h1] at hok <;> cases hok
  · rw [hget] at hget1
    cases hget1
    obtain ⟨hust, _, hupaid, hupaidAt, huamt, _, _, _⟩ := patchUpdates_ok hu
    have hnotPaid : body.status ≠ some "PAID" := by
      rcases hst with h | h | h <;> rw [h] <;> decide
    have hnotVoid : body.status ≠ some "VOID" := by
      rcases hst with h | h | h <;> rw [h] <;> decide
    have hamtU : u.amountCents = none := by
      rcases huamt with ⟨_, h⟩ | ⟨_, _, hraw, _⟩
      · exact h
      · rw [hamt] at hraw; cases hraw
    have r1 : (applySet u invoice).amountPaidCents = invoice.amountPaidCents := by
      simp [applySet, hupaid, hnotPaid]
    have r2 : (applySet u invoice).paidAt = invoice.paidAt := by
      simp [applySet, hupaidAt, hnotPaid, hnotVoid]
    have r3 : (applySet u invoice).amountCents = invoice.amountCents := by
      simp [applySet, hamtU]
    have r4 : body.status = some (applySet u invoice).status := by
      rcases hst with h | h | h <;> simp [applySet, hust, h]
    have r5 : remainingAmountCents (applySet u invoice) = 0 := by
      rw [remainingAmountCents_eq_zero, r1, r3, hfull]; omega
    have r6 : (applySet u invoice).status ≠ "PAID" := by
      intro h; rw [h] at r4; exact hnotPaid r4
    have r7 : (applySet u invoice).status ≠ "VOID" := by
      intro h; rw [h] at r4; exact hnotVoid r4
    have hsettle : ∀ event : StripeEvent,
        shouldSettle (applySet u invoice) event.session = false := by
      intro event
      cases hs : shouldSettle (applySet u invoice) event.session with
      | false => rfl
      | true =>
        have h3 := ((shouldSettle_iff _ _).1 hs).2.2.1
        have h5 := (remainingAmountCents_eq_zero _).1 r5
        omega
    have hrow : ∀ (event : StripeEvent) (now1 : Nat),
        webhookRow (applySet u invoice) event now1 = applySet u invoice := by
      intro event now1
      simp [webhookRow, settles, hsettle event]
    refine ⟨applySet u invoice, by rw [hdb]; exact getInvoice_update_self u hget, r4, r1, r2, r3,
      r5, ?_, fun event now1 => ⟨hsettle event, hrow event now1⟩, ?_⟩
    · intro env stripe db1 user1 now1 hget2
      have hremle : (applySet u invoice).amountCents - (applySet u invoice).amountPaidCents ≤ 0 :=
        (remainingAmountCents_eq_zero _).1 r5
      have hnoparams : ∀ params,
          checkoutParams env db1 user1 (applySet u invoice) ≠ .ok params := by
        intro params hp
        have := (checkoutParams_ok_full hp).2.2.2.1
        omega
      refine ⟨?_, ?_, fun hcfg hacc => ?_⟩
      · by_cases hcfg : isStripeConfigured env = true
        · cases hp : checkoutParams env db1 user1 (applySet u invoice) with
          | error r => simp [checkoutRoute, hcfg, hget2, hp]
          | ok params => exact absurd hp (hnoparams params)
        · simp [checkoutRoute, hcfg]
      · by_cases hcfg : isStripeConfigured env = true
        · cases hp : checkoutParams env db1 user1 (applySet u invoice) with
          | error r => simp [checkoutRoute, hcfg, hget2, hp]
          | ok params => exact absurd hp (hnoparams params)
        · simp [checkoutRoute, hcfg]
      · have hp := (((checkoutParams_checks env db1 user1 (applySet u invoice)).2 hacc).2
          r6 r7).1 hremle
        simp [checkoutRoute, hcfg, hget2, hp]
    · intro db1 event now1 hget2
      rw [getInvoice_handleEvent, hget2]
      simp [hrow event now1]

/-- C29 at the paid sample invoice moved to SENT by an administrator. -/
theorem C29_leaving_paid_keeps_payment_witness :
    getInvoice { sampleDb with invoices := [paidInvoice] } "inv_1" = some paidInvoice ∧
    paidInvoice.status = "PAID" ∧ paidInvoice.amountPaidCents = paidInvoice.amountCents ∧
    (patchRoute { sampleDb with invoices := [paidInvoice] } sampleAdmin "inv_1"
      { emptyPatch with status := some "SENT" } 3).1.status = 200 ∧
    ∃ result, getInvoice (patchRoute { sampleDb with invoices := [paidInvoice] } sampleAdmin
        "inv_1" { emptyPatch with status := some "SENT" } 3).2 "inv_1" = some result ∧
      result.amountPaidCents = 10000 ∧ result.paidAt = some 2 ∧
      remainingAmountCents result = 0 := by
  refine ⟨by decide, rfl, rfl, by decide, ?_⟩
  obtain ⟨result, h1, _, h3, h4, _, h6, _⟩ :=
    C29_leaving_paid_keeps_payment { sampleDb with invoices := [paidInvoice] } sampleAdmin
      "inv_1" { emptyPatch with status := some "SENT" } 3 paidInvoice (by decide) rfl
      (Or.inr (Or.inl rfl)) rfl (by decide)
  exact ⟨result, h1, h3, h4, h6⟩

/-! ## Message senders -/

theorem stripSensitive_mem (row : UserRow) (k v : String) :
    (k, v) ∈ row.filter (fun kv => kv.1 != "password_hash") ↔
      (k, v) ∈ row ∧ k ≠ "password_hash" := by
  simp [List.mem_filter]

theorem senderMapAt_stripped (senders : List UserRow) (key : String) :
    senderMapAt senders key = none ∨
      ∃ row ∈ senders, senderMapAt senders key = stripSensitive (some row) := by
  unfold senderMapAt
  cases h : senders.reverse.find? (fun u => u.lookup "id" == some key) with
  | none => exact Or.inl rfl
  | some row =>
    right
    have hmem := List.mem_of_find?_eq_some h
    exact ⟨row, by simpa using hmem, rfl⟩

theorem listMessages_senders (store : MessageStore) (user : User) (workspaceId : Option String)
    (s : Option UserRow) (hs : s ∈ (listMessages store user workspaceId).senders) :
    s = none ∨ ∃ row ∈ store.users, s = stripSensitive (some row) := by
  unfold listMessages at hs
  split at hs
  · cases hs
  · split at hs
    · cases hs
    · simp only [MessageResponse.senders, List.map_map, List.mem_map, Function.comp] at hs
      obtain ⟨message, _, rfl⟩ := hs
      cases hid : message.senderId with
      | none => exact Or.inl rfl
      | some sid =>
        simp only [Option.some_bind]
        rcases senderMapAt_stripped _ sid with h | ⟨row, hrow, h⟩
        · exact Or.inl h
        · right
          refine ⟨row, ?_, h⟩
          split at hrow
          · cases hrow
          · exact (List.mem_filter.1 hrow).1

theorem createMessage_senders (store : MessageStore) (user : User)
    (workspaceId body : Option String) (messageId : String) (s : Option UserRow)
    (hs : s ∈ (createMessage store user workspaceId body messageId).1.senders) :
    s = none ∨ ∃ row ∈ store.users, s = stripSensitive (some row) := by
  unfold createMessage at hs
  split at hs
  · cases hs
  · split at hs
    · cases hs
    · simp only [MessageResponse.senders, List.mem_singleton] at hs
      subst hs
      cases h : store.users.find? (fun u => u.lookup "id" == some user.id) with
      | none => exact Or.inl rfl
      | some row => exact Or.inr ⟨row, List.mem_of_find?_eq_some h, rfl⟩

/-- C30: `stripSensitive` returns null for null and, for a user object, the object with
every key except `password_hash` and the same values; every sender attached to a message
by the list and create routes is null or the result of `stripSensitive` on a user row,
so no sender in a message response has the key `password_hash`. -/
theorem C30_senders_are_stripped :
    stripSensitive none = none ∧
    (∀ row : UserRow, ∃ safe, stripSensitive (some row) = some safe ∧
      ∀ k v, (k, v) ∈ safe ↔ ((k, v) ∈ row ∧ k ≠ "password_hash")) ∧
    (∀ (store : MessageStore) (user : User) (workspaceId : Option String),
      ∀ s ∈ (listMessages store user workspaceId).senders,
        (s = none ∨ ∃ row ∈ store.users, s = stripSensitive (some row)) ∧
        ∀ safe, s = some safe → ∀ v, ("password_hash", v) ∉ safe) ∧
    (∀ (store : MessageStore) (user : User) (workspaceId body : Option String)
        (messageId : String),
      ∀ s ∈ (createMessage store user workspaceId body messageId).1.senders,
        (s = none ∨ ∃ row ∈ store.users, s = stripSensitive (some row)) ∧
        ∀ safe, s = some safe → ∀ v, ("password_hash", v) ∉ safe) := by
  have hclean : ∀ (users : List UserRow) (s : Option UserRow),
      (s = none ∨ ∃ row ∈ users, s = stripSensitive (some row)) →
      ∀ safe, s = some safe → ∀ v, ("password_hash", v) ∉ safe := by
    intro users s h safe hsafe v hv
    rcases h with h | ⟨row, _, h⟩
    · rw [h] at hsafe; cases hsafe
    · rw [h] at hsafe
      simp only [stripSensitive, Option.some.injEq] at hsafe
      subst hsafe
      exact ((stripSensitive_mem row "password_hash" v).1 hv).2 rfl
  refine ⟨rfl, fun row => ⟨_, rfl, fun k v => stripSensitive_mem row k v⟩, ?_, ?_⟩
  · intro store user workspaceId s hs
    have h := listMessages_senders store user workspaceId s hs
    exact ⟨h, hclean store.users s h⟩
  · intro store user workspaceId body messageId s hs
    have h := createMessage_senders store user workspaceId body messageId s hs
    exact ⟨h, hclean store.users s h⟩

/-- C30 at the sample message store: the sender of the listed message is the user row
without its `password_hash`. -/
theorem C30_senders_are_stripped_witness :
    (listMessages sampleMessageStore sampleAdmin (some "ws_1")).senders =
      [some [("id", "u_admin"), ("email", "admin@example.com"), ("role", "ADMIN")]] ∧
    ∀ v, ("password_hash", v) ∉
      [("id", "u_admin"), ("email", "admin@example.com"), ("role", "ADMIN")] :=
  ⟨by decide,
    (C30_senders_are_stripped.2.2.1 sampleMessageStore sampleAdmin (some "ws_1")
      (some [("id", "u_admin"), ("email", "admin@example.com"), ("role", "ADMIN")])
      (by decide)).2 _ rfl⟩

end Portal
